import Mathlib

/-!
# EduConnect backend: discussion feed, likes, conversations and notifications

A shallow embedding of the route handlers of `src/routes/discussions.js`,
`src/routes/messages.js`, `src/routes/notifications.js`, `src/routes/subscriptions.js` and
`src/routes/studyMaterials.js`, of the moderation function of `src/utils/aiModeration.js`
and of the socket wiring of `src/server.js`, over tables declared in `src/schema.js`.

Conventions of the embedding.

* A table is the list of its rows in insertion order; a `SELECT` scans it in that order.
* The `INTEGER` / `TIMESTAMP` columns are mathematical integers.  A JavaScript number is an
  integer, an infinity or `NaN` (`JsNum`): an integer result is kept exact below the
  magnitude 2^1024 - 2^970, from which on a double is infinite.  A double is exact only up
  to 2^53 - 1 (`maxSafeInteger`) and rounds beyond; the properties that depend on the exact
  value of a number are stated for numbers up to `maxSafeInteger`.
* Lower case (`toLowerCase`, `ILIKE`) folds the letters A to Z.  The banned words of the
  moderation filter are made of the letters a to z, none has a `k` and none ends in `i`, so
  no other character that JavaScript lowers to or into ASCII (the Kelvin sign, the dotted
  capital I) can complete one: a text contains a banned word after `toLowerCase()` exactly
  when it does after folding A to Z.  The same holds of the words `allow` and `reject` of
  the verdict.
* `SERIAL` columns draw their value from a per-table counter kept in the database state.
* Each `pool.query` call site of a handler is named by a `Site`; the request context says
  for each site whether the store rejects the statement for a reason outside the tables
  (lost connection, value out of range, ...).  A rejected statement throws, and the
  handler runs its `catch` block.  The declared `UNIQUE` and `REFERENCES` constraints of the
  tables a handler writes are checked by the insert steps themselves.
* Every handler returns the response together with the new state and the list of effects
  (statements issued, socket events emitted) in the order in which they happen.
* Two requests in flight are two handlers whose statements interleave (`runSchedule`): a
  statement is atomic, and between two statements of one request the other request may
  issue any number of its own.
-/

namespace EduConnect

/-! ## JavaScript values -/

/-- A value of `req.query` as express hands it to a handler: a string, an array, or a
nested object (kept as its JSON text). -/
inductive QVal where
  | str (s : String)
  | arr (xs : List QVal)
  | obj (json : String)
deriving Repr

mutual
/-- The JavaScript conversion `String(v)`, which is also what a template literal applies. -/
def QVal.jsString : QVal → String
  | .str s => s
  | .arr xs => ",".intercalate (jsStringList xs)
  | .obj _ => "[object Object]"
/-- Element-wise `String(v)` over an array. -/
def jsStringList : List QVal → List String
  | [] => []
  | x :: xs => x.jsString :: jsStringList xs
end

/-- JavaScript truthiness of a query value: only the empty string is falsy. -/
def QVal.truthy : QVal → Bool
  | .str s => !(s == "")
  | _ => true

/-- Truthiness of an optional query value (`undefined` is falsy). -/
def truthy? : Option QVal → Bool
  | none => false
  | some v => v.truthy

/-- The white space that `parseInt` skips before the sign. -/
def isJsWhiteSpace (c : Char) : Bool :=
  let n := c.toNat
  n == 0x09 || n == 0x0A || n == 0x0B || n == 0x0C || n == 0x0D || n == 0x20 || n == 0xA0 ||
  n == 0x1680 || (0x2000 ≤ n && n ≤ 0x200A) || n == 0x2028 || n == 0x2029 || n == 0x202F ||
  n == 0x205F || n == 0x3000 || n == 0xFEFF

/-- The value of a string of decimal digits. -/
def digitsValue (ds : List Char) : Nat :=
  ds.foldl (fun acc c => 10 * acc + (c.toNat - 48)) 0

/-- A JavaScript number, as far as the handlers compute with one: an integer, one of the
two infinities, or `NaN`. An integer is kept exact, where a double rounds it beyond 2^53. -/
inductive JsNum where
  | int (n : Int)
  | inf
  | negInf
  | nan
deriving DecidableEq, Repr

/-- The least magnitude that a double rounds to an infinity: 2^1024 - 2^970. -/
def doubleOverflow : Nat :=
  179769313486231580793728971405303415079934132710037826936173778980444968292764750946649017977587207096330286416692887910946555547851940402630657488671505820681908902000708383676273854845817711531764475730270069855571366959622842914819860834936475292719074168444365510704342711559699508093042880177904174497792

/-- The constant `Number.MAX_SAFE_INTEGER`, 2^53 - 1: up to it, in magnitude, doubles hold
every integer exactly. -/
def maxSafeInteger : Int := 9007199254740991

/-- The JavaScript number of an integer result: infinite beyond the range of doubles. -/
def JsNum.ofInt (v : Int) : JsNum :=
  if (doubleOverflow : Int) ≤ v then .inf
  else if v ≤ -(doubleOverflow : Int) then .negInf
  else .int v

/-- The JavaScript `Math.max(a, b)`. -/
def JsNum.max : JsNum → JsNum → JsNum
  | .nan, _ => .nan
  | _, .nan => .nan
  | .inf, _ => .inf
  | _, .inf => .inf
  | .negInf, b => b
  | a, .negInf => a
  | .int x, .int y => .int (Max.max x y)

/-- The JavaScript `Math.min(a, b)`. -/
def JsNum.min : JsNum → JsNum → JsNum
  | .nan, _ => .nan
  | _, .nan => .nan
  | .negInf, _ => .negInf
  | _, .negInf => .negInf
  | .inf, b => b
  | a, .inf => a
  | .int x, .int y => .int (Min.min x y)

/-- The JavaScript `a - b`. -/
def JsNum.sub : JsNum → JsNum → JsNum
  | .int x, .int y => JsNum.ofInt (x - y)
  | .nan, _ => .nan
  | _, .nan => .nan
  | .inf, .inf => .nan
  | .negInf, .negInf => .nan
  | .inf, _ => .inf
  | .negInf, _ => .negInf
  | .int _, .inf => .negInf
  | .int _, .negInf => .inf

/-- The sign of an integer times an infinity: `NaN` for zero. -/
def JsNum.scaleInf (positive : Bool) (y : Int) : JsNum :=
  if y = 0 then .nan else if (0 < y) = positive then .inf else .negInf

/-- The JavaScript `a * b`. -/
def JsNum.mul : JsNum → JsNum → JsNum
  | .int x, .int y => JsNum.ofInt (x * y)
  | .nan, _ => .nan
  | _, .nan => .nan
  | .inf, .inf => .inf
  | .negInf, .negInf => .inf
  | .inf, .negInf => .negInf
  | .negInf, .inf => .negInf
  | .inf, .int y => JsNum.scaleInf true y
  | .negInf, .int y => JsNum.scaleInf false y
  | .int x, .inf => JsNum.scaleInf true x
  | .int x, .negInf => JsNum.scaleInf false x

/-- The JavaScript `parseInt(s, 10)`: `NaN` when no digit follows the optional sign, an
infinity when the digits denote a number beyond the range of doubles. -/
def parseInt10 (s : String) : JsNum :=
  let cs := s.toList.dropWhile isJsWhiteSpace
  let neg := cs.head? == some '-'
  let rest := if cs.head? == some '-' || cs.head? == some '+' then cs.tail else cs
  let ds := rest.takeWhile Char.isDigit
  if ds.isEmpty then .nan
  else JsNum.ofInt (if neg then -(digitsValue ds : Int) else (digitsValue ds : Int))

/-- The JavaScript `x || d` on a number: `NaN` and `0` are falsy. -/
def orDefault (x : JsNum) (d : JsNum) : JsNum :=
  match x with
  | .nan => d
  | .int n => if n = 0 then d else .int n
  | y => y

/-- A JSON value, as sent in a response body or a socket payload.  A field whose value is
`undefined` is represented by its absence. -/
inductive JVal where
  | null
  | bool (b : Bool)
  | num (n : Int)
  | str (s : String)
  | arr (xs : List JVal)
  | obj (fields : List (String × JVal))
deriving Repr

/-- The value of field `k` of a JSON object, if the value is an object that has it. -/
def JVal.field? (k : String) : JVal → Option JVal
  | .obj fields => fields.lookup k
  | _ => none

/-- The body `JSON.stringify` writes for an object literal: a property whose value is
`undefined` (`none`) is left out. -/
def JVal.object (fields : List (String × Option JVal)) : JVal :=
  .obj (fields.filterMap (fun kv => kv.2.map (fun v => (kv.1, v))))

/-- An HTTP response: status code and JSON body. -/
structure Response where
  status : Nat
  body : JVal
deriving Repr

/-- The response of `res.json(body)`. -/
def Response.json (body : JVal) : Response := ⟨200, body⟩

/-- The response of `res.status(code).json({ success: false, message })`. -/
def Response.fail (code : Nat) (message : String) : Response :=
  ⟨code, .obj [("success", .bool false), ("message", .str message)]⟩

/-! ## Tables (src/schema.js) -/

/-- A row of `student`. -/
structure Student where
  stu_id : Int
  first_name : Option String
  last_name : Option String
  avatar : Option String
deriving DecidableEq, Repr

/-- A row of `modules`. -/
structure Module where
  id : Int
  code : String
  name : String
deriving DecidableEq, Repr

/-- A row of `student_subscriptions` or of `student_modules`: the columns `student_id` and
`module_id`, on which the statements select and the `UNIQUE` constraint bears.  The `id` and
`created_at` the store assigns to a subscription are returned by the insert and not kept. -/
structure Grant where
  student_id : Int
  module_id : Option Int
deriving DecidableEq, Repr

/-- A row of `discussions`. -/
structure Discussion where
  id : Int
  student_id : Int
  title : String
  content : String
  category : String
  views : Int
  likes : Int
  created_at : Int
  module_id : Option Int
deriving DecidableEq, Repr

/-- A row of `comments`. -/
structure Comment where
  id : Int
  discussion_id : Int
  student_id : Int
  content : String
  created_at : Int
deriving DecidableEq, Repr

/-- A row of `discussion_likes`. -/
structure Like where
  id : Int
  discussion_id : Int
  student_id : Int
  created_at : Int
deriving DecidableEq, Repr

/-- A row of `notifications`. -/
structure Notification where
  id : Int
  type : String
  ref_id : Option Int
  message : String
  created_at : Int
  is_read : Bool
deriving DecidableEq, Repr

/-- A row of `conversations`. -/
structure Conversation where
  id : Int
  created_at : Int
deriving DecidableEq, Repr

/-- A row of `conversation_participants`. -/
structure Participant where
  id : Int
  conversation_id : Int
  student_id : Int
deriving DecidableEq, Repr

/-- A row of `messages`. -/
structure Message where
  id : Int
  conversation_id : Int
  sender_id : Int
  content : String
  created_at : Int
deriving DecidableEq, Repr

/-- A row of `study_materials`. -/
structure Material where
  id : Int
  title : String
  module : String
  year : Int
  type : String
  description : String
  file_url : String
  downloads : Int
  uploaded_at : Int
  uploader_id : Int
deriving DecidableEq, Repr

/-- A row of `study_uploads`. -/
structure StudyUpload where
  id : Int
  stu_id : Int
  uploaded_at : Int
deriving DecidableEq, Repr

/-- The `SERIAL` counters: the next value each table's `id` column will receive. -/
structure Sequences where
  discussions : Int
  comments : Int
  discussion_likes : Int
  notifications : Int
  conversations : Int
  conversation_participants : Int
  messages : Int
  study_materials : Int
  study_uploads : Int
  student_subscriptions : Int
deriving DecidableEq, Repr

/-- The database state. -/
structure DB where
  student : List Student
  modules : List Module
  student_subscriptions : List Grant
  student_modules : List Grant
  discussions : List Discussion
  comments : List Comment
  discussion_likes : List Like
  notifications : List Notification
  conversations : List Conversation
  conversation_participants : List Participant
  messages : List Message
  study_materials : List Material
  study_uploads : List StudyUpload
  seq : Sequences
deriving DecidableEq, Repr

/-! ## Request context -/

/-- The `pool.query` call sites of the handlers. -/
inductive Site where
  | feedModules | feedPosts
  | likeCheck | likeDelete | likeDecrement | likeInsert | likeIncrement | likeLiker | likeNotify
  | postInsert | postAuthor | postModule | postNotify
  | commentInsert | commentCommenter | commentNotify
  | getSelect | getView | getComments
  | startExisting | startConversation | startParticipants
  | messageInsert | messagesSelect
  | uploadInsert | uploadMark | uploadNotify
  | notifList | notifRead | notifUnread | notifReadAll
  | subscribeModule | subscribeInsert
deriving DecidableEq, Repr

/-- What a request sees of its environment. -/
structure Ctx where
  /-- The store rejects the statement issued at this site for a reason outside the tables. -/
  rejects : Site → Bool
  /-- The handle `req.io` is set on the request. -/
  hasSocket : Bool
  /-- The module variable `ioInstance` of the message routes is set. -/
  ioInstance : Bool
  /-- The call `emit` on the socket server throws. -/
  emitThrows : Bool
  /-- The store clock `NOW()` at the time of the request. -/
  now : Int
  /-- The server clock `new Date()` at the time of the request. -/
  serverClock : Int
  /-- How the driver writes an array or object parameter as text. -/
  encode : QVal → String

/-- A context in which the store executes every statement and emitting does not throw. -/
def Ctx.healthy (ctx : Ctx) : Prop :=
  (∀ site, ctx.rejects site = false) ∧ ctx.emitThrows = false

/-! ## SQL values and three-valued logic -/

/-- A bound parameter `$k`. -/
inductive PgVal where
  | int (n : Int)
  | text (s : String)
  | null
deriving DecidableEq, Repr

/-- A nullable integer as a bound parameter. -/
def PgVal.ofInt? : Option Int → PgVal
  | some n => .int n
  | none => .null

/-- A JavaScript number as a bound parameter: the driver sends the text of
`val.toString()`, which the store reads as an integer only when it is one. -/
def PgVal.ofNum : JsNum → PgVal
  | .int n => .int n
  | .inf => .text "Infinity"
  | .negInf => .text "-Infinity"
  | .nan => .text "NaN"

/-- The integer a parameter denotes, `none` for NULL. -/
def PgVal.int? : PgVal → Option Int
  | .int n => some n
  | _ => none

/-- The text a parameter denotes, `none` for NULL. -/
def PgVal.text? : PgVal → Option String
  | .text s => some s
  | .int n => some (toString n)
  | .null => none

/-- The parameter bound to placeholder `$k` (placeholders count from 1). -/
def param (values : List PgVal) (k : Nat) : PgVal :=
  if k = 0 then .null else values.getD (k - 1) .null

/-- An SQL truth value; `none` is NULL. -/
abbrev Tri := Option Bool

/-- SQL `AND`. -/
def triAnd : Tri → Tri → Tri
  | some false, _ => some false
  | _, some false => some false
  | some true, some true => some true
  | _, _ => none

/-- SQL `OR`. -/
def triOr : Tri → Tri → Tri
  | some true, _ => some true
  | _, some true => some true
  | some false, some false => some false
  | _, _ => none

/-- SQL `=` on nullable values. -/
def sqlEq {α : Type} [DecidableEq α] : Option α → Option α → Tri
  | some a, some b => some (decide (a = b))
  | _, _ => none

/-- SQL `x IN (y1, ..., yn)`: the disjunction of `x = yi`. -/
def sqlIn (x : Option Int) (ys : List (Option Int)) : Tri :=
  ys.foldr (fun y acc => triOr (sqlEq x y) acc) (some false)

/-- Whether `f` holds of some suffix of the list, the list itself and the empty suffix
included. -/
def anySuffix (f : List Char → Bool) : List Char → Bool
  | [] => f []
  | c :: cs => f (c :: cs) || anySuffix f cs

/-- SQL `LIKE`: `%` matches any run of characters, `_` any one character, and a backslash
makes the next pattern character literal (the patterns of the handler end in `%`, so none
ends in a lone backslash). -/
def likeMatch : List Char → List Char → Bool
  | [], t => t.isEmpty
  | '%' :: p, t => anySuffix (likeMatch p) t
  | '_' :: p, t =>
    match t with
    | [] => false
    | _ :: t' => likeMatch p t'
  | '\\' :: c :: p, t =>
    match t with
    | [] => false
    | c' :: t' => c == c' && likeMatch p t'
  | c :: p, t =>
    match t with
    | [] => false
    | c' :: t' => c == c' && likeMatch p t'

/-- SQL `text ILIKE pattern`: `LIKE` after folding both sides to lower case. -/
def ilike (text pattern : String) : Bool :=
  likeMatch (pattern.toList.map Char.toLower) (text.toList.map Char.toLower)

/-- SQL `text ILIKE pattern` on nullable operands. -/
def sqlILike (text pattern : Option String) : Tri :=
  match text, pattern with
  | some t, some p => some (ilike t p)
  | _, _ => none

/-! ## GET /posts: the feed query (src/routes/discussions.js, lines 20 to 129) -/

/-- The query parameters of `GET /posts`; `none` is an absent parameter. -/
structure PostsParams where
  page : Option QVal
  limit : Option QVal
  category : Option QVal
  search : Option QVal
  sort : Option QVal
  include_general : Option QVal

/-- The number `pageNum`: `Math.max(parseInt(page, 10) || 1, 1)`, with `page = 1` when absent. -/
def pageNum (p : PostsParams) : JsNum :=
  JsNum.max (orDefault (parseInt10 ((p.page.getD (.str "1")).jsString)) (.int 1)) (.int 1)

/-- The number `limitNum`: `Math.max(Math.min(parseInt(limit, 10) || 10, 100), 1)`, with
`limit = 10` when absent. -/
def limitNum (p : PostsParams) : JsNum :=
  JsNum.max
    (JsNum.min (orDefault (parseInt10 ((p.limit.getD (.str "10")).jsString)) (.int 10))
      (.int 100))
    (.int 1)

/-- The number `offset`: `(pageNum - 1) * limitNum`. -/
def offset (p : PostsParams) : JsNum :=
  JsNum.mul (JsNum.sub (pageNum p) (.int 1)) (limitNum p)

/-- The allowlist `SORT_MAP` of sort columns. -/
def SORT_MAP : List String := ["created_at", "likes", "views", "title", "category"]

/-- The value `sortCol`: `SORT_MAP.has(String(sort)) ? sort : "created_at"`, with
`sort = "created_at"` when absent. -/
def sortCol (p : PostsParams) : QVal :=
  let sort := p.sort.getD (.str "created_at")
  if SORT_MAP.contains sort.jsString then sort else .str "created_at"

/-- The test `String(include_general) === "true"`, with `include_general = "true"` when
absent. -/
def includeGeneral (p : PostsParams) : Bool :=
  (p.include_general.getD (.str "true")).jsString == "true"

/-- The rows of `SELECT module_id FROM student_subscriptions WHERE student_id=$1 UNION
SELECT module_id FROM student_modules WHERE student_id=$1`, mapped to `module_id`. -/
def allowedModuleIds (db : DB) (viewer : Int) : List (Option Int) :=
  (((db.student_subscriptions.filter (fun g => g.student_id == viewer)).map Grant.module_id) ++
   ((db.student_modules.filter (fun g => g.student_id == viewer)).map Grant.module_id)).dedup

/-- The text `$k` of a placeholder. -/
def placeholder (k : Nat) : String := "$" ++ toString k

/-- The conditions the handler pushes on `conditions`, with the numbers of the placeholders
they mention. -/
inductive Cond where
  /-- The text `(d.module_id IS NULL OR d.module_id IN (ph))`. -/
  | generalOrIn (ph : List Nat)
  /-- The text `d.module_id IN (ph)`. -/
  | moduleIn (ph : List Nat)
  /-- The text `d.module_id IS NULL`. -/
  | generalOnly
  /-- The text `1=0`. -/
  | nothing
  /-- The text `d.category = $k`. -/
  | categoryEq (k : Nat)
  /-- The text `(d.title ILIKE $k OR d.content ILIKE $k)`. -/
  | searchLike (k : Nat)
deriving DecidableEq, Repr

/-- The SQL text of a condition. -/
def Cond.render : Cond → String
  | .generalOrIn ph =>
    "(d.module_id IS NULL OR d.module_id IN (" ++ ",".intercalate (ph.map placeholder) ++ "))"
  | .moduleIn ph => "d.module_id IN (" ++ ",".intercalate (ph.map placeholder) ++ ")"
  | .generalOnly => "d.module_id IS NULL"
  | .nothing => "1=0"
  | .categoryEq k => "d.category = " ++ placeholder k
  | .searchLike k =>
    "(d.title ILIKE " ++ placeholder k ++ " OR d.content ILIKE " ++ placeholder k ++ ")"

/-- The truth value of a condition on a row of `discussions`, under the bound parameters. -/
def Cond.eval (values : List PgVal) (d : Discussion) : Cond → Tri
  | .generalOrIn ph =>
    triOr (some d.module_id.isNone) (sqlIn d.module_id (ph.map (fun k => (param values k).int?)))
  | .moduleIn ph => sqlIn d.module_id (ph.map (fun k => (param values k).int?))
  | .generalOnly => some d.module_id.isNone
  | .nothing => some false
  | .categoryEq k => sqlEq (some d.category) (param values k).text?
  | .searchLike k =>
    triOr (sqlILike (some d.title) (param values k).text?)
      (sqlILike (some d.content) (param values k).text?)

/-- The text of a query value as the driver binds it: a string as itself, an array or object
as the driver encodes it. -/
def bindText (ctx : Ctx) : QVal → String
  | .str s => s
  | v => ctx.encode v

/-- The module visibility condition and the values it binds (lines 67 to 84). -/
def visibilityCondition (allowed : List (Option Int)) (p : PostsParams) :
    Cond × List PgVal :=
  if allowed.length > 0 then
    let ph := (List.range allowed.length).map (fun i => 0 + i + 1)
    let values := allowed.map PgVal.ofInt?
    if includeGeneral p then (.generalOrIn ph, values) else (.moduleIn ph, values)
  else if includeGeneral p then (.generalOnly, [])
  else (.nothing, [])

/-- The query the handler sends: its conditions, its bound values, the column text
interpolated after `ORDER BY d.` and the placeholders of `LIMIT` and `OFFSET`. -/
structure FeedQuery where
  conditions : List Cond
  values : List PgVal
  orderBy : String
  limitPh : Nat
  offsetPh : Nat
deriving Repr

/-- The query builder of the handler (lines 64 to 100). -/
def buildFeedQuery (ctx : Ctx) (allowed : List (Option Int)) (p : PostsParams) : FeedQuery :=
  let conditions := [(visibilityCondition allowed p).1]
  let values := (visibilityCondition allowed p).2
  let conditions :=
    if truthy? p.category then conditions ++ [.categoryEq (values.length + 1)] else conditions
  let values :=
    if truthy? p.category then values ++ [.text (bindText ctx (p.category.getD (.str "")))]
    else values
  let conditions :=
    if truthy? p.search then conditions ++ [.searchLike (values.length + 1)] else conditions
  let values :=
    if truthy? p.search then
      values ++ [.text ("%" ++ (p.search.getD (.str "")).jsString ++ "%")]
    else values
  { conditions := conditions
    values := values ++ [PgVal.ofNum (limitNum p), PgVal.ofNum (offset p)]
    orderBy := (sortCol p).jsString
    limitPh := values.length + 1
    offsetPh := values.length + 2 }

/-- The select list and the joins of the feed query (lines 52 to 62). -/
def feedSelect : String :=
  "\n      SELECT d.id, d.title, d.content, d.category, d.created_at, d.likes, d.views, d.student_id, d.module_id,\n             s.first_name AS author_first_name,\n             s.last_name  AS author_last_name,\n             s.avatar     AS author_avatar,\n             m.name       AS module_name,\n             m.code       AS module_code\n      FROM discussions d\n      LEFT JOIN student s ON d.student_id = s.stu_id\n      LEFT JOIN modules m ON d.module_id = m.id\n    "

/-- The tail `ORDER BY d.col DESC LIMIT $a OFFSET $b` of the query text (line 99). -/
def FeedQuery.orderClause (q : FeedQuery) : String :=
  " ORDER BY d." ++ q.orderBy ++ " DESC LIMIT " ++ placeholder q.limitPh ++
    " OFFSET " ++ placeholder q.offsetPh

/-- The SQL text of the query (lines 52 to 62, 98 and 99). -/
def FeedQuery.text (q : FeedQuery) : String :=
  feedSelect ++
    (if q.conditions.length > 0 then " WHERE " ++ " AND ".intercalate (q.conditions.map Cond.render)
     else "") ++
    q.orderClause

/-- A piece of the SQL text: a fixed or interpolated text, or a placeholder `$k`. -/
inductive Token where
  | lit (s : String)
  | ph (k : Nat)
deriving DecidableEq, Repr

/-- The text of a piece. -/
def Token.text : Token → String
  | .lit s => s
  | .ph k => placeholder k

/-- The text of a list of pieces, one after the other. -/
def renderTokens : List Token → String
  | [] => ""
  | t :: ts => t.text ++ renderTokens ts

/-- The pieces of `placeholders.join(",")`. -/
def commaList : List Nat → List Token
  | [] => []
  | [k] => [.ph k]
  | k :: ks => .ph k :: .lit "," :: commaList ks

/-- The pieces of the SQL text of a condition. -/
def Cond.tokens : Cond → List Token
  | .generalOrIn ph =>
    [.lit "(d.module_id IS NULL OR d.module_id IN ("] ++ commaList ph ++ [.lit "))"]
  | .moduleIn ph => [.lit "d.module_id IN ("] ++ commaList ph ++ [.lit ")"]
  | .generalOnly => [.lit "d.module_id IS NULL"]
  | .nothing => [.lit "1=0"]
  | .categoryEq k => [.lit "d.category = ", .ph k]
  | .searchLike k =>
    [.lit "(d.title ILIKE ", .ph k, .lit " OR d.content ILIKE ", .ph k, .lit ")"]

/-- The pieces of `conditions.join(" AND ")`. -/
def andList : List Cond → List Token
  | [] => []
  | [c] => c.tokens
  | c :: cs => c.tokens ++ .lit " AND " :: andList cs

/-- The pieces of the SQL text of the query. -/
def FeedQuery.tokens (q : FeedQuery) : List Token :=
  [.lit feedSelect] ++
    (if q.conditions.length > 0 then .lit " WHERE " :: andList q.conditions else []) ++
    [.lit " ORDER BY d.", .lit q.orderBy, .lit " DESC LIMIT ", .ph q.limitPh, .lit " OFFSET ",
      .ph q.offsetPh]

/-- The placeholders among the pieces, in the order in which they occur. -/
def placeholdersOf : List Token → List Nat
  | [] => []
  | .ph k :: ts => k :: placeholdersOf ts
  | .lit _ :: ts => placeholdersOf ts

/-- A result row of the feed query: a post with its author and module, when joined. -/
structure FeedRow where
  d : Discussion
  s : Option Student
  m : Option Module
deriving DecidableEq, Repr

/-- SQL `LEFT JOIN`: every left row with each matching right row, or with none. -/
def leftJoin {α β : Type} (left : List α) (right : List β) (joinOn : α → β → Bool) :
    List (α × Option β) :=
  left.flatMap (fun a =>
    match right.filter (joinOn a) with
    | [] => [(a, none)]
    | b :: bs => (b :: bs).map (fun x => (a, some x)))

/-- The rows of `discussions d LEFT JOIN student s ... LEFT JOIN modules m ...`. -/
def feedFrom (db : DB) : List FeedRow :=
  (leftJoin (leftJoin db.discussions db.student (fun d s => d.student_id == s.stu_id))
      db.modules (fun ds m => ds.1.module_id == some m.id)).map
    (fun r => { d := r.1.1, s := r.1.2, m := r.2 })

/-- The value a row is ordered by. -/
inductive SortKey where
  | int (n : Int)
  | text (s : String)
deriving DecidableEq, Repr

/-- The order of sort keys: numbers by value, texts by code point. -/
def SortKey.le : SortKey → SortKey → Bool
  | .int a, .int b => decide (a ≤ b)
  | .text a, .text b => decide (a ≤ b)
  | .int _, .text _ => true
  | .text _, .int _ => false

/-- The column of `discussions` named by the text after `ORDER BY d.`; `none` when the
text names no column the handler can sort by. -/
def orderColumn? (col : String) : Option (Discussion → SortKey) :=
  if col = "created_at" then some (fun d => .int d.created_at)
  else if col = "likes" then some (fun d => .int d.likes)
  else if col = "views" then some (fun d => .int d.views)
  else if col = "title" then some (fun d => .text d.title)
  else if col = "category" then some (fun d => .text d.category)
  else none

/-- The row passes `WHERE c1 AND ... AND cn`. -/
def passesWhere (conditions : List Cond) (values : List PgVal) (d : Discussion) : Bool :=
  conditions.foldr (fun c acc => triAnd (c.eval values d) acc) (some true) == some true

/-- The greatest `BIGINT` value, the type of `LIMIT` and `OFFSET`. -/
def bigintMax : Int := 9223372036854775807

/-- The rows the store returns for the query, `none` when it rejects the query (unknown
order column, or a `LIMIT` or `OFFSET` that is not a non-negative `BIGINT`). -/
def FeedQuery.exec (q : FeedQuery) (db : DB) : Option (List FeedRow) :=
  match orderColumn? q.orderBy, (param q.values q.limitPh).int?,
      (param q.values q.offsetPh).int? with
  | some key, some lim, some off =>
    if lim < 0 ∨ off < 0 ∨ bigintMax < lim ∨ bigintMax < off then none
    else
      let kept := (feedFrom db).filter (fun r => passesWhere q.conditions q.values r.d)
      let sorted := kept.insertionSort (fun a b => SortKey.le (key b.d) (key a.d) = true)
      some ((sorted.drop off.toNat).take lim.toNat)
  | _, _, _ => none

/-- The JavaScript `s || d` on a nullable string: `null` and the empty string are falsy. -/
def strOr (s : Option String) (d : JVal) : JVal :=
  match s with
  | some t => if t = "" then d else .str t
  | none => d

/-- A nullable string as JSON. -/
def strJson : Option String → JVal
  | some t => .str t
  | none => .null

/-- The object the handler builds for a result row (lines 104 to 122). -/
def postJson (r : FeedRow) : JVal :=
  .obj [("id", .num r.d.id), ("title", .str r.d.title), ("content", .str r.d.content),
    ("category", .str r.d.category), ("created_at", .num r.d.created_at),
    ("likes", .num r.d.likes), ("views", .num r.d.views), ("student_id", .num r.d.student_id),
    ("module",
      match r.d.module_id with
      | some mid =>
        if mid = 0 then .null
        else .obj [("id", .num mid), ("name", strJson (r.m.map Module.name)),
          ("code", strJson (r.m.map Module.code))]
      | none => .null),
    ("author", .obj [("id", .num r.d.student_id),
      ("first_name", strOr (r.s.bind Student.first_name) (.str "Unknown")),
      ("last_name", strOr (r.s.bind Student.last_name) (.str "")),
      ("avatar", strOr (r.s.bind Student.avatar) .null)])]

/-- The handler of `GET /posts` for an authenticated viewer. -/
def getPosts (ctx : Ctx) (db : DB) (viewer : Int) (p : PostsParams) : Response :=
  if ctx.rejects .feedModules then Response.fail 500 "Error fetching posts"
  else if ctx.rejects .feedPosts then Response.fail 500 "Error fetching posts"
  else
    match (buildFeedQuery ctx (allowedModuleIds db viewer) p).exec db with
    | some rows => Response.json (.obj [("success", .bool true), ("posts", .arr (rows.map postJson))])
    | none => Response.fail 500 "Error fetching posts"

/-! ## Handlers as computations over the database -/

/-- Something a handler does that can be observed from outside. -/
inductive Effect where
  /-- A statement was issued at the site; `executed` is false when it threw. -/
  | query (site : Site) (executed : Bool)
  /-- An event was emitted, to a room (`io.to(room).emit`) or to every socket (`io.emit`). -/
  | emit (room : Option String) (event : String) (payload : JVal)
deriving Repr

/-- The state a handler runs in: the tables and the effects so far, oldest first. -/
structure HState where
  db : DB
  effects : List Effect

/-- A handler computation: its result (`none` when it threw) and the state it reached. -/
def H (α : Type) : Type := HState → Option α × HState

/-- Return a value. -/
def H.pure {α : Type} (a : α) : H α := fun st => (some a, st)

/-- Run `m`, then `f` on its result; a throw in `m` skips `f`. -/
def H.bind {α β : Type} (m : H α) (f : α → H β) : H β := fun st =>
  match m st with
  | (some a, st') => f a st'
  | (none, st') => (none, st')

instance : Monad H where
  pure := H.pure
  bind := H.bind

/-- The call `await pool.query(...)` at a site: it throws when the context rejects the
statement or when the statement itself fails on the tables. -/
def query {α : Type} (ctx : Ctx) (site : Site) (stmt : DB → Option α × DB) : H α := fun st =>
  if ctx.rejects site then (none, { st with effects := st.effects ++ [.query site false] })
  else
    match stmt st.db with
    | (some a, db') => (some a, { db := db', effects := st.effects ++ [.query site true] })
    | (none, db') => (none, { db := db', effects := st.effects ++ [.query site false] })

/-- The call `emit(event, payload)` on the socket server, to a room when one is given. -/
def emit (ctx : Ctx) (room : Option String) (event : String) (payload : JVal) : H Unit :=
  fun st =>
    if ctx.emitThrows then (none, st)
    else (some (), { st with effects := st.effects ++ [.emit room event payload] })

/-- The block `try { m } catch (e) { console.warn(...) }`: a throw in `m` is swallowed. -/
def attempt (m : H Unit) : H Unit := fun st => (some (), (m st).2)

/-- What a request leaves behind: the response, the tables and the effects in order. -/
structure Outcome where
  response : Response
  db : DB
  effects : List Effect

/-- The block `try { body } catch (err) { return onError }` of a handler, run on `db`. -/
def handle (body : H Response) (onError : Response) (db : DB) : Outcome :=
  match body { db := db, effects := [] } with
  | (some r, st) => { response := r, db := st.db, effects := st.effects }
  | (none, st) => { response := onError, db := st.db, effects := st.effects }

/-- A nullable column inside a template literal: `null` prints as the text `null`. -/
def tpl (o : Option String) : String := o.getD "null"

/-- The statement `INSERT INTO notifications (type, ref_id, message) VALUES ($1, $2, $3)
RETURNING *`. -/
def insertNotification (now : Int) (type : String) (ref_id : Option Int) (message : String)
    (db : DB) : Option Notification × DB :=
  let row : Notification :=
    { id := db.seq.notifications, type := type, ref_id := ref_id, message := message,
      created_at := now, is_read := false }
  (some row, { db with
    notifications := db.notifications ++ [row]
    seq := { db.seq with notifications := db.seq.notifications + 1 } })

/-- The payload `{ id, type, message, created_at, read: false }` built from the returned
notification row. -/
def notificationPayload (type : String) (n : Notification) : JVal :=
  .obj [("id", .num n.id), ("type", .str type), ("message", .str n.message),
    ("created_at", .num n.created_at), ("read", .bool false)]

/-! ## POST /posts/:id/like (src/routes/discussions.js, lines 345 to 403) -/

/-- The rows of `SELECT * FROM discussion_likes WHERE discussion_id=$1 AND student_id=$2`. -/
def selectLikes (db : DB) (id student_id : Int) : List Like :=
  db.discussion_likes.filter (fun l => l.discussion_id == id && l.student_id == student_id)

/-- The statement `DELETE FROM discussion_likes WHERE discussion_id=$1 AND student_id=$2`. -/
def deleteLikes (db : DB) (id student_id : Int) : DB :=
  { db with discussion_likes :=
      db.discussion_likes.filter (fun l => !(l.discussion_id == id && l.student_id == student_id)) }

/-- The statement `UPDATE discussions SET likes = GREATEST(likes - 1, 0) WHERE id=$1`. -/
def decrementLikes (db : DB) (id : Int) : DB :=
  { db with discussions :=
      db.discussions.map (fun d => if d.id = id then { d with likes := max (d.likes - 1) 0 } else d) }

/-- The statement `UPDATE discussions SET likes = likes + 1 WHERE id=$1`. -/
def incrementLikes (db : DB) (id : Int) : DB :=
  { db with discussions :=
      db.discussions.map (fun d => if d.id = id then { d with likes := d.likes + 1 } else d) }

/-- The statement `INSERT INTO discussion_likes (discussion_id, student_id) VALUES ($1, $2)`:
it fails when the post or the student does not exist (`REFERENCES`) or when the pair is
already there (`UNIQUE(discussion_id, student_id)`); the counter advances either way. -/
def insertLike (now : Int) (id student_id : Int) (db : DB) : Option Unit × DB :=
  let row : Like :=
    { id := db.seq.discussion_likes, discussion_id := id, student_id := student_id,
      created_at := now }
  let seq := { db.seq with discussion_likes := db.seq.discussion_likes + 1 }
  if db.discussions.any (fun d => d.id == id) && db.student.any (fun s => s.stu_id == student_id)
      && (selectLikes db id student_id).isEmpty then
    (some (), { db with discussion_likes := db.discussion_likes ++ [row], seq := seq })
  else (none, { db with seq := seq })

/-- The rows of `SELECT first_name, last_name FROM student WHERE stu_id=$1`. -/
def selectStudent (db : DB) (student_id : Int) : List Student :=
  db.student.filter (fun s => s.stu_id == student_id)

/-- The text `likerName`. -/
def likerName (liker : List Student) : String :=
  match liker with
  | [] => "Someone"
  | s :: _ => tpl s.first_name ++ " " ++ tpl s.last_name

/-- The handler of `POST /posts/:id/like`, for the post id the route parameter denotes and
the `student_id` of the body (`0` when it is missing). -/
def likePost (ctx : Ctx) (db : DB) (id student_id : Int) : Outcome :=
  if student_id = 0 then
    { response := Response.fail 400 "Missing student_id", db := db, effects := [] }
  else
    handle (do
      let check ← query ctx .likeCheck (fun db => (some (selectLikes db id student_id), db))
      if check.length > 0 then
        query ctx .likeDelete (fun db => (some (), deleteLikes db id student_id))
        query ctx .likeDecrement (fun db => (some (), decrementLikes db id))
        return Response.json (.obj [("success", .bool true), ("liked", .bool false)])
      else
        query ctx .likeInsert (insertLike ctx.now id student_id)
        query ctx .likeIncrement (fun db => (some (), incrementLikes db id))
        let liker ← query ctx .likeLiker (fun db => (some (selectStudent db student_id), db))
        let notif ← query ctx .likeNotify
          (insertNotification ctx.now "like" (some id) ("👍 " ++ likerName liker ++ " liked your post"))
        if ctx.hasSocket then
          emit ctx none "new_notification" (notificationPayload "like" notif)
        return Response.json (.obj [("success", .bool true), ("liked", .bool true)]))
      (Response.fail 500 "Error liking post") db

/-- Where a `POST /posts/:id/like` request stands: before one of its statements, or done
with its response.  The notification statement is followed by the emit and the response,
which touch no table. -/
inductive LikePc where
  | check | delete | decrement | insert | increment | liker
  | notify (liker : List Student)
  | done (r : Response)

/-- Where the request starts: the guard on `student_id` comes before the first statement. -/
def likeStart (student_id : Int) : LikePc :=
  if student_id = 0 then .done (Response.fail 400 "Missing student_id") else .check

/-- One statement of the handler of `POST /posts/:id/like`, with what follows it up to the
next statement: the same statements, branches and `catch` as `likePost`. -/
def likeStep (ctx : Ctx) (id student_id : Int) : LikePc → DB → LikePc × DB
  | .check, db =>
    if ctx.rejects .likeCheck then (.done (Response.fail 500 "Error liking post"), db)
    else if (selectLikes db id student_id).length > 0 then (.delete, db)
    else (.insert, db)
  | .delete, db =>
    if ctx.rejects .likeDelete then (.done (Response.fail 500 "Error liking post"), db)
    else (.decrement, deleteLikes db id student_id)
  | .decrement, db =>
    if ctx.rejects .likeDecrement then (.done (Response.fail 500 "Error liking post"), db)
    else (.done (Response.json (.obj [("success", .bool true), ("liked", .bool false)])),
      decrementLikes db id)
  | .insert, db =>
    if ctx.rejects .likeInsert then (.done (Response.fail 500 "Error liking post"), db)
    else
      match insertLike ctx.now id student_id db with
      | (some _, db1) => (.increment, db1)
      | (none, db1) => (.done (Response.fail 500 "Error liking post"), db1)
  | .increment, db =>
    if ctx.rejects .likeIncrement then (.done (Response.fail 500 "Error liking post"), db)
    else (.liker, incrementLikes db id)
  | .liker, db =>
    if ctx.rejects .likeLiker then (.done (Response.fail 500 "Error liking post"), db)
    else (.notify (selectStudent db student_id), db)
  | .notify liker, db =>
    if ctx.rejects .likeNotify then (.done (Response.fail 500 "Error liking post"), db)
    else
      match insertNotification ctx.now "like" (some id)
          ("👍 " ++ likerName liker ++ " liked your post") db with
      | (some _, db1) =>
        if ctx.hasSocket && ctx.emitThrows then
          (.done (Response.fail 500 "Error liking post"), db1)
        else (.done (Response.json (.obj [("success", .bool true), ("liked", .bool true)])), db1)
      | (none, db1) => (.done (Response.fail 500 "Error liking post"), db1)
  | .done r, db => (.done r, db)

/-- Two `POST /posts/:id/like` requests in flight over one database. -/
structure LikeRace where
  first : LikePc
  second : LikePc
  db : DB

/-- The two requests run their statements in the order of the schedule: `true` lets the
first request issue its next statement, `false` the second. -/
def runSchedule (ctx1 ctx2 : Ctx) (id student_id : Int) : List Bool → LikeRace → LikeRace
  | [], st => st
  | true :: rest, st =>
    runSchedule ctx1 ctx2 id student_id rest
      { st with first := (likeStep ctx1 id student_id st.first st.db).1
                db := (likeStep ctx1 id student_id st.first st.db).2 }
  | false :: rest, st =>
    runSchedule ctx1 ctx2 id student_id rest
      { st with second := (likeStep ctx2 id student_id st.second st.db).1
                db := (likeStep ctx2 id student_id st.second st.db).2 }

/-- The response of a request that is done. -/
def LikePc.response? : LikePc → Option Response
  | .done r => some r
  | _ => none

/-! ## Content moderation (src/utils/aiModeration.js) -/

/-- The list `bannedTopics`. -/
def bannedTopics : List String :=
  ["pizza", "burger", "dating", "party", "football", "music", "movies", "politics", "gaming",
    "club", "concert", "festival"]

/-- The JavaScript `text.includes(word)`. -/
def includes (text word : String) : Bool :=
  anySuffix (fun t => word.toList.isPrefixOf t) text.toList

/-- The JavaScript `text.toLowerCase()`, on the letters A to Z. -/
def toLowerCase (text : String) : String := String.mk (text.toList.map Char.toLower)

/-- The JavaScript `text.trim()`. -/
def trim (text : String) : String :=
  String.mk ((text.toList.dropWhile isJsWhiteSpace).reverse.dropWhile isJsWhiteSpace).reverse

/-- The function `basicFilter`: no banned word occurs in the lower-cased text. -/
def basicFilter (text : String) : Bool :=
  !(bannedTopics.any (fun word => includes (toLowerCase text) word))

/-- The object `checkDiscussionContent` resolves to. -/
structure Moderation where
  allowed : Bool
  reason : String
deriving DecidableEq, Repr

/-- The property `categories` of the object `checkDiscussionContent` resolves to: no branch
of the function sets it, so reading it gives `undefined`. -/
def Moderation.categories (_ : Moderation) : Option JVal := none

/-- What a call of `checkDiscussionContent` does: the object it resolves to, and the texts
it sent to the chat completion call, in order. -/
structure Moderated where
  result : Moderation
  calls : List String
deriving DecidableEq, Repr

/-- The body of `checkDiscussionContent`; `classify` is the chat completion call, giving
the text of the first choice, or `none` when the call, or the reading of that text, throws. -/
def moderate (classify : String → Option String) (content : String) : Moderated :=
  if !basicFilter content then
    { result := { allowed := false, reason := "Off-topic keyword detected (not school related)" }
      calls := [] }
  else
    match classify content with
    | some reply =>
      let aiDecision := toLowerCase (trim reply)
      let allowed := false
      let allowed := if includes aiDecision "allow" then true else allowed
      let allowed := if includes aiDecision "reject" then false else allowed
      { result :=
          { allowed := allowed
            reason := if allowed then "Allowed by AI moderation" else "Rejected by AI moderation" }
        calls := [content] }
    | none =>
      { result := { allowed := basicFilter content, reason := "AI unavailable, used fallback filter" }
        calls := [content] }

/-- The function `checkDiscussionContent`: the object it resolves to. -/
def checkDiscussionContent (classify : String → Option String) (content : String) :
    Moderation :=
  (moderate classify content).result

/-! ## POST /posts (src/routes/discussions.js, lines 215 to 282) -/

/-- The body of `POST /posts`: absent strings are empty, an absent `student_id` is `0`. -/
structure PostBody where
  title : String
  content : String
  category : Option String
  student_id : Int
  module_id : Option Int

/-- The statement `INSERT INTO discussions (title, content, category, student_id, module_id)
VALUES ($1, $2, $3, $4, $5) RETURNING *`: it fails when the student, or the module when one
is given, does not exist. -/
def insertDiscussion (now : Int) (title content category : String) (student_id : Int)
    (module_id : Option Int) (db : DB) : Option Discussion × DB :=
  let row : Discussion :=
    { id := db.seq.discussions, student_id := student_id, title := title, content := content,
      category := category, views := 0, likes := 0, created_at := now, module_id := module_id }
  let seq := { db.seq with discussions := db.seq.discussions + 1 }
  if db.student.any (fun s => s.stu_id == student_id) &&
      (match module_id with
       | some m => db.modules.any (fun x => x.id == m)
       | none => true) then
    (some row, { db with discussions := db.discussions ++ [row], seq := seq })
  else (none, { db with seq := seq })

/-- A nullable integer as JSON. -/
def intJson : Option Int → JVal
  | some n => .num n
  | none => .null

/-- The object `rows[0] || { first_name: "Unknown", last_name: "", avatar: null }` of the
author, as the three texts the handler reads from it. -/
def personOrUnknown (rows : List Student) : Option String × Option String × Option String :=
  match rows with
  | s :: _ => (s.first_name, s.last_name, s.avatar)
  | [] => (some "Unknown", some "", none)

/-- The person object as JSON. -/
def personJson (a : Option String × Option String × Option String) : JVal :=
  .obj [("first_name", strJson a.1), ("last_name", strJson a.2.1), ("avatar", strJson a.2.2)]

/-- The fields of a row of `discussions`, as `RETURNING *` gives them. -/
def discussionFields (d : Discussion) : List (String × JVal) :=
  [("id", .num d.id), ("student_id", .num d.student_id), ("title", .str d.title),
    ("content", .str d.content), ("category", .str d.category), ("views", .num d.views),
    ("likes", .num d.likes), ("created_at", .num d.created_at),
    ("module_id", intJson d.module_id)]

/-- The value `mod`: the module row of the post when it has a module and the row exists. -/
def moduleJson (rows : List Module) : JVal :=
  match rows with
  | m :: _ => .obj [("id", .num m.id), ("name", .str m.name), ("code", .str m.code)]
  | [] => .null

/-- The value `category || "General"`. -/
def categoryOrGeneral : Option String → String
  | some c => if c = "" then "General" else c
  | none => "General"

/-- The value `module_id || null`. -/
def moduleOrNull : Option Int → Option Int
  | some m => if m = 0 then none else some m
  | none => none

/-- The handler of `POST /posts`. -/
def createPost (ctx : Ctx) (classify : String → Option String) (db : DB) (b : PostBody) :
    Outcome :=
  if b.title = "" ∨ b.content = "" ∨ b.student_id = 0 then
    { response := Response.fail 400 "Missing required fields", db := db, effects := [] }
  else
    handle (do
      let moderation := checkDiscussionContent classify b.content
      if !moderation.allowed then
        return { status := 400, body := JVal.object [("success", some (.bool false)),
          ("message", some (.str "Post rejected by moderation")),
          ("categories", moderation.categories)] }
      let post ← query ctx .postInsert
        (insertDiscussion ctx.now b.title b.content (categoryOrGeneral b.category) b.student_id
          (moduleOrNull b.module_id))
      let authorQuery ← query ctx .postAuthor (fun db => (some (selectStudent db b.student_id), db))
      let author := personOrUnknown authorQuery
      let mod ←
        match post.module_id with
        | some m =>
          if m = 0 then pure JVal.null
          else do
            let rows ← query ctx .postModule (fun db => (some (db.modules.filter (fun x => x.id == m)), db))
            pure (moduleJson rows)
        | none => pure JVal.null
      let notif ← query ctx .postNotify
        (insertNotification ctx.now "discussion" (some post.id)
          ("📝 " ++ tpl author.1 ++ " " ++ tpl author.2.1 ++ " created a new post: " ++ post.title))
      if ctx.hasSocket then
        emit ctx none "new_notification" (notificationPayload "discussion" notif)
      return Response.json (.obj [("success", .bool true),
        ("post", .obj (discussionFields post ++ [("module", mod), ("author", personJson author)]))]))
      (Response.fail 500 "Error creating post") db

/-! ## POST /posts/:id/comments (src/routes/discussions.js, lines 289 to 338) -/

/-- The statement `INSERT INTO comments (discussion_id, student_id, content) VALUES
($1, $2, $3) RETURNING *`: it fails when the post or the student does not exist. -/
def insertComment (now : Int) (id student_id : Int) (content : String) (db : DB) :
    Option Comment × DB :=
  let row : Comment :=
    { id := db.seq.comments, discussion_id := id, student_id := student_id, content := content,
      created_at := now }
  let seq := { db.seq with comments := db.seq.comments + 1 }
  if db.discussions.any (fun d => d.id == id) && db.student.any (fun s => s.stu_id == student_id)
  then (some row, { db with comments := db.comments ++ [row], seq := seq })
  else (none, { db with seq := seq })

/-- The handler of `POST /posts/:id/comments`. -/
def addComment (ctx : Ctx) (db : DB) (id : Int) (content : String) (student_id : Int) :
    Outcome :=
  if content = "" ∨ student_id = 0 then
    { response := Response.fail 400 "Missing required fields", db := db, effects := [] }
  else
    handle (do
      let comment ← query ctx .commentInsert (insertComment ctx.now id student_id content)
      let commenterQuery ← query ctx .commentCommenter
        (fun db => (some (selectStudent db student_id), db))
      let commenter := personOrUnknown commenterQuery
      let notif ← query ctx .commentNotify
        (insertNotification ctx.now "comment" (some id)
          ("💬 " ++ tpl commenter.1 ++ " " ++ tpl commenter.2.1 ++ " commented on a post"))
      if ctx.hasSocket then
        emit ctx none "new_notification" (notificationPayload "comment" notif)
      return Response.json (.obj [("success", .bool true),
        ("comment", .obj [("id", .num comment.id), ("content", .str comment.content),
          ("created_at", .num comment.created_at), ("commenter", personJson commenter)])]))
      (Response.fail 500 "Error adding comment") db

/-! ## GET /posts/:id (src/routes/discussions.js, lines 135 to 207) -/

/-- The integer a text parameter denotes when the store casts it to `INTEGER`: optional
blanks, an optional sign and decimal digits, within the 32-bit range; `none` when the cast
fails. -/
def pgInt? (s : String) : Option Int :=
  let cs := ((s.toList.dropWhile Char.isWhitespace).reverse.dropWhile Char.isWhitespace).reverse
  let neg := cs.head? == some '-'
  let ds := if cs.head? == some '-' || cs.head? == some '+' then cs.tail else cs
  if ds.isEmpty || !ds.all Char.isDigit then none
  else
    let v : Int := if neg then -(digitsValue ds : Int) else (digitsValue ds : Int)
    if -2147483648 ≤ v ∧ v ≤ 2147483647 then some v else none

/-- The statement `SELECT ... FROM discussions d LEFT JOIN student s ... LEFT JOIN modules m
... WHERE d.id = $1`: it fails when the route parameter is not an integer. -/
def selectPost (id : String) (db : DB) : Option (List FeedRow) × DB :=
  match pgInt? id with
  | some i => (some ((feedFrom db).filter (fun r => r.d.id == i)), db)
  | none => (none, db)

/-- The statement `UPDATE discussions SET views = views + 1 WHERE id = $1`. -/
def incrementViews (id : String) (db : DB) : Option Unit × DB :=
  match pgInt? id with
  | some i =>
    (some (), { db with discussions :=
      db.discussions.map (fun d => if d.id = i then { d with views := d.views + 1 } else d) })
  | none => (none, db)

/-- The object `post` the handler builds from the first row (lines 159 to 174). -/
def postDetailJson (r : FeedRow) : JVal :=
  .obj [("id", .num r.d.id), ("title", .str r.d.title), ("content", .str r.d.content),
    ("category", .str r.d.category), ("created_at", .num r.d.created_at),
    ("likes", .num r.d.likes), ("views", .num r.d.views),
    ("module",
      match r.d.module_id with
      | some mid =>
        if mid = 0 then .null
        else .obj [("id", .num mid), ("name", strJson (r.m.map Module.name)),
          ("code", strJson (r.m.map Module.code))]
      | none => .null),
    ("author", .obj [("id", .num r.d.student_id),
      ("first_name", strOr (r.s.bind Student.first_name) (.str "Unknown")),
      ("last_name", strOr (r.s.bind Student.last_name) (.str "")),
      ("avatar", strOr (r.s.bind Student.avatar) .null)])]

/-- The statement `SELECT ... FROM comments c LEFT JOIN student s ON c.student_id = s.stu_id
WHERE c.discussion_id = $1 ORDER BY c.created_at ASC`. -/
def selectComments (id : String) (db : DB) : Option (List (Comment × Option Student)) × DB :=
  match pgInt? id with
  | some i =>
    (some (((leftJoin db.comments db.student (fun c s => c.student_id == s.stu_id)).filter
        (fun r => r.1.discussion_id == i)).insertionSort
      (fun a b => a.1.created_at ≤ b.1.created_at)), db)
  | none => (none, db)

/-- The object the handler builds for a comment row (lines 190 to 199). -/
def commentJson (r : Comment × Option Student) : JVal :=
  .obj [("id", .num r.1.id), ("content", .str r.1.content),
    ("created_at", .num r.1.created_at),
    ("commenter", .obj [
      ("first_name", strOr (r.2.bind Student.first_name) (.str "Unknown")),
      ("last_name", strOr (r.2.bind Student.last_name) (.str "")),
      ("avatar", strOr (r.2.bind Student.avatar) .null)])]

/-- The handler of `GET /posts/:id`; `id` is the text of the route parameter. -/
def getPost (ctx : Ctx) (db : DB) (id : String) : Outcome :=
  handle (do
    let postRes ← query ctx .getSelect (selectPost id)
    match postRes with
    | [] => return Response.fail 404 "Post not found"
    | p :: _ =>
      query ctx .getView (incrementViews id)
      let commentsRes ← query ctx .getComments (selectComments id)
      return Response.json (.obj [("success", .bool true), ("post", postDetailJson p),
        ("comments", .arr (commentsRes.map commentJson))]))
    (Response.fail 500 "Error fetching post") db

/-! ## Conversations and messages (src/routes/messages.js) -/

/-- The rows of `SELECT c.id FROM conversations c JOIN conversation_participants p1 ON
c.id = p1.conversation_id JOIN conversation_participants p2 ON c.id = p2.conversation_id
WHERE p1.student_id = $1 AND p2.student_id = $2`. -/
def selectExisting (db : DB) (senderId recipientId : Int) : List Int :=
  db.conversations.flatMap (fun c =>
    (db.conversation_participants.filter (fun p1 => c.id == p1.conversation_id)).flatMap
      (fun p1 =>
        (db.conversation_participants.filter (fun p2 => c.id == p2.conversation_id)).flatMap
          (fun p2 =>
            if p1.student_id == senderId && p2.student_id == recipientId then [c.id] else [])))

/-- The statement `INSERT INTO conversations DEFAULT VALUES RETURNING id`. -/
def insertConversation (now : Int) (db : DB) : Option Int × DB :=
  (some db.seq.conversations, { db with
    conversations := db.conversations ++ [{ id := db.seq.conversations, created_at := now }]
    seq := { db.seq with conversations := db.seq.conversations + 1 } })

/-- The statement `INSERT INTO conversation_participants (conversation_id, student_id)
VALUES ($1, $2), ($1, $3)`: it fails, inserting neither row, when the conversation or one of
the two students does not exist. -/
def insertParticipants (convoId senderId recipientId : Int) (db : DB) : Option Unit × DB :=
  let n := db.seq.conversation_participants
  let seq := { db.seq with conversation_participants := n + 2 }
  if db.conversations.any (fun c => c.id == convoId) &&
      db.student.any (fun s => s.stu_id == senderId) &&
      db.student.any (fun s => s.stu_id == recipientId) then
    (some (), { db with
      conversation_participants := db.conversation_participants ++
        [{ id := n, conversation_id := convoId, student_id := senderId },
         { id := n + 1, conversation_id := convoId, student_id := recipientId }]
      seq := seq })
  else (none, { db with seq := seq })

/-- The handler of `POST /start` for the authenticated sender; `recipientId` is `0` when the
body has none. -/
def startConversation (ctx : Ctx) (db : DB) (senderId recipientId : Int) : Outcome :=
  if recipientId = 0 then
    { response := Response.fail 400 "Recipient ID required", db := db, effects := [] }
  else
    handle (do
      let existing ← query ctx .startExisting
        (fun db => (some (selectExisting db senderId recipientId), db))
      match existing with
      | first :: _ =>
        return Response.json (.obj [("success", .bool true), ("conversationId", .num first)])
      | [] =>
        let convoId ← query ctx .startConversation (insertConversation ctx.now)
        query ctx .startParticipants (insertParticipants convoId senderId recipientId)
        return Response.json (.obj [("success", .bool true), ("conversationId", .num convoId)]))
      (Response.fail 500 "Server error") db

/-- The statement `INSERT INTO messages (conversation_id, sender_id, content) VALUES
($1, $2, $3) RETURNING id, conversation_id, sender_id, content, created_at`: it fails when
the route parameter is not an integer or when the conversation or the sender does not
exist. -/
def insertMessage (now : Int) (conversationId : String) (senderId : Int) (content : String)
    (db : DB) : Option Message × DB :=
  let seq := { db.seq with messages := db.seq.messages + 1 }
  match pgInt? conversationId with
  | none => (none, db)
  | some c =>
    let row : Message :=
      { id := db.seq.messages, conversation_id := c, sender_id := senderId, content := content,
        created_at := now }
    if db.conversations.any (fun x => x.id == c) && db.student.any (fun s => s.stu_id == senderId)
    then (some row, { db with messages := db.messages ++ [row], seq := seq })
    else (none, { db with seq := seq })

/-- The returned message row as JSON. -/
def messageJson (m : Message) : JVal :=
  .obj [("id", .num m.id), ("conversation_id", .num m.conversation_id),
    ("sender_id", .num m.sender_id), ("content", .str m.content),
    ("created_at", .num m.created_at)]

/-- The room name of a conversation: the template `conversation_` followed by the id. -/
def conversationRoom (conversationId : String) : String := "conversation_" ++ conversationId

/-- The handler of `POST /:conversationId/message` for the authenticated sender. -/
def sendMessage (ctx : Ctx) (db : DB) (senderId : Int) (conversationId content : String) :
    Outcome :=
  if content = "" ∨ trim content = "" then
    { response := Response.fail 400 "Message cannot be empty", db := db, effects := [] }
  else
    handle (do
      let message ← query ctx .messageInsert
        (insertMessage ctx.now conversationId senderId content)
      if ctx.ioInstance then
        emit ctx (some (conversationRoom conversationId)) "receive_message" (messageJson message)
      return Response.json (.obj [("success", .bool true), ("message", messageJson message)]))
      (Response.fail 500 "Server error") db

/-- SQL `JOIN`: every left row with each matching right row. -/
def innerJoin {α β : Type} (left : List α) (right : List β) (joinOn : α → β → Bool) :
    List (α × β) :=
  left.flatMap (fun a => (right.filter (joinOn a)).map (fun b => (a, b)))

/-- The statement `SELECT ... FROM messages m JOIN student s ON m.sender_id = s.stu_id WHERE
m.conversation_id = $1 ORDER BY m.created_at ASC`: it fails when the route parameter is not
an integer. -/
def selectMessages (conversationId : String) (db : DB) : Option (List (Message × Student)) :=
  match pgInt? conversationId with
  | some c =>
    some (((innerJoin db.messages db.student (fun m s => m.sender_id == s.stu_id)).filter
        (fun r => r.1.conversation_id == c)).insertionSort
      (fun a b => a.1.created_at ≤ b.1.created_at))
  | none => none

/-- A row of the messages query as JSON. -/
def messageRowJson (r : Message × Student) : JVal :=
  .obj [("id", .num r.1.id), ("conversation_id", .num r.1.conversation_id),
    ("sender_id", .num r.1.sender_id), ("content", .str r.1.content),
    ("created_at", .num r.1.created_at), ("first_name", strJson r.2.first_name),
    ("last_name", strJson r.2.last_name), ("avatar", strJson r.2.avatar)]

/-- The handler of `GET /:conversationId/messages`. -/
def getMessages (ctx : Ctx) (db : DB) (conversationId : String) : Response :=
  if ctx.rejects .messagesSelect then Response.fail 500 "Server error"
  else
    match selectMessages conversationId db with
    | some rows =>
      Response.json (.obj [("success", .bool true), ("messages", .arr (rows.map messageRowJson))])
    | none => Response.fail 500 "Server error"

/-! ## Sockets (src/server.js, lines 82 to 86) -/

/-- The socket server: the connected sockets and the (socket, room) memberships. -/
structure Sockets where
  connected : List Nat
  joined : List (Nat × String)
deriving DecidableEq, Repr

/-- A new connection: the handler of `connection` only registers listeners. -/
def Sockets.connect (sk : Sockets) (socket : Nat) : Sockets :=
  { sk with connected := if socket ∈ sk.connected then sk.connected else sk.connected ++ [socket] }

/-- The listener of `join_conversation`: the socket joins the room of the conversation; the
argument is the text of the id the client sent. -/
def Sockets.joinConversation (sk : Sockets) (socket : Nat) (conversationId : String) :
    Sockets :=
  { sk with joined :=
      if (socket, conversationRoom conversationId) ∈ sk.joined then sk.joined
      else sk.joined ++ [(socket, conversationRoom conversationId)] }

/-- A disconnection: the socket leaves every room. -/
def Sockets.disconnect (sk : Sockets) (socket : Nat) : Sockets :=
  { connected := sk.connected.filter (fun s => s != socket)
    joined := sk.joined.filter (fun m => m.1 != socket) }

/-- The sockets in a room. -/
def Sockets.members (sk : Sockets) (room : String) : List Nat :=
  (sk.joined.filter (fun m => m.2 == room)).map Prod.fst

/-- The sockets an effect is delivered to: the members of the room for an emit to a room,
every connected socket for a broadcast, nobody for a statement. -/
def Sockets.receivers (sk : Sockets) : Effect → List Nat
  | .emit (some room) _ _ => sk.members room
  | .emit none _ _ => sk.connected
  | .query _ _ => []

/-- The server: the tables and the sockets. -/
structure Server where
  db : DB
  sockets : Sockets

/-- What happens at the server, one request or socket event at a time. -/
inductive Action where
  | connect (socket : Nat)
  | joinConversation (socket : Nat) (conversationId : String)
  | disconnect (socket : Nat)
  | start (ctx : Ctx) (senderId recipientId : Int)
  | message (ctx : Ctx) (senderId : Int) (conversationId content : String)

/-- The server after an action. -/
def Server.step (srv : Server) : Action → Server
  | .connect socket => { srv with sockets := srv.sockets.connect socket }
  | .joinConversation socket c => { srv with sockets := srv.sockets.joinConversation socket c }
  | .disconnect socket => { srv with sockets := srv.sockets.disconnect socket }
  | .start ctx a b => { srv with db := (startConversation ctx srv.db a b).db }
  | .message ctx a c t => { srv with db := (sendMessage ctx srv.db a c t).db }

/-- The server after a history of actions, oldest first. -/
def Server.run (srv : Server) (history : List Action) : Server :=
  history.foldl Server.step srv

/-! ## POST /upload (src/routes/studyMaterials.js, lines 120 to 179) -/

/-- The request of `POST /upload`: the id of the token (`0` when it has none), the fields of
the form (absent ones empty), and the name of the stored file when one was sent. -/
structure UploadRequest where
  stuId : Int
  title : String
  module : String
  year : String
  type : String
  description : String
  link : String
  file : Option String

/-- The statement `INSERT INTO study_materials (...) VALUES ($1,$2,$3,$4,$5,$6,0,NOW(),$7)
RETURNING *`: it fails when `year` is not an integer or the uploader does not exist. -/
def insertMaterial (now : Int) (r : UploadRequest) (fileUrl : String) (db : DB) :
    Option Material × DB :=
  let seq := { db.seq with study_materials := db.seq.study_materials + 1 }
  match pgInt? r.year with
  | none => (none, db)
  | some year =>
    let row : Material :=
      { id := db.seq.study_materials, title := r.title, module := r.module, year := year,
        type := r.type, description := r.description, file_url := fileUrl, downloads := 0,
        uploaded_at := now, uploader_id := r.stuId }
    if db.student.any (fun s => s.stu_id == r.stuId)
    then (some row, { db with study_materials := db.study_materials ++ [row], seq := seq })
    else (none, { db with seq := seq })

/-- The statement `INSERT INTO study_uploads (stu_id, uploaded_at) VALUES ($1, NOW())
ON CONFLICT (stu_id) DO NOTHING`. -/
def markUploaded (now : Int) (stuId : Int) (db : DB) : Option Unit × DB :=
  let seq := { db.seq with study_uploads := db.seq.study_uploads + 1 }
  if db.study_uploads.any (fun u => u.stu_id == stuId) then (some (), { db with seq := seq })
  else if db.student.any (fun s => s.stu_id == stuId) then
    (some (), { db with
      study_uploads := db.study_uploads ++
        [{ id := db.seq.study_uploads, stu_id := stuId, uploaded_at := now }]
      seq := seq })
  else (none, { db with seq := seq })

/-- The statement `INSERT INTO notifications (type, ref_id, message) VALUES ($1,$2,$3)`,
which returns no row. -/
def insertNotificationOnly (now : Int) (type : String) (ref_id : Option Int) (message : String)
    (db : DB) : Option Unit × DB :=
  (some (), (insertNotification now type ref_id message db).2)

/-- The returned material row as JSON. -/
def materialJson (m : Material) : JVal :=
  .obj [("id", .num m.id), ("title", .str m.title), ("module", .str m.module),
    ("year", .num m.year), ("type", .str m.type), ("description", .str m.description),
    ("file_url", .str m.file_url), ("link", .null), ("downloads", .num m.downloads),
    ("uploaded_at", .num m.uploaded_at), ("uploader_id", .num m.uploader_id)]

/-- The handler of `POST /upload`, after the authentication and the file parsing. -/
def uploadMaterial (ctx : Ctx) (db : DB) (r : UploadRequest) : Outcome :=
  if r.stuId = 0 then
    { response := Response.fail 401 "Unauthorized", db := db, effects := [] }
  else if r.title = "" ∨ r.module = "" ∨ r.year = "" ∨ r.type = "" then
    { response := Response.fail 400 "Missing required fields", db := db, effects := [] }
  else if r.file.isSome ∧ ¬ (trim r.link = "") then
    { response := Response.fail 400 "Provide a file OR a link, not both.", db := db, effects := [] }
  else if ¬ r.file.isSome ∧ trim r.link = "" then
    { response := Response.fail 400 "Please provide a file or a link.", db := db, effects := [] }
  else
    let fileUrl :=
      match r.file with
      | some filename => "/uploads/" ++ filename
      | none => trim r.link
    handle (do
      let ins ← query ctx .uploadInsert (insertMaterial ctx.now r fileUrl)
      query ctx .uploadMark (markUploaded ctx.now r.stuId)
      attempt (do
        query ctx .uploadNotify
          (insertNotificationOnly ctx.now "material" (some ins.id)
            ("ðŸ“˜ New study material uploaded: " ++ ins.title))
        if ctx.hasSocket then
          emit ctx none "new_notification"
            (.obj [("type", .str "material"), ("ref_id", .num ins.id),
              ("message", .str ("ðŸ“˜ New study material uploaded: " ++ ins.title)),
              ("created_at", .num ctx.serverClock), ("read", .bool false)]))
      return Response.json (.obj [("success", .bool true), ("material", materialJson ins)]))
      (Response.fail 500 "Error uploading study material") db

/-! ## The notification routes (src/routes/notifications.js) -/

/-- A row of the join of `GET /api/notifications`: a notification with the post, the comment
and the like joined to it, and the student joined through them. -/
structure NotificationRow where
  n : Notification
  d : Option Discussion
  c : Option Comment
  l : Option Like
  s : Option Student
deriving DecidableEq, Repr

/-- The condition of the last join: the student is the author of the joined post, comment
or like, according to the type of the notification. -/
def actorMatches (n : Notification) (d : Option Discussion) (c : Option Comment)
    (l : Option Like) (s : Student) : Bool :=
  (n.type == "discussion" && d.map Discussion.student_id == some s.stu_id) ||
  (n.type == "comment" && c.map Comment.student_id == some s.stu_id) ||
  (n.type == "like" && l.map Like.student_id == some s.stu_id)

/-- The rows of `notifications n LEFT JOIN discussions d ON (n.type = 'discussion' AND
n.ref_id = d.id) LEFT JOIN comments c ON (n.type = 'comment' AND n.ref_id = c.id) LEFT JOIN
discussion_likes l ON (n.type = 'like' AND n.ref_id = l.discussion_id) LEFT JOIN student s
ON (...)`. -/
def notificationsFrom (db : DB) : List NotificationRow :=
  (leftJoin
    (leftJoin
      (leftJoin
        (leftJoin db.notifications db.discussions
          (fun n d => n.type == "discussion" && n.ref_id == some d.id))
        db.comments (fun r c => r.1.type == "comment" && r.1.ref_id == some c.id))
      db.discussion_likes
      (fun r l => r.1.1.type == "like" && r.1.1.ref_id == some l.discussion_id))
    db.student (fun r s => actorMatches r.1.1.1 r.1.1.2 r.1.2 r.2 s)).map
    (fun r => { n := r.1.1.1.1, d := r.1.1.1.2, c := r.1.1.2, l := r.1.2, s := r.2 })

/-- The rows of the statement of `GET /api/notifications`: the join, `ORDER BY n.created_at
DESC`. -/
def selectNotifications (db : DB) : List NotificationRow :=
  (notificationsFrom db).insertionSort (fun a b => b.n.created_at ≤ a.n.created_at)

/-- A row of the statement as JSON: `id, type, ref_id, message, created_at, read,
first_name, last_name, avatar`. -/
def notificationRowJson (r : NotificationRow) : JVal :=
  .obj [("id", .num r.n.id), ("type", .str r.n.type), ("ref_id", intJson r.n.ref_id),
    ("message", .str r.n.message), ("created_at", .num r.n.created_at),
    ("read", .bool r.n.is_read), ("first_name", strJson (r.s.bind Student.first_name)),
    ("last_name", strJson (r.s.bind Student.last_name)),
    ("avatar", strJson (r.s.bind Student.avatar))]

/-- The handler of `GET /api/notifications`. -/
def getNotifications (ctx : Ctx) (db : DB) : Response :=
  if ctx.rejects .notifList then Response.fail 500 "Error fetching notifications"
  else
    Response.json (.obj [("success", .bool true),
      ("notifications", .arr ((selectNotifications db).map notificationRowJson))])

/-- The statement `UPDATE notifications SET is_read = flag WHERE id = $1 RETURNING id,
is_read AS read`: it fails when the route parameter is not an integer. -/
def setRead (flag : Bool) (id : String) (db : DB) : Option (List Notification) × DB :=
  match pgInt? id with
  | some i =>
    (some ((db.notifications.filter (fun n => n.id == i)).map
        (fun n => { n with is_read := flag })),
      { db with notifications :=
          db.notifications.map (fun n => if n.id = i then { n with is_read := flag } else n) })
  | none => (none, db)

/-- A returned row `id, read` as JSON. -/
def readJson (n : Notification) : JVal :=
  .obj [("id", .num n.id), ("read", .bool n.is_read)]

/-- The handler of `PUT /api/notifications/:id/read`. -/
def markRead (ctx : Ctx) (db : DB) (id : String) : Outcome :=
  handle (do
    let r ← query ctx .notifRead (setRead true id)
    match r with
    | [] => return Response.fail 404 "Notification not found"
    | row :: _ =>
      return Response.json (.obj [("success", .bool true), ("notification", readJson row)]))
    (Response.fail 500 "Error updating notification") db

/-- The handler of `PUT /api/notifications/:id/unread`. -/
def markUnread (ctx : Ctx) (db : DB) (id : String) : Outcome :=
  handle (do
    let r ← query ctx .notifUnread (setRead false id)
    match r with
    | [] => return Response.fail 404 "Notification not found"
    | row :: _ =>
      return Response.json (.obj [("success", .bool true), ("notification", readJson row)]))
    (Response.fail 500 "Error updating notification") db

/-- The statement `UPDATE notifications SET is_read = TRUE WHERE is_read = FALSE RETURNING
id`. -/
def setAllRead (db : DB) : Option (List Int) × DB :=
  (some ((db.notifications.filter (fun n => n.is_read == false)).map Notification.id),
    { db with notifications :=
        db.notifications.map (fun n => if n.is_read = false then { n with is_read := true } else n) })

/-- The handler of `PUT /api/notifications/read-all`. -/
def markAllRead (ctx : Ctx) (db : DB) : Outcome :=
  handle (do
    let r ← query ctx .notifReadAll setAllRead
    return Response.json (.obj [("success", .bool true), ("count", .num r.length)]))
    (Response.fail 500 "Error updating notifications") db

/-! ## POST /api/subscriptions (src/routes/subscriptions.js, lines 10 to 46) -/

/-- A value of the JSON body that the handler reads as an id: an integer number or a
string. -/
inductive IdVal where
  | num (n : Int)
  | str (s : String)
deriving DecidableEq, Repr

/-- JavaScript truthiness: `0` and the empty string are falsy. -/
def IdVal.truthy : IdVal → Bool
  | .num n => n != 0
  | .str s => s != ""

/-- The JavaScript `String(v)`. -/
def IdVal.jsString : IdVal → String
  | .num n => toString n
  | .str s => s

/-- The JavaScript `a || b` on two properties of the body; `none` is an absent property. -/
def orElse (a b : Option IdVal) : Option IdVal :=
  match a with
  | some v => if v.truthy then some v else b
  | none => b

/-- The JavaScript `parseInt(v, 10)`; `parseInt(undefined, 10)` is `NaN`. -/
def parseId : Option IdVal → JsNum
  | some v => parseInt10 v.jsString
  | none => .nan

/-- The body of `POST /api/subscriptions`. -/
structure SubscribeBody where
  student_id : Option IdVal
  studentId : Option IdVal
  module_id : Option IdVal
  moduleId : Option IdVal

/-- The integer the store reads from a JavaScript number bound to an `INTEGER` column:
`none` when the number is not an integer of the 32-bit range. -/
def pgIntOfNum? : JsNum → Option Int
  | .int n => if -2147483648 ≤ n ∧ n ≤ 2147483647 then some n else none
  | _ => none

/-- The statement `SELECT id, name, code FROM modules WHERE id = $1`. -/
def selectModule (moduleId : JsNum) (db : DB) : Option (List Module) × DB :=
  match pgIntOfNum? moduleId with
  | some m => (some (db.modules.filter (fun x => x.id == m)), db)
  | none => (none, db)

/-- A row of `student_subscriptions` as `RETURNING *` gives it. -/
structure Subscription where
  id : Int
  student_id : Int
  module_id : Int
  created_at : Int
deriving DecidableEq, Repr

/-- The statement `INSERT INTO student_subscriptions (student_id, module_id) VALUES ($1, $2)
ON CONFLICT (student_id, module_id) DO NOTHING RETURNING *`: no row is inserted or returned
when the pair is there already; the statement fails when the student or the module does not
exist; the counter advances either way. -/
def insertSubscription (now : Int) (studentId moduleId : JsNum) (db : DB) :
    Option (List Subscription) × DB :=
  match pgIntOfNum? studentId, pgIntOfNum? moduleId with
  | some s, some m =>
    let seq := { db.seq with student_subscriptions := db.seq.student_subscriptions + 1 }
    let row : Subscription :=
      { id := db.seq.student_subscriptions, student_id := s, module_id := m, created_at := now }
    if db.student_subscriptions.any (fun g => g.student_id == s && g.module_id == some m) then
      (some [], { db with seq := seq })
    else if db.student.any (fun x => x.stu_id == s) && db.modules.any (fun x => x.id == m) then
      (some [row],
        { db with student_subscriptions := db.student_subscriptions ++ [⟨s, some m⟩]
                  seq := seq })
    else (none, { db with seq := seq })
  | _, _ => (none, db)

/-- A returned subscription row as JSON. -/
def subscriptionJson (r : Subscription) : JVal :=
  .obj [("id", .num r.id), ("student_id", .num r.student_id), ("module_id", .num r.module_id),
    ("created_at", .num r.created_at)]

/-- The handler of `POST /api/subscriptions`. -/
def subscribe (ctx : Ctx) (db : DB) (b : SubscribeBody) : Outcome :=
  let studentId := parseId (orElse b.student_id b.studentId)
  let moduleId := parseId (orElse b.module_id b.moduleId)
  if studentId = .nan ∨ moduleId = .nan then
    { response := Response.fail 400 "Invalid student or module ID (must be numeric)",
      db := db, effects := [] }
  else
    handle (do
      let mod ← query ctx .subscribeModule (selectModule moduleId)
      match mod with
      | [] => return Response.fail 404 "Module not found"
      | _ :: _ =>
        let r ← query ctx .subscribeInsert (insertSubscription ctx.now studentId moduleId)
        match r with
        | [] =>
          return Response.json (.obj [("success", .bool false),
            ("message", .str "Already subscribed")])
        | row :: _ =>
          return Response.json (.obj [("success", .bool true),
            ("subscription", subscriptionJson row)]))
      (Response.fail 500 "Error subscribing") db

/-! ## Notions used to state the properties -/

/-- The parameters with every caller-supplied text replaced by a fixed one: the same
choices of the builder, none of the caller's characters. -/
def PostsParams.neutral (p : PostsParams) : PostsParams where
  page := none
  limit := none
  category := if truthy? p.category then some (.str "x") else none
  search := if truthy? p.search then some (.str "x") else none
  sort := some (.str (sortCol p).jsString)
  include_general := some (.str (if includeGeneral p then "true" else "false"))

/-- Every post's counter is the number of its like rows, and no (post, student) pair has
two rows. -/
def likesConsistent (db : DB) : Prop :=
  (∀ d ∈ db.discussions,
    d.likes = ((db.discussion_likes.filter (fun l => l.discussion_id == d.id)).length : Int)) ∧
  (db.discussion_likes.map (fun l => (l.discussion_id, l.student_id))).Nodup

instance (db : DB) : Decidable (likesConsistent db) := by
  unfold likesConsistent
  infer_instance

/-- The store rejected the counter `UPDATE` of a like request: the effects show the
statement `UPDATE discussions SET likes = ...` issued and thrown. -/
def counterRejected (effects : List Effect) : Prop :=
  Effect.query .likeDecrement false ∈ effects ∨ Effect.query .likeIncrement false ∈ effects

/-- The rows the existence query of `POST /start` yields for one conversation. -/
def pairRows (parts : List Participant) (c : Conversation) (a b : Int) : List Int :=
  (parts.filter (fun p1 => c.id == p1.conversation_id)).flatMap (fun p1 =>
    (parts.filter (fun p2 => c.id == p2.conversation_id)).flatMap (fun p2 =>
      if p1.student_id == a && p2.student_id == b then [c.id] else []))

/-- The tables after `POST /start` has created the conversation of `a` and `b`. -/
def withConversation (now : Int) (db : DB) (a b : Int) : DB :=
  { db with
    conversations := db.conversations ++ [{ id := db.seq.conversations, created_at := now }]
    conversation_participants := db.conversation_participants ++
      [{ id := db.seq.conversation_participants, conversation_id := db.seq.conversations,
         student_id := a },
       { id := db.seq.conversation_participants + 1, conversation_id := db.seq.conversations,
         student_id := b }]
    seq := { db.seq with
      conversations := db.seq.conversations + 1
      conversation_participants := db.seq.conversation_participants + 2 } }

/-- A scan of an effect list, oldest first: every `new_notification` emit comes after the
statements at `ins` and at `notif` have both executed. -/
def guardedFrom (ins notif : Site) : Bool → Bool → List Effect → Bool
  | _, _, [] => true
  | seenIns, seenNotif, .query site executed :: rest =>
    guardedFrom ins notif (seenIns || (executed && site == ins))
      (seenNotif || (executed && site == notif)) rest
  | seenIns, seenNotif, .emit _ event _ :: rest =>
    (event != "new_notification" || (seenIns && seenNotif)) &&
      guardedFrom ins notif seenIns seenNotif rest

/-- Every `new_notification` emit of the effect list comes after the statements at `ins`
and at `notif` have both executed, and there is no such emit when one of the two has not
executed. -/
def EmitAfter (ins notif : Site) (effects : List Effect) : Prop :=
  (∀ pre room payload post, effects = pre ++ .emit room "new_notification" payload :: post →
    .query ins true ∈ pre ∧ .query notif true ∈ pre) ∧
  ((.query ins true ∉ effects ∨ .query notif true ∉ effects) →
    ∀ room payload, .emit room "new_notification" payload ∉ effects)

/-- The socket sent `join_conversation` for the conversation somewhere in the history and
has not disconnected since. -/
def joinedIn (history : List Action) (socket : Nat) (conversationId : String) : Prop :=
  ∃ pre post, history = pre ++ Action.joinConversation socket conversationId :: post ∧
    ∀ s, Action.disconnect s ∈ post → s ≠ socket

/-- The decimal numeral with the given sign and digits. -/
def decimal (neg : Bool) (ds : List Char) : String := String.mk (if neg then '-' :: ds else ds)

/-- The integer a decimal numeral denotes. -/
def decimalValue (neg : Bool) (ds : List Char) : Int :=
  if neg then -(digitsValue ds : Int) else (digitsValue ds : Int)

/-- The characters with a meaning of their own in a `LIKE` pattern: `%`, `_` and the
backslash. -/
def isLikeSpecial (c : Char) : Bool := c == '%' || c == '_' || c == '\\'

/-- The condition is a search condition of the feed query. -/
def Cond.isSearch : Cond → Bool
  | .searchLike _ => true
  | _ => false

/-- The condition is a category condition of the feed query. -/
def Cond.isCategory : Cond → Bool
  | .categoryEq _ => true
  | _ => false

/-- The tables with the two grant sources exchanged. -/
def swapGrants (db : DB) : DB :=
  { db with student_subscriptions := db.student_modules
            student_modules := db.student_subscriptions }

/-- The rows of `discussions` after `n` views of the posts with the id `i`: their `views`
are greater by `n`, the other rows are as they were. -/
def viewed (n : Int) (i : Int) (ds : List Discussion) : List Discussion :=
  ds.map (fun d => if d.id = i then { d with views := d.views + n } else d)

/-- The tables after consecutive `GET /posts/:id` requests for the same route parameter, one
request per context. -/
def fetchAll (id : String) : List Ctx → DB → DB
  | [], db => db
  | ctx :: rest, db => fetchAll id rest (getPost ctx db id).db

/-- A fixed or interpolated text of the query has no `$` in it. -/
def Token.dollarFree : Token → Bool
  | .lit s => !s.toList.contains '$'
  | .ph _ => true

/-- The part of a notification that no endpoint may change. -/
def Notification.frozen (n : Notification) : Int × String × Option Int × String × Int :=
  (n.id, n.type, n.ref_id, n.message, n.created_at)

/-- The rows of `notifications` with the flag of the rows with the id `i` set. -/
def flagged (flag : Bool) (i : Int) (ns : List Notification) : List Notification :=
  ns.map (fun n => if n.id = i then { n with is_read := flag } else n)

/-- The participant rows of a conversation. -/
def participantsOf (db : DB) (cid : Int) : List Participant :=
  db.conversation_participants.filter (fun p => p.conversation_id == cid)

/-- The tables after consecutive `POST /start` requests, each with its context, its sender
and its recipient. -/
def startAll : List (Ctx × Int × Int) → DB → DB
  | [], db => db
  | req :: rest, db => startAll rest (startConversation req.1 db req.2.1 req.2.2).db

/-- The response `{ success: true, conversationId }` of `POST /start`. -/
def startedResponse (cid : Int) : Response :=
  Response.json (.obj [("success", .bool true), ("conversationId", .num cid)])

/-- Every conversation has no participant row or two, and the rows refer to conversations
whose id has been drawn already. -/
def pairsOnly (db : DB) : Prop :=
  (∀ p ∈ db.conversation_participants, p.conversation_id < db.seq.conversations) ∧
  (∀ cid, participantsOf db cid = [] ∨ ∃ p q, participantsOf db cid = [p, q])

/-- No (post, student) pair has two like rows: the `UNIQUE(discussion_id, student_id)`
constraint of `discussion_likes`. -/
def pairsUnique (db : DB) : Prop :=
  (db.discussion_likes.map (fun l => (l.discussion_id, l.student_id))).Nodup

/-- A request that runs its statements with no other request in between: up to five steps,
from the first statement on. -/
def likeAlone (ctx : Ctx) (id s : Int) (db : DB) : LikePc × DB :=
  let s1 := likeStep ctx id s (likeStart s) db
  let s2 := likeStep ctx id s s1.1 s1.2
  let s3 := likeStep ctx id s s2.1 s2.2
  let s4 := likeStep ctx id s s3.1 s3.2
  likeStep ctx id s s4.1 s4.2

/-- The comments the handler of `GET /posts/:id` reads for the post `i`. -/
def commentRows (db : DB) (i : Int) : List (Comment × Option Student) :=
  ((leftJoin db.comments db.student (fun c s => c.student_id == s.stu_id)).filter
      (fun r => r.1.discussion_id == i)).insertionSort
    (fun a b => a.1.created_at ≤ b.1.created_at)

/-- The rows the handler of `GET /:conversationId/messages` reads for the conversation `c`. -/
def messageRows (db : DB) (c : Int) : List (Message × Student) :=
  ((innerJoin db.messages db.student (fun m s => m.sender_id == s.stu_id)).filter
      (fun r => r.1.conversation_id == c)).insertionSort
    (fun a b => a.1.created_at ≤ b.1.created_at)

/-! ## A small instance, to evaluate the handlers on -/

/-- A context in which every statement executes and the socket server is there. -/
def sampleCtx : Ctx where
  rejects := fun _ => false
  hasSocket := true
  ioInstance := true
  emitThrows := false
  now := 100
  serverClock := 105
  encode := fun v => v.jsString

/-- Two students, one module, two posts; student 1 has liked post 1. -/
def sampleDB : DB where
  student := [⟨1, some "Ann", some "Lee", none⟩, ⟨2, some "Bob", some "Ray", none⟩]
  modules := [⟨7, "M7", "Maths"⟩]
  student_subscriptions := [⟨1, some 7⟩]
  student_modules := [⟨1, some 7⟩]
  discussions := [⟨1, 1, "Exam tips", "Past papers", "General", 0, 1, 10, none⟩,
    ⟨2, 2, "Algebra", "Rings", "Maths", 0, 0, 20, some 7⟩]
  comments := []
  discussion_likes := [⟨1, 1, 1, 50⟩]
  notifications := []
  conversations := []
  conversation_participants := []
  messages := []
  study_materials := []
  study_uploads := []
  seq := ⟨3, 1, 2, 1, 1, 1, 1, 1, 1, 2⟩

/-- A feed request that asks for no general posts. -/
def sampleParams : PostsParams :=
  { page := some (.str "2"), limit := some (.str "500"), category := some (.str "Maths"),
    search := some (.str "%"), sort := some (.str "likes; DROP TABLE student"),
    include_general := some (.str "false") }

/-- A page parameter of 401 digits, the numeral of 10^400. -/
def hugePage : String := String.mk ('1' :: List.replicate 400 '0')

/-- The sample feed request, asked for the page `hugePage`. -/
def hugePageParams : PostsParams := { sampleParams with page := some (.str hugePage) }

/-- A feed request with no parameter. -/
def defaultParams : PostsParams :=
  { page := none, limit := none, category := none, search := none, sort := none,
    include_general := none }

/-- A feed request whose `limit` is the text `0`. -/
def zeroLimitParams : PostsParams := { defaultParams with limit := some (.str "0") }

/-- A feed request that searches for the text `_`. -/
def underscoreParams : PostsParams := { defaultParams with search := some (.str "_") }

/-- A feed request that searches for `EXAM` in the category `General`. -/
def examParams : PostsParams :=
  { defaultParams with search := some (.str "EXAM"), category := some (.str "General") }

/-- The first post of the sample tables. -/
def samplePost : Discussion := ⟨1, 1, "Exam tips", "Past papers", "General", 0, 1, 10, none⟩

/-- A context in which every statement executes, the socket server is there and its `emit`
throws. -/
def throwingCtx : Ctx := { sampleCtx with emitThrows := true }

/-- A context in which every statement executes and the request carries no socket server. -/
def socketlessCtx : Ctx := { sampleCtx with hasSocket := false }

/-- The store rejects the statement `UPDATE discussions SET likes = likes + 1` and executes
the others. -/
def incrementRejected : Ctx := { sampleCtx with rejects := fun site => site == .likeIncrement }

/-- A post by student 2 about revision. -/
def sampleBody : PostBody :=
  { title := "Revision", content := "Exam notes", category := none, student_id := 2,
    module_id := none }

/-- A post by student 2 whose content has two banned words. -/
def pizzaBody : PostBody := { sampleBody with content := "pizza party" }

/-- A chat completion that answers `ALLOW`. -/
def allowAll : String → Option String := fun _ => some "ALLOW"

/-- A chat completion call that throws. -/
def unavailable : String → Option String := fun _ => none

/-- The sample tables with four posts: three general ones created at 10, 30 and 20, and one
of module 7 created at 40. -/
def threePosts : DB :=
  { sampleDB with discussions :=
      [⟨1, 1, "First", "a", "General", 0, 0, 10, none⟩,
        ⟨2, 2, "Third", "c", "General", 0, 0, 30, none⟩,
        ⟨3, 1, "Second", "b", "General", 0, 0, 20, none⟩,
        ⟨4, 1, "Module", "d", "Maths", 0, 0, 40, some 7⟩] }

/-- A chat completion that answers `Reject`. -/
def rejectAll : String → Option String := fun _ => some "Reject"

/-- A chat completion that answers with the text ` ALLOW `. -/
def allowSpaced : String → Option String := fun _ => some " ALLOW "

/-- The sample tables with three notifications, the second one read. -/
def threeNotifications : DB :=
  { sampleDB with notifications :=
      [⟨1, "discussion", some 1, "a", 10, false⟩, ⟨2, "like", some 1, "b", 20, true⟩,
        ⟨3, "comment", some 2, "c", 30, false⟩] }

/-- The body of a request of student 1 to subscribe to module 7. -/
def dupBody : SubscribeBody :=
  { student_id := some (.num 1), studentId := none, module_id := some (.str "7"),
    moduleId := none }

/-- The sample tables with three comments on post 1, written at 30, 10 and 20, one comment
on post 2, and four messages, three of them in conversation 1. -/
def chatter : DB :=
  { sampleDB with
    comments := [⟨1, 1, 1, "c", 30⟩, ⟨2, 1, 2, "a", 10⟩, ⟨3, 2, 1, "x", 15⟩, ⟨4, 1, 1, "b", 20⟩]
    conversations := [⟨1, 5⟩, ⟨2, 6⟩]
    messages := [⟨1, 1, 1, "m3", 33⟩, ⟨2, 2, 1, "other", 12⟩, ⟨3, 1, 2, "m1", 11⟩,
      ⟨4, 1, 1, "m2", 22⟩] }

/-- The sample tables with post 1 liked by students 1 and 2. -/
def likedTwice : DB :=
  { sampleDB with
    discussions := [⟨1, 1, "Exam tips", "Past papers", "General", 0, 2, 10, none⟩,
      ⟨2, 2, "Algebra", "Rings", "Maths", 0, 0, 20, some 7⟩]
    discussion_likes := [⟨1, 1, 1, 50⟩, ⟨2, 1, 2, 60⟩]
    seq := { sampleDB.seq with discussion_likes := 3 } }

/-- Both requests check, then both delete, then both decrement. -/
def lockstep : List Bool := [true, false, true, false, true, false]

/-- The first request runs all its statements, then the second. -/
def oneAfterTheOther : List Bool :=
  [true, true, true, true, true, false, false, false, false, false]

/-- A feed request with a category and a search text. -/
def filteredParams : PostsParams :=
  { defaultParams with category := some (.str "Maths"), search := some (.str "ring") }

/-- An upload of a link by student 1. -/
def sampleUpload : UploadRequest :=
  { stuId := 1, title := "Notes", module := "Maths", year := "2024", type := "notes",
    description := "", link := "http://x", file := none }

/-- A server with no socket yet, on the sample tables. -/
def sampleServer : Server := { db := sampleDB, sockets := { connected := [], joined := [] } }

/-- Students 1 and 2 start a conversation; sockets 10 and 11 join it, socket 12 joins
another one, and socket 11 leaves. -/
def sampleHistory : List Action :=
  [.connect 10, .connect 11, .connect 12, .start sampleCtx 1 2, .joinConversation 10 "1",
    .joinConversation 11 "1", .joinConversation 12 "2", .disconnect 11]

/-! ## The feed query: visibility, ordering, the empty feed -/

theorem int?_ofInt? (o : Option Int) : (PgVal.ofInt? o).int? = o := by
  cases o <;> rfl

theorem param_succ (values : List PgVal) (i : Nat) :
    param values (0 + i + 1) = values.getD i .null := by
  simp [param]

/-- The placeholders of the `IN` list denote the allowed module ids, whatever is bound
after them. -/
theorem bound_ids (allowed : List (Option Int)) (extra : List PgVal) :
    ((List.range allowed.length).map (fun i => 0 + i + 1)).map
      (fun k => (param (allowed.map PgVal.ofInt? ++ extra) k).int?) = allowed := by
  apply List.ext_getElem
  · simp
  · intro i h1 h2
    simp only [List.map_map, List.getElem_map, List.getElem_range, Function.comp, param_succ]
    rw [List.getD_eq_getElem?_getD, List.getElem?_append_left (by simpa using h2)]
    simp [List.getElem?_eq_getElem h2, int?_ofInt?]

theorem triOr_true_iff (a b : Tri) : triOr a b = some true ↔ a = some true ∨ b = some true := by
  rcases a with _ | _ | _ <;> rcases b with _ | _ | _ <;> simp [triOr]

/-- The test `x IN (ys)` is true exactly when `x` is not NULL and equals one of the `ys`. -/
theorem sqlIn_true_iff (x : Option Int) (ys : List (Option Int)) :
    sqlIn x ys = some true ↔ ∃ m, x = some m ∧ some m ∈ ys := by
  induction ys with
  | nil => simp [sqlIn]
  | cons y ys ih =>
    have hstep : sqlIn x (y :: ys) = triOr (sqlEq x y) (sqlIn x ys) := rfl
    rw [hstep, triOr_true_iff, ih]
    cases x with
    | none => simp [sqlEq]
    | some a =>
      cases y with
      | none => simp [sqlEq]
      | some b =>
        by_cases hab : a = b
        · subst hab
          simp [sqlEq]
        · have hba : ¬ b = a := fun h => hab h.symm
          simp [sqlEq, hab, hba]

/-- The builder keeps the visibility condition first and its values first. -/
theorem buildFeedQuery_shape (ctx : Ctx) (allowed : List (Option Int)) (p : PostsParams) :
    ∃ rest extra,
      (buildFeedQuery ctx allowed p).conditions = (visibilityCondition allowed p).1 :: rest ∧
      (buildFeedQuery ctx allowed p).values = (visibilityCondition allowed p).2 ++ extra := by
  unfold buildFeedQuery
  by_cases hc : truthy? p.category = true <;> by_cases hs : truthy? p.search = true <;>
    simp [hc, hs]

theorem visibility_eval (allowed : List (Option Int)) (p : PostsParams) (extra : List PgVal)
    (d : Discussion) :
    ((visibilityCondition allowed p).1.eval ((visibilityCondition allowed p).2 ++ extra) d
        = some true) ↔
      (d.module_id = none ∧ includeGeneral p = true) ∨
        (∃ m, d.module_id = some m ∧ some m ∈ allowed) := by
  unfold visibilityCondition
  by_cases hlen : allowed.length > 0
  · by_cases hg : includeGeneral p = true
    · simp only [hlen, hg, if_true, Cond.eval, bound_ids, triOr_true_iff, sqlIn_true_iff]
      cases hm : d.module_id <;> simp
    · simp only [hlen, hg, if_true, if_false, Bool.false_eq_true, Cond.eval, bound_ids,
        sqlIn_true_iff]
      simp
  · have hnil : allowed = [] := by
      cases allowed with
      | nil => rfl
      | cons a l => simp at hlen
    subst hnil
    by_cases hg : includeGeneral p = true
    · simp [hg, Cond.eval]
    · simp [hg, Cond.eval]

/-- Claim C1. In `GET /posts`, for every list of allowed module ids (empty or not, NULLs
included), every value of `include_general` and every post row, the visibility condition
the handler generates comes first in the `WHERE` clause, and the row satisfies it under
the values the handler binds if and only if its `module_id` is NULL and
`String(include_general)` is `"true"`, or its `module_id` is not NULL and is one of the
allowed module ids. -/
theorem visibility_condition_iff (ctx : Ctx) (allowed : List (Option Int)) (p : PostsParams)
    (d : Discussion) :
    (buildFeedQuery ctx allowed p).conditions.head? = some (visibilityCondition allowed p).1 ∧
    (((visibilityCondition allowed p).1.eval (buildFeedQuery ctx allowed p).values d
        = some true) ↔
      (d.module_id = none ∧ includeGeneral p = true) ∨
        (∃ m, d.module_id = some m ∧ some m ∈ allowed)) := by
  obtain ⟨rest, extra, hc, hv⟩ := buildFeedQuery_shape ctx allowed p
  refine ⟨by rw [hc]; rfl, ?_⟩
  rw [hv]
  exact visibility_eval allowed p extra d

theorem contains_iff_mem (xs : List String) (s : String) :
    xs.contains s = true ↔ s ∈ xs := List.elem_iff

/-- The text of `sortCol`: the requested text when allowlisted, `created_at` otherwise. -/
theorem sortCol_jsString (p : PostsParams) :
    (sortCol p).jsString =
      if (p.sort.getD (.str "created_at")).jsString ∈ SORT_MAP
      then (p.sort.getD (.str "created_at")).jsString else "created_at" := by
  unfold sortCol
  by_cases h : (p.sort.getD (.str "created_at")).jsString ∈ SORT_MAP
  · rw [if_pos h, if_pos ((contains_iff_mem _ _).mpr h)]
  · rw [if_neg h, if_neg (fun hc => h ((contains_iff_mem _ _).mp hc))]
    rfl

theorem sortCol_mem (p : PostsParams) : (sortCol p).jsString ∈ SORT_MAP := by
  rw [sortCol_jsString]
  split
  · assumption
  · decide

/-- Claim C3. For every value of the `sort` parameter, the column text interpolated after
`ORDER BY d.` in the SQL text of `GET /posts` is in the allowlist `created_at`, `likes`,
`views`, `title`, `category`: it is `String(sort)` when that text is allowlisted and
`created_at` otherwise (also when `sort` is absent); the SQL text ends with the `ORDER BY`
clause built from that column, and the whole text is the one the builder produces when
every caller-supplied text is replaced by a fixed one. -/
theorem order_by_allowlisted (ctx : Ctx) (allowed : List (Option Int)) (p : PostsParams) :
    (buildFeedQuery ctx allowed p).orderBy ∈ SORT_MAP ∧
    (∀ s, p.sort = some s → s.jsString ∈ SORT_MAP →
      (buildFeedQuery ctx allowed p).orderBy = s.jsString) ∧
    (∀ s, p.sort = some s → s.jsString ∉ SORT_MAP →
      (buildFeedQuery ctx allowed p).orderBy = "created_at") ∧
    (p.sort = none → (buildFeedQuery ctx allowed p).orderBy = "created_at") ∧
    (∃ head, (buildFeedQuery ctx allowed p).text =
      head ++ (" ORDER BY d." ++ (buildFeedQuery ctx allowed p).orderBy ++ " DESC LIMIT " ++
        placeholder (buildFeedQuery ctx allowed p).limitPh ++ " OFFSET " ++
        placeholder (buildFeedQuery ctx allowed p).offsetPh)) ∧
    (buildFeedQuery ctx allowed p).text = (buildFeedQuery ctx allowed p.neutral).text := by
  have hcol : (buildFeedQuery ctx allowed p).orderBy = (sortCol p).jsString := rfl
  refine ⟨hcol ▸ sortCol_mem p, ?_, ?_, ?_, ?_, ?_⟩
  · intro s hs hmem
    rw [hcol, sortCol_jsString, hs]
    exact if_pos hmem
  · intro s hs hmem
    rw [hcol, sortCol_jsString, hs]
    exact if_neg hmem
  · intro hs
    rw [hcol, sortCol_jsString, hs]
    rfl
  · exact ⟨_, rfl⟩
  · have hs : (sortCol p.neutral).jsString = (sortCol p).jsString := by
      rw [sortCol_jsString p.neutral]
      exact if_pos (sortCol_mem p)
    have hg : includeGeneral p.neutral = includeGeneral p := by
      have h : includeGeneral p.neutral =
          ((if includeGeneral p then "true" else "false") == "true") := rfl
      rw [h]
      cases includeGeneral p <;> decide
    have hc : truthy? p.neutral.category = truthy? p.category := by
      have h : truthy? p.neutral.category =
          truthy? (if truthy? p.category then some (.str "x") else none) := rfl
      rw [h]
      cases truthy? p.category <;> rfl
    have hr : truthy? p.neutral.search = truthy? p.search := by
      have h : truthy? p.neutral.search =
          truthy? (if truthy? p.search then some (.str "x") else none) := rfl
      rw [h]
      cases truthy? p.search <;> rfl
    have hv : visibilityCondition allowed p.neutral = visibilityCondition allowed p := by
      unfold visibilityCondition
      rw [hg]
    unfold FeedQuery.text FeedQuery.orderClause buildFeedQuery
    simp only [hc, hr, hv, hs]
    cases truthy? p.category <;> cases truthy? p.search <;> simp

theorem ofInt_eq_int (v o : Int) (h : JsNum.ofInt v = .int o) : v = o := by
  unfold JsNum.ofInt at h
  split at h
  · cases h
  · split at h
    · cases h
    · cases h; rfl

/-- What `x || d` yields is never `NaN` when `d` is not. -/
theorem orDefault_ne_nan (x d : JsNum) (hd : d ≠ .nan) : orDefault x d ≠ .nan := by
  unfold orDefault
  cases x with
  | int n => simp only; split <;> simp [hd]
  | inf => simp
  | negInf => simp
  | nan => simpa using hd

/-- The page size is an integer from 1 to 100. -/
theorem limitNum_int (p : PostsParams) :
    ∃ k : Int, limitNum p = .int k ∧ 1 ≤ k ∧ k ≤ 100 := by
  unfold limitNum
  generalize parseInt10 ((p.limit.getD (.str "10")).jsString) = x
  cases x with
  | int n =>
    by_cases h : n = 0
    · exact ⟨10, by simp [orDefault, h, JsNum.min, JsNum.max], by decide, by decide⟩
    · refine ⟨max (min n 100) 1, by simp [orDefault, h, JsNum.min, JsNum.max], ?_, ?_⟩
      · exact le_max_right _ _
      · exact max_le (min_le_right _ _) (by decide)
  | inf => exact ⟨100, by simp [orDefault, JsNum.min, JsNum.max], by decide, by decide⟩
  | negInf => exact ⟨1, by simp [orDefault, JsNum.min, JsNum.max], by decide, by decide⟩
  | nan => exact ⟨10, by simp [orDefault, JsNum.min, JsNum.max], by decide, by decide⟩

/-- The page number is an integer not below 1, or `Infinity`. -/
theorem pageNum_cases (p : PostsParams) :
    pageNum p = .inf ∨ ∃ n : Int, pageNum p = .int n ∧ 1 ≤ n := by
  unfold pageNum
  generalize parseInt10 ((p.page.getD (.str "1")).jsString) = x
  cases x with
  | int n =>
    right
    by_cases h : n = 0
    · exact ⟨1, by simp [orDefault, h, JsNum.max], le_refl _⟩
    · exact ⟨max n 1, by simp [orDefault, h, JsNum.max], le_max_right _ _⟩
  | inf => left; simp [orDefault, JsNum.max]
  | negInf => right; exact ⟨1, by simp [orDefault, JsNum.max], le_refl _⟩
  | nan => right; exact ⟨1, by simp [orDefault, JsNum.max], le_refl _⟩

/-- An integer offset is the exact product, and is not negative. -/
theorem offset_int (p : PostsParams) (o : Int) (ho : offset p = .int o) :
    ∃ n k : Int, pageNum p = .int n ∧ limitNum p = .int k ∧ 1 ≤ n ∧ 1 ≤ k ∧ k ≤ 100 ∧
      o = (n - 1) * k ∧ 0 ≤ o := by
  obtain ⟨k, hk, hk1, hk2⟩ := limitNum_int p
  unfold offset at ho
  rw [hk] at ho
  rcases pageNum_cases p with hp | ⟨n, hn, hn1⟩
  · rw [hp] at ho
    have hk0 : k ≠ 0 := by omega
    simp [JsNum.sub, JsNum.mul, JsNum.scaleInf, hk0] at ho
    split at ho <;> cases ho
  · rw [hn] at ho
    simp only [JsNum.sub] at ho
    cases hs : JsNum.ofInt (n - 1) with
    | int m =>
      rw [hs] at ho
      have hm := ofInt_eq_int _ _ hs
      simp only [JsNum.mul] at ho
      have ho' := ofInt_eq_int _ _ ho
      refine ⟨n, k, hn, hk, hn1, hk1, hk2, ?_, ?_⟩
      · rw [← ho', ← hm]
      · rw [← ho', ← hm]
        exact Int.mul_nonneg (by omega) (by omega)
    | inf =>
      rw [hs] at ho
      have hk0 : k ≠ 0 := by omega
      simp [JsNum.mul, JsNum.scaleInf, hk0] at ho
      split at ho <;> cases ho
    | negInf =>
      rw [hs] at ho
      have hk0 : k ≠ 0 := by omega
      simp [JsNum.mul, JsNum.scaleInf, hk0] at ho
      split at ho <;> cases ho
    | nan =>
      rw [hs] at ho
      simp [JsNum.mul] at ho

theorem isDigit_bounds (c : Char) (h : c.isDigit = true) : 48 ≤ c.toNat ∧ c.toNat ≤ 57 := by
  simp only [Char.isDigit, Bool.and_eq_true, decide_eq_true_eq] at h
  obtain ⟨h1, h2⟩ := h
  have h1' : (48 : UInt32).toNat ≤ c.val.toNat := h1
  have h2' : c.val.toNat ≤ (57 : UInt32).toNat := h2
  exact ⟨h1', h2'⟩

theorem isDigit_not_space (c : Char) (h : c.isDigit = true) : isJsWhiteSpace c = false := by
  obtain ⟨h1, h2⟩ := isDigit_bounds c h
  simp only [isJsWhiteSpace, Bool.or_eq_false_iff, Bool.and_eq_false_iff, beq_eq_false_iff_ne,
    decide_eq_false_iff_not]
  omega

theorem isDigit_ne_sign (c : Char) (h : c.isDigit = true) : c ≠ '-' ∧ c ≠ '+' := by
  obtain ⟨h1, h2⟩ := isDigit_bounds c h
  constructor <;> (intro hc; subst hc; revert h1 h2; decide)

theorem takeWhile_all {α : Type} (f : α → Bool) (l : List α) (h : ∀ c ∈ l, f c = true) :
    l.takeWhile f = l := by
  induction l with
  | nil => rfl
  | cons a l ih =>
    rw [List.takeWhile_cons, h a (List.mem_cons_self _ _), if_pos rfl,
      ih (fun c hc => h c (List.mem_cons_of_mem _ hc))]

/-- The function `parseInt` reads a decimal numeral as the integer it denotes. -/
theorem parseInt10_decimal (neg : Bool) (ds : List Char) (hne : ds ≠ [])
    (hd : ∀ c ∈ ds, c.isDigit = true) :
    parseInt10 (decimal neg ds) = JsNum.ofInt (decimalValue neg ds) := by
  obtain ⟨d, ds', rfl⟩ := List.exists_cons_of_ne_nil hne
  have hd0 := hd d (List.mem_cons_self _ _)
  have hs := isDigit_not_space d hd0
  have hsign := isDigit_ne_sign d hd0
  have htw := takeWhile_all Char.isDigit (d :: ds') hd
  cases neg with
  | false =>
    have e1 : (some d == some '-') = false := by simpa using hsign.1
    have e2 : (some d == some '+') = false := by simpa using hsign.2
    simp only [parseInt10, decimal, decimalValue, Bool.false_eq_true, if_false, String.toList,
      List.dropWhile_cons, hs, List.head?_cons, e1, e2, Bool.or_self, htw, List.isEmpty_cons]
  | true =>
    have hm : isJsWhiteSpace '-' = false := by decide
    simp only [parseInt10, decimal, decimalValue, if_true, String.toList,
      List.dropWhile_cons, hm,
      List.head?_cons, beq_self_eq_true, Bool.true_or, List.tail_cons, htw, List.isEmpty_cons,
      Bool.false_eq_true, if_false]

theorem foldl_digits_zeros (n : Nat) (acc : Nat) :
    (List.replicate n '0').foldl (fun acc c => 10 * acc + (c.toNat - 48)) acc = acc * 10 ^ n := by
  induction n generalizing acc with
  | zero => simp
  | succ n ih =>
    rw [List.replicate_succ, List.foldl_cons, ih]
    have h0 : ('0' : Char).toNat - 48 = 0 := by decide
    rw [h0, pow_succ]
    ring

theorem digitsValue_one_zeros (n : Nat) : digitsValue ('1' :: List.replicate n '0') = 10 ^ n := by
  unfold digitsValue
  rw [List.foldl_cons, foldl_digits_zeros]
  have h1 : 10 * 0 + (('1' : Char).toNat - 48) = 1 := by decide
  rw [h1, one_mul]

/-- The literal of `doubleOverflow` is 2^1024 - 2^970. -/
theorem doubleOverflow_eq : doubleOverflow = 2 ^ 1024 - 2 ^ 970 := by
  unfold doubleOverflow
  norm_num

theorem doubleOverflow_le : doubleOverflow ≤ 10 ^ 400 := by
  unfold doubleOverflow
  norm_num

theorem parseInt10_hugePage : parseInt10 hugePage = .inf := by
  have h := parseInt10_decimal false ('1' :: List.replicate 400 '0') (List.cons_ne_nil _ _)
    (by
      intro c hc
      rcases List.mem_cons.mp hc with h | h
      · subst h; decide
      · rw [List.eq_of_mem_replicate h]; decide)
  have hv : decimalValue false ('1' :: List.replicate 400 '0') = ((10 ^ 400 : Nat) : Int) := by
    simp only [decimalValue, Bool.false_eq_true, if_false, digitsValue_one_zeros]
  rw [hv] at h
  have hp : hugePage = decimal false ('1' :: List.replicate 400 '0') := rfl
  rw [hp, h]
  unfold JsNum.ofInt
  rw [if_pos (by exact_mod_cast doubleOverflow_le)]

theorem pageNum_hugePage : pageNum hugePageParams = .inf := by
  have h : pageNum hugePageParams = JsNum.max (orDefault (parseInt10 hugePage) (.int 1)) (.int 1) := rfl
  rw [h, parseInt10_hugePage]
  rfl

theorem limitNum_hugePage : limitNum hugePageParams = .int 100 := by decide

theorem offset_hugePage : offset hugePageParams = .inf := by
  unfold offset
  rw [pageNum_hugePage, limitNum_hugePage]
  rfl

theorem param_length_add_one (vs : List PgVal) (a b : PgVal) :
    param (vs ++ [a, b]) (vs.length + 1) = a := by
  have h : (vs ++ [a, b])[vs.length]? = some a := by
    rw [List.getElem?_append_right (le_refl _)]
    simp
  simp [param, List.getD_eq_getElem?_getD, h]

theorem param_length_add_two (vs : List PgVal) (a b : PgVal) :
    param (vs ++ [a, b]) (vs.length + 2) = b := by
  have h : (vs ++ [a, b])[vs.length + 1]? = some b := by
    rw [List.getElem?_append_right (Nat.le_succ _)]
    simp
  simp [param, List.getD_eq_getElem?_getD, h]

theorem orderColumn?_of_mem (col : String) (h : col ∈ SORT_MAP) :
    ∃ key, orderColumn? col = some key := by
  simp only [SORT_MAP, List.mem_cons, List.mem_singleton, List.not_mem_nil, or_false] at h
  rcases h with h | h | h | h | h <;> subst h <;> exact ⟨_, rfl⟩

/-- The store executes the query the handler builds when the offset is an integer within
`BIGINT`: it returns the rows that pass the conditions, ordered by the sort column, from
`offset` on and at most `limitNum` of them. -/
theorem buildFeedQuery_exec (ctx : Ctx) (allowed : List (Option Int)) (p : PostsParams)
    (db : DB) (o : Int) (ho : offset p = .int o) (hmax : o ≤ bigintMax) :
    ∃ key k, orderColumn? (sortCol p).jsString = some key ∧
      limitNum p = .int k ∧ 1 ≤ k ∧ k ≤ 100 ∧ 0 ≤ o ∧
      (buildFeedQuery ctx allowed p).exec db =
        some (((((feedFrom db).filter (fun r =>
            passesWhere (buildFeedQuery ctx allowed p).conditions
              (buildFeedQuery ctx allowed p).values r.d)).insertionSort
            (fun a b => SortKey.le (key b.d) (key a.d) = true)).drop o.toNat).take
          k.toNat) := by
  obtain ⟨key, hkey⟩ := orderColumn?_of_mem _ (sortCol_mem p)
  obtain ⟨n, k, -, hk, -, hk1, hk2, -, ho0⟩ := offset_int p o ho
  refine ⟨key, k, hkey, hk, hk1, hk2, ho0, ?_⟩
  have hl : ¬ (k < 0 ∨ o < 0 ∨ bigintMax < k ∨ bigintMax < o) := by
    have hb : (100 : Int) ≤ bigintMax := by decide
    omega
  unfold FeedQuery.exec
  have hob : (buildFeedQuery ctx allowed p).orderBy = (sortCol p).jsString := rfl
  rw [hob, hkey]
  have hlim : (param (buildFeedQuery ctx allowed p).values
      (buildFeedQuery ctx allowed p).limitPh).int? = some k := by
    unfold buildFeedQuery
    simp only [param_length_add_one, hk]
    rfl
  have hoff : (param (buildFeedQuery ctx allowed p).values
      (buildFeedQuery ctx allowed p).offsetPh).int? = some o := by
    unfold buildFeedQuery
    simp only [param_length_add_two, ho]
    rfl
  rw [hlim, hoff]
  simp only [hl, if_false]

theorem passesWhere_nothing (rest : List Cond) (values : List PgVal) (d : Discussion) :
    passesWhere (.nothing :: rest) values d = false := by
  unfold passesWhere
  rw [List.foldr_cons]
  generalize List.foldr (fun c acc => triAnd (c.eval values d) acc) (some true) rest = acc
  rcases acc with _ | _ | _ <;> rfl

theorem allowedModuleIds_nil (db : DB) (viewer : Int)
    (hs : ∀ g ∈ db.student_subscriptions, g.student_id ≠ viewer)
    (hm : ∀ g ∈ db.student_modules, g.student_id ≠ viewer) :
    allowedModuleIds db viewer = [] := by
  unfold allowedModuleIds
  have h1 : db.student_subscriptions.filter (fun g => g.student_id == viewer) = [] := by
    rw [List.filter_eq_nil_iff]
    intro g hg
    simpa using hs g hg
  have h2 : db.student_modules.filter (fun g => g.student_id == viewer) = [] := by
    rw [List.filter_eq_nil_iff]
    intro g hg
    simpa using hm g hg
  rw [h1, h2]
  rfl

theorem buildFeedQuery_exec_inf (ctx : Ctx) (allowed : List (Option Int)) (p : PostsParams)
    (db : DB) (h : offset p = .inf) : (buildFeedQuery ctx allowed p).exec db = none := by
  have hoff : (param (buildFeedQuery ctx allowed p).values
      (buildFeedQuery ctx allowed p).offsetPh).int? = none := by
    unfold buildFeedQuery
    simp only [param_length_add_two, h]
    rfl
  unfold FeedQuery.exec
  rw [hoff]
  split
  · rename_i heq
    cases heq
  · rfl

/-- Claim C2, counterexample. Student 2 has no grant in the sample tables and the request has
`include_general=false`, but its `page` is the numeral of 10^400: `parseInt` makes it
`Infinity`, the offset bound to `OFFSET` is `Infinity`, the store rejects the statement and
the handler answers 500 and not an empty list. -/
theorem no_grants_huge_page_fails :
    (∀ g ∈ sampleDB.student_subscriptions, g.student_id ≠ 2) ∧
    (∀ g ∈ sampleDB.student_modules, g.student_id ≠ 2) ∧
    includeGeneral hugePageParams = false ∧
    sampleCtx.rejects .feedModules = false ∧ sampleCtx.rejects .feedPosts = false ∧
    offset hugePageParams = .inf ∧
    getPosts sampleCtx sampleDB 2 hugePageParams = Response.fail 500 "Error fetching posts" ∧
    (getPosts sampleCtx sampleDB 2 hugePageParams).status ≠ 200 := by
  have h : getPosts sampleCtx sampleDB 2 hugePageParams =
      Response.fail 500 "Error fetching posts" := by
    unfold getPosts
    rw [buildFeedQuery_exec_inf _ _ _ _ offset_hugePage]
    rfl
  refine ⟨by decide, by decide, by decide, rfl, rfl, offset_hugePage, h, ?_⟩
  rw [h]
  decide

/-- Claim C2, amended. For every viewer with no subscription row and no enrollment row, every
database content and every value of `limit`, `category`, `search` and `sort`, and every `page`
for which the offset is an integer not above `Number.MAX_SAFE_INTEGER`, `GET /posts` with
`String(include_general)` different from `"true"` answers `{ success: true, posts: [] }` with
status 200, whenever the store executes the two statements of the handler. -/
theorem no_grants_no_general_empty (ctx : Ctx) (db : DB) (viewer : Int) (p : PostsParams)
    (o : Int)
    (hs : ∀ g ∈ db.student_subscriptions, g.student_id ≠ viewer)
    (hm : ∀ g ∈ db.student_modules, g.student_id ≠ viewer)
    (hg : includeGeneral p = false)
    (ho : offset p = .int o) (hsafe : o ≤ maxSafeInteger)
    (h1 : ctx.rejects .feedModules = false) (h2 : ctx.rejects .feedPosts = false) :
    getPosts ctx db viewer p =
      Response.json (.obj [("success", .bool true), ("posts", .arr [])]) := by
  unfold getPosts
  rw [h1, h2, allowedModuleIds_nil db viewer hs hm]
  have hmax : o ≤ bigintMax := le_trans hsafe (by decide)
  obtain ⟨key, k, -, -, -, -, -, hex⟩ := buildFeedQuery_exec ctx [] p db o ho hmax
  obtain ⟨rest, extra, hc, -⟩ := buildFeedQuery_shape ctx [] p
  have hvis : (visibilityCondition [] p).1 = .nothing := by
    simp [visibilityCondition, hg]
  rw [hc, hvis] at hex
  simp only [passesWhere_nothing, List.filter_false, List.insertionSort, List.drop_nil,
    List.take_nil] at hex
  rw [hex]
  rfl

/-- Witness of C2: student 2 has no grant in the sample tables; the request asks for page 2,
limit 500, a category, the search text `%` and a sort text outside the allowlist. -/
theorem no_grants_no_general_empty_witness :
    (∀ g ∈ sampleDB.student_subscriptions, g.student_id ≠ 2) ∧
    (∀ g ∈ sampleDB.student_modules, g.student_id ≠ 2) ∧
    includeGeneral sampleParams = false ∧
    offset sampleParams = .int 100 ∧
    getPosts sampleCtx sampleDB 2 sampleParams =
      Response.json (.obj [("success", .bool true), ("posts", .arr [])]) :=
  ⟨by decide, by decide, by decide, by decide,
    no_grants_no_general_empty sampleCtx sampleDB 2 sampleParams 100 (by decide) (by decide)
      (by decide) (by decide) (by decide) rfl rfl⟩

/-! ## The like toggle -/

theorem sampleCtx_healthy : sampleCtx.healthy := ⟨fun _ => rfl, rfl⟩

theorem insertLike_ok (now : Int) (db : DB) (id student_id : Int)
    (hpost : ∃ d ∈ db.discussions, d.id = id) (hstu : ∃ s ∈ db.student, s.stu_id = student_id)
    (hnone : selectLikes db id student_id = []) :
    insertLike now id student_id db =
      (some (), { db with
        discussion_likes := db.discussion_likes ++
          [{ id := db.seq.discussion_likes, discussion_id := id, student_id := student_id,
             created_at := now }]
        seq := { db.seq with discussion_likes := db.seq.discussion_likes + 1 } }) := by
  have h1 : db.discussions.any (fun d => d.id == id) = true := by
    simpa using hpost
  have h2 : db.student.any (fun s => s.stu_id == student_id) = true := by
    simpa using hstu
  simp [insertLike, h1, h2, hnone]

theorem insertLike_fails (now : Int) (db : DB) (id student_id : Int)
    (hmiss : ¬ ((∃ d ∈ db.discussions, d.id = id) ∧ (∃ s ∈ db.student, s.stu_id = student_id))) :
    insertLike now id student_id db =
      (none, { db with seq := { db.seq with discussion_likes := db.seq.discussion_likes + 1 } }) := by
  have h : (db.discussions.any (fun d => d.id == id) &&
      db.student.any (fun s => s.stu_id == student_id)) = false := by
    rw [Bool.eq_false_iff]
    intro h
    apply hmiss
    simpa using h
  simp [insertLike, h]

/-- The request of a student who has liked the post: the row is deleted and the counter
decremented, and nothing else happens. -/
theorem likePost_unlike (ctx : Ctx) (db : DB) (id student_id : Int) (hctx : ctx.healthy)
    (hs : student_id ≠ 0) (hrow : selectLikes db id student_id ≠ []) :
    (likePost ctx db id student_id).db = decrementLikes (deleteLikes db id student_id) id ∧
    (likePost ctx db id student_id).effects =
      [.query .likeCheck true, .query .likeDelete true, .query .likeDecrement true] ∧
    (likePost ctx db id student_id).response =
      Response.json (.obj [("success", .bool true), ("liked", .bool false)]) := by
  obtain ⟨hrej, -⟩ := hctx
  have hlen : (selectLikes db id student_id).length > 0 := List.length_pos.mpr hrow
  simp [likePost, hs, handle, query, bind, H.bind, pure, H.pure, hrej, hlen]

/-- The request of a student who has not liked the post: the row, the increment and the
notification are written, and the notification is emitted when the socket is there. -/
theorem likePost_like (ctx : Ctx) (db : DB) (id student_id : Int) (hctx : ctx.healthy)
    (hs : student_id ≠ 0) (hpost : ∃ d ∈ db.discussions, d.id = id)
    (hstu : ∃ s ∈ db.student, s.stu_id = student_id)
    (hnone : selectLikes db id student_id = []) :
    (likePost ctx db id student_id).db =
      (insertNotification ctx.now "like" (some id)
        ("👍 " ++ likerName (selectStudent db student_id) ++ " liked your post")
        (incrementLikes (insertLike ctx.now id student_id db).2 id)).2 ∧
    (likePost ctx db id student_id).effects =
      [.query .likeCheck true, .query .likeInsert true, .query .likeIncrement true,
        .query .likeLiker true, .query .likeNotify true] ++
      (if ctx.hasSocket then
        [.emit none "new_notification" (notificationPayload "like"
          { id := db.seq.notifications, type := "like", ref_id := some id,
            message := "👍 " ++ likerName (selectStudent db student_id) ++ " liked your post",
            created_at := ctx.now, is_read := false })]
      else []) ∧
    (likePost ctx db id student_id).response =
      Response.json (.obj [("success", .bool true), ("liked", .bool true)]) := by
  obtain ⟨hrej, hemit⟩ := hctx
  have hins := insertLike_ok ctx.now db id student_id hpost hstu hnone
  simp [likePost, hs, handle, query, emit, bind, H.bind, pure, H.pure, hrej, hemit, hnone, hins,
    incrementLikes, insertNotification, selectStudent]
  cases ctx.hasSocket <;> simp [emit, hemit, H.pure, pure, bind, H.bind]

/-- The request for a post or a student that does not exist: the insert fails and only
the counter of the sequence moves. -/
theorem likePost_missing (ctx : Ctx) (db : DB) (id student_id : Int) (hctx : ctx.healthy)
    (hs : student_id ≠ 0)
    (hmiss : ¬ ((∃ d ∈ db.discussions, d.id = id) ∧ (∃ s ∈ db.student, s.stu_id = student_id)))
    (hnone : selectLikes db id student_id = []) :
    (likePost ctx db id student_id).db =
      { db with seq := { db.seq with discussion_likes := db.seq.discussion_likes + 1 } } ∧
    (likePost ctx db id student_id).response = Response.fail 500 "Error liking post" := by
  obtain ⟨hrej, hemit⟩ := hctx
  have hins := insertLike_fails ctx.now db id student_id hmiss
  simp [likePost, hs, handle, query, bind, H.bind, pure, H.pure, hrej, hnone, hins]

/-- The tables after a like request of a student who had not liked the post. -/
theorem likePost_like_db (ctx : Ctx) (db : DB) (id student_id : Int) (hctx : ctx.healthy)
    (hs : student_id ≠ 0) (hpost : ∃ d ∈ db.discussions, d.id = id)
    (hstu : ∃ s ∈ db.student, s.stu_id = student_id)
    (hnone : selectLikes db id student_id = []) :
    (likePost ctx db id student_id).db = { db with
        discussion_likes := db.discussion_likes ++
          [{ id := db.seq.discussion_likes, discussion_id := id, student_id := student_id,
             created_at := ctx.now }]
        discussions := db.discussions.map
          (fun d => if d.id = id then { d with likes := d.likes + 1 } else d)
        notifications := db.notifications ++
          [{ id := db.seq.notifications, type := "like", ref_id := some id,
             message := "👍 " ++ likerName (selectStudent db student_id) ++ " liked your post",
             created_at := ctx.now, is_read := false }]
        seq := { db.seq with
          discussion_likes := db.seq.discussion_likes + 1
          notifications := db.seq.notifications + 1 } } := by
  rw [(likePost_like ctx db id student_id hctx hs hpost hstu hnone).1,
    insertLike_ok ctx.now db id student_id hpost hstu hnone]
  rfl

theorem insertLike_student (now : Int) (db : DB) (id student_id : Int) :
    (insertLike now id student_id db).2.student = db.student := by
  unfold insertLike
  split <;> rfl

/-- The tables a like request leaves when the store executes its statements, whether or
not the emit throws. -/
theorem likePost_db (ctx : Ctx) (db : DB) (id student_id : Int)
    (hrej : ∀ site, ctx.rejects site = false) (hs : student_id ≠ 0) :
    (likePost ctx db id student_id).db =
      if selectLikes db id student_id ≠ [] then decrementLikes (deleteLikes db id student_id) id
      else if (insertLike ctx.now id student_id db).1 = some () then
        (insertNotification ctx.now "like" (some id)
          ("👍 " ++ likerName (selectStudent db student_id) ++ " liked your post")
          (incrementLikes (insertLike ctx.now id student_id db).2 id)).2
      else (insertLike ctx.now id student_id db).2 := by
  by_cases hrow : selectLikes db id student_id = []
  · rw [if_neg (not_not.mpr hrow)]
    rcases hi : insertLike ctx.now id student_id db with ⟨_ | u, db1⟩
    · simp [likePost, hs, handle, query, bind, H.bind, pure, H.pure, hrej, hrow, hi]
    · have hst : db1.student = db.student := by
        have h := insertLike_student ctx.now db id student_id
        rw [hi] at h
        exact h
      cases h8 : ctx.hasSocket <;> cases h9 : ctx.emitThrows <;>
        simp [likePost, hs, handle, query, emit, bind, H.bind, pure, H.pure, hrej, hrow, hi,
          h8, h9, incrementLikes, insertNotification, selectStudent, hst]
  · have hlen : (selectLikes db id student_id).length > 0 := List.length_pos.mpr hrow
    rw [if_pos hrow]
    simp [likePost, hs, handle, query, bind, H.bind, pure, H.pure, hrej, hlen]

/-- Claim C4. `POST /posts/:id/like` is a toggle over the tables: for every existing post
and existing student (whose id, drawn from a `SERIAL` column, is not `0`), whenever the
store executes the statements: if a `discussion_likes` row of the pair exists, the request
deletes the rows of the pair, sets `likes` to `max(likes - 1, 0)`, leaves `notifications`
and every other table alone, emits no event and answers `liked: false`; if none exists, it
inserts exactly one row of the pair, sets `likes` to `likes + 1`, inserts exactly one
notification of type `like` with `ref_id` the post id, and answers `liked: true`. -/
theorem like_toggle (ctx : Ctx) (db : DB) (id student_id : Int) (hctx : ctx.healthy)
    (hs : student_id ≠ 0) (hpost : ∃ d ∈ db.discussions, d.id = id)
    (hstu : ∃ s ∈ db.student, s.stu_id = student_id) :
    (selectLikes db id student_id ≠ [] →
      (likePost ctx db id student_id).db = { db with
        discussion_likes := db.discussion_likes.filter
          (fun l => !(l.discussion_id == id && l.student_id == student_id))
        discussions := db.discussions.map
          (fun d => if d.id = id then { d with likes := max (d.likes - 1) 0 } else d) } ∧
      (∀ room event payload,
        Effect.emit room event payload ∉ (likePost ctx db id student_id).effects) ∧
      (likePost ctx db id student_id).response =
        Response.json (.obj [("success", .bool true), ("liked", .bool false)])) ∧
    (selectLikes db id student_id = [] →
      (likePost ctx db id student_id).db = { db with
        discussion_likes := db.discussion_likes ++
          [{ id := db.seq.discussion_likes, discussion_id := id, student_id := student_id,
             created_at := ctx.now }]
        discussions := db.discussions.map
          (fun d => if d.id = id then { d with likes := d.likes + 1 } else d)
        notifications := db.notifications ++
          [{ id := db.seq.notifications, type := "like", ref_id := some id,
             message := "👍 " ++ likerName (selectStudent db student_id) ++ " liked your post",
             created_at := ctx.now, is_read := false }]
        seq := { db.seq with
          discussion_likes := db.seq.discussion_likes + 1
          notifications := db.seq.notifications + 1 } } ∧
      (likePost ctx db id student_id).response =
        Response.json (.obj [("success", .bool true), ("liked", .bool true)])) := by
  constructor
  · intro hrow
    obtain ⟨hd, he, hr⟩ := likePost_unlike ctx db id student_id hctx hs hrow
    refine ⟨hd, ?_, hr⟩
    intro room event payload hmem
    rw [he] at hmem
    simp at hmem
  · intro hnone
    exact ⟨likePost_like_db ctx db id student_id hctx hs hpost hstu hnone,
      (likePost_like ctx db id student_id hctx hs hpost hstu hnone).2.2⟩

/-- Witness of C4: in the sample tables student 1 has liked post 1 and student 2 has not;
the request of student 1 answers `liked: false`. -/
theorem like_toggle_witness :
    sampleCtx.healthy ∧ (1 : Int) ≠ 0 ∧ (∃ d ∈ sampleDB.discussions, d.id = 1) ∧
    (∃ s ∈ sampleDB.student, s.stu_id = 1) ∧ selectLikes sampleDB 1 1 ≠ [] ∧
    (likePost sampleCtx sampleDB 1 1).response =
      Response.json (.obj [("success", .bool true), ("liked", .bool false)]) :=
  ⟨sampleCtx_healthy, by decide, by decide, by decide, by decide,
    ((like_toggle sampleCtx sampleDB 1 1 sampleCtx_healthy (by decide) (by decide)
      (by decide)).1 (by decide)).2.2⟩

theorem filter_not_pair_of_selectLikes_nil (db : DB) (id student_id : Int)
    (hnone : selectLikes db id student_id = []) :
    db.discussion_likes.filter
      (fun l => !(l.discussion_id == id && l.student_id == student_id)) = db.discussion_likes := by
  rw [List.filter_eq_self]
  intro l hl
  unfold selectLikes at hnone
  rw [List.filter_eq_nil_iff] at hnone
  have := hnone l hl
  by_cases hd : l.discussion_id = id <;> simp_all

/-- Decrementing after incrementing restores a counter that was not negative. -/
theorem decrement_increment (ds : List Discussion) (id : Int)
    (hnonneg : ∀ d ∈ ds, d.id = id → 0 ≤ d.likes) :
    (ds.map (fun d => if d.id = id then { d with likes := d.likes + 1 } else d)).map
      (fun d => if d.id = id then { d with likes := max (d.likes - 1) 0 } else d) = ds := by
  induction ds with
  | nil => rfl
  | cons d ds ih =>
    rw [List.map_cons, List.map_cons, ih (fun x hx => hnonneg x (List.mem_cons_of_mem _ hx))]
    congr 1
    by_cases h : d.id = id
    · have h0 := hnonneg d (List.mem_cons_self _ _) h
      have hm : max (d.likes + 1 - 1) 0 = d.likes := by
        rw [Int.add_sub_cancel]; exact max_eq_left h0
      rw [if_pos h, if_pos h]
      cases d
      simp only at hm
      simp only [hm]
    · rw [if_neg h, if_neg h]

/-- Claim C5. For every existing post whose `likes` counter is not negative and every
existing student who has not liked it, two consecutive `POST /posts/:id/like` requests of
that student (the first answers `liked: true`, the second `liked: false`) leave the
`discussions` table, hence the post's counter, as it was before the first request, leave
`discussion_likes` as it was, and leave no row for the pair. -/
theorem like_then_unlike (ctx1 ctx2 : Ctx) (db : DB) (id student_id : Int)
    (h1 : ctx1.healthy) (h2 : ctx2.healthy) (hs : student_id ≠ 0)
    (hpost : ∃ d ∈ db.discussions, d.id = id) (hstu : ∃ s ∈ db.student, s.stu_id = student_id)
    (hnonneg : ∀ d ∈ db.discussions, d.id = id → 0 ≤ d.likes)
    (hnone : selectLikes db id student_id = []) :
    (likePost ctx1 db id student_id).response =
      Response.json (.obj [("success", .bool true), ("liked", .bool true)]) ∧
    (likePost ctx2 (likePost ctx1 db id student_id).db id student_id).response =
      Response.json (.obj [("success", .bool true), ("liked", .bool false)]) ∧
    (likePost ctx2 (likePost ctx1 db id student_id).db id student_id).db.discussions =
      db.discussions ∧
    (likePost ctx2 (likePost ctx1 db id student_id).db id student_id).db.discussion_likes =
      db.discussion_likes ∧
    selectLikes (likePost ctx2 (likePost ctx1 db id student_id).db id student_id).db
      id student_id = [] := by
  have hdb := likePost_like_db ctx1 db id student_id h1 hs hpost hstu hnone
  have hrow : selectLikes (likePost ctx1 db id student_id).db id student_id ≠ [] := by
    rw [hdb]
    simp [selectLikes]
  obtain ⟨hd2, -, hr2⟩ := likePost_unlike ctx2 _ id student_id h2 hs hrow
  have hlikes : (likePost ctx2 (likePost ctx1 db id student_id).db id student_id).db.discussion_likes
      = db.discussion_likes := by
    rw [hd2, hdb]
    simp only [decrementLikes, deleteLikes, List.filter_append]
    rw [filter_not_pair_of_selectLikes_nil db id student_id hnone]
    simp
  refine ⟨(likePost_like ctx1 db id student_id h1 hs hpost hstu hnone).2.2, hr2, ?_, hlikes, ?_⟩
  · rw [hd2, hdb]
    simp only [decrementLikes, deleteLikes]
    exact decrement_increment db.discussions id hnonneg
  · unfold selectLikes
    rw [hlikes]
    exact hnone

/-- Witness of C5: student 2 likes and then unlikes post 1 of the sample tables, whose
counter is 1 before and after. -/
theorem like_then_unlike_witness :
    (∀ d ∈ sampleDB.discussions, d.id = 1 → 0 ≤ d.likes) ∧ selectLikes sampleDB 1 2 = [] ∧
    (likePost sampleCtx (likePost sampleCtx sampleDB 1 2).db 1 2).db.discussions =
      sampleDB.discussions ∧
    selectLikes (likePost sampleCtx (likePost sampleCtx sampleDB 1 2).db 1 2).db 1 2 = [] :=
  ⟨by decide, by decide,
    (like_then_unlike sampleCtx sampleCtx sampleDB 1 2 sampleCtx_healthy sampleCtx_healthy
      (by decide) (by decide) (by decide) (by decide) (by decide)).2.2.1,
    (like_then_unlike sampleCtx sampleCtx sampleDB 1 2 sampleCtx_healthy sampleCtx_healthy
      (by decide) (by decide) (by decide) (by decide) (by decide)).2.2.2.2⟩

/-! ## The invariant of the like toggle -/

/-- Filtering by `p` after removing the rows that satisfy `q` loses the rows that satisfy
both. -/
theorem length_filter_split {α : Type} (L : List α) (p q : α → Bool) :
    ((L.filter (fun x => !q x)).filter p).length + (L.filter (fun x => p x && q x)).length =
      (L.filter p).length := by
  induction L with
  | nil => rfl
  | cons l L ih =>
    cases hp : p l <;> cases hq : q l <;>
      simp only [List.filter_cons, hp, hq, Bool.not_true, Bool.not_false, Bool.and_true,
        Bool.and_false, Bool.and_self, if_true, if_false, List.length_cons,
        Bool.false_eq_true] <;> omega

/-- Deleting the rows of one pair lowers the count of that post by the number of deleted
rows and leaves the other counts alone. -/
theorem count_after_delete (L : List Like) (id s k : Int) :
    ((L.filter (fun l => !(l.discussion_id == id && l.student_id == s))).filter
        (fun l => l.discussion_id == k)).length +
      (if k = id then
        (L.filter (fun l => l.discussion_id == id && l.student_id == s)).length else 0) =
    (L.filter (fun l => l.discussion_id == k)).length := by
  rw [← length_filter_split L (fun l => l.discussion_id == k)
    (fun l => l.discussion_id == id && l.student_id == s)]
  congr 1
  by_cases hk : k = id
  · subst hk
    rw [if_pos rfl]
    congr 1
    apply List.filter_congr
    intro l _
    cases h : (l.discussion_id == k) <;> simp [h]
  · rw [if_neg hk]
    symm
    rw [List.length_eq_zero, List.filter_eq_nil_iff]
    intro l _ hl
    simp only [Bool.and_eq_true, beq_iff_eq] at hl
    exact hk (hl.1.symm.trans hl.2.1)

/-- Under the uniqueness constraint a pair has at most one row. -/
theorem pair_rows_le_one (L : List Like) (id s : Int)
    (hnd : (L.map (fun l => (l.discussion_id, l.student_id))).Nodup) :
    (L.filter (fun l => l.discussion_id == id && l.student_id == s)).length ≤ 1 := by
  induction L with
  | nil => simp
  | cons l L ih =>
    rw [List.map_cons, List.nodup_cons] at hnd
    by_cases hp : (l.discussion_id == id && l.student_id == s) = true
    · have hnil : L.filter (fun l => l.discussion_id == id && l.student_id == s) = [] := by
        rw [List.filter_eq_nil_iff]
        intro x hx hxp
        apply hnd.1
        rw [List.mem_map]
        refine ⟨x, hx, ?_⟩
        simp only [Bool.and_eq_true, beq_iff_eq] at hp hxp
        rw [hp.1, hp.2, hxp.1, hxp.2]
      rw [List.filter_cons, if_pos hp, hnil]
      simp
    · rw [List.filter_cons, if_neg hp]
      exact ih hnd.2

theorem likesConsistent_nonneg (db : DB) (h : likesConsistent db) :
    ∀ d ∈ db.discussions, 0 ≤ d.likes := by
  intro d hd
  rw [h.1 d hd]
  exact Int.natCast_nonneg _

theorem likesConsistent_unlike (db : DB) (id s : Int) (h : likesConsistent db)
    (hrow : selectLikes db id s ≠ []) :
    likesConsistent (decrementLikes (deleteLikes db id s) id) := by
  obtain ⟨hcount, hnd⟩ := h
  have hone : (db.discussion_likes.filter
      (fun l => l.discussion_id == id && l.student_id == s)).length = 1 := by
    have h1 := pair_rows_le_one db.discussion_likes id s hnd
    have h2 : 0 < (selectLikes db id s).length := List.length_pos.mpr hrow
    unfold selectLikes at h2
    omega
  constructor
  · intro d hd
    simp only [decrementLikes, deleteLikes, List.mem_map] at hd ⊢
    obtain ⟨d0, hd0, rfl⟩ := hd
    have hc := hcount d0 hd0
    by_cases hid : d0.id = id
    · have hcd := count_after_delete db.discussion_likes id s id
      rw [if_pos rfl, hone] at hcd
      rw [if_pos hid]
      simp only [hid] at hc ⊢
      rw [hc, ← hcd]
      push_cast
      rw [Int.add_sub_cancel]
      exact max_eq_left (Int.natCast_nonneg _)
    · have hcd := count_after_delete db.discussion_likes id s d0.id
      rw [if_neg hid, Nat.add_zero] at hcd
      rw [if_neg hid, hc, hcd]
  · simp only [decrementLikes, deleteLikes]
    exact hnd.sublist ((List.filter_sublist _).map _)

theorem likesConsistent_like (db : DB) (id s lid now : Int) (h : likesConsistent db)
    (hnone : selectLikes db id s = []) :
    likesConsistent (incrementLikes { db with discussion_likes := db.discussion_likes ++
      [{ id := lid, discussion_id := id, student_id := s, created_at := now }] } id) := by
  obtain ⟨hcount, hnd⟩ := h
  constructor
  · intro d hd
    simp only [incrementLikes, List.mem_map] at hd ⊢
    obtain ⟨d0, hd0, rfl⟩ := hd
    have hc := hcount d0 hd0
    by_cases hid : d0.id = id
    · rw [if_pos hid]
      simp only [hid] at hc ⊢
      simp [List.filter_append, hc]
    · rw [if_neg hid]
      have : ¬ id = d0.id := fun h => hid h.symm
      simp [List.filter_append, hc, this]
  · simp only [incrementLikes, List.map_append, List.map_cons, List.map_nil]
    rw [List.nodup_append]
    refine ⟨hnd, List.nodup_singleton _, ?_⟩
    intro p hp hp'
    rw [List.mem_singleton] at hp'
    subst hp'
    rw [List.mem_map] at hp
    obtain ⟨l, hl, hkey⟩ := hp
    have : l ∈ selectLikes db id s := by
      unfold selectLikes
      rw [List.mem_filter]
      simp only [Prod.mk.injEq] at hkey
      exact ⟨hl, by simp [hkey.1, hkey.2]⟩
    rw [hnone] at this
    exact List.not_mem_nil _ this

/-- The invariant reads only `discussions` and `discussion_likes`. -/
theorem likesConsistent_congr (db1 db2 : DB) (hd : db1.discussions = db2.discussions)
    (hl : db1.discussion_likes = db2.discussion_likes) (h : likesConsistent db2) :
    likesConsistent db1 := by
  unfold likesConsistent at h ⊢
  rw [hd, hl]
  exact h

/-- When the store executes every statement of a `POST /posts/:id/like` request on an
existing post (whether or not the emit succeeds), the request preserves the invariant:
counters equal to the numbers of rows, pairs unique; no counter is negative. -/
theorem likePost_consistent_of_executed (ctx : Ctx) (db : DB) (id student_id : Int)
    (hrej : ∀ site, ctx.rejects site = false) (hpost : ∃ d ∈ db.discussions, d.id = id)
    (hinv : likesConsistent db) :
    likesConsistent (likePost ctx db id student_id).db ∧
    ∀ d ∈ (likePost ctx db id student_id).db.discussions, 0 ≤ d.likes := by
  have key : likesConsistent (likePost ctx db id student_id).db := by
    by_cases hs : student_id = 0
    · have hsame : (likePost ctx db id student_id).db = db := by
        simp [likePost, hs]
      rw [hsame]
      exact hinv
    · rw [likePost_db ctx db id student_id hrej hs]
      by_cases hrow : selectLikes db id student_id = []
      · rw [if_neg (not_not.mpr hrow)]
        by_cases hstu : ∃ s ∈ db.student, s.stu_id = student_id
        · rw [insertLike_ok ctx.now db id student_id hpost hstu hrow, if_pos rfl]
          exact likesConsistent_congr _ _ rfl rfl
            (likesConsistent_like db id student_id db.seq.discussion_likes ctx.now hinv hrow)
        · rw [insertLike_fails ctx.now db id student_id (fun h => hstu h.2),
            if_neg (by simp)]
          exact likesConsistent_congr _ _ rfl rfl hinv
      · rw [if_pos hrow]
        exact likesConsistent_unlike db id student_id hinv hrow
  exact ⟨key, likesConsistent_nonneg _ key⟩

/-- After the `DELETE` alone the counter of the post is one above its number of rows. -/
theorem deleted_not_consistent (db : DB) (id s : Int) (h : likesConsistent db)
    (hpost : ∃ d ∈ db.discussions, d.id = id) (hrow : selectLikes db id s ≠ []) :
    ¬ likesConsistent (deleteLikes db id s) := by
  obtain ⟨hcount, hnd⟩ := h
  obtain ⟨d, hd, hid⟩ := hpost
  have hone : (db.discussion_likes.filter
      (fun l => l.discussion_id == id && l.student_id == s)).length = 1 := by
    have h1 := pair_rows_le_one db.discussion_likes id s hnd
    have h2 : 0 < (selectLikes db id s).length := List.length_pos.mpr hrow
    unfold selectLikes at h2
    omega
  intro hc
  have h1 := hc.1 d hd
  have h2 := hcount d hd
  have hcd := count_after_delete db.discussion_likes id s d.id
  rw [if_pos hid, hone] at hcd
  simp only [deleteLikes] at h1
  rw [h2] at h1
  omega

/-- After the `INSERT` alone the counter of the post is one below its number of rows. -/
theorem inserted_not_consistent (db : DB) (id s lid now : Int) (seq : Sequences)
    (h : likesConsistent db) (hpost : ∃ d ∈ db.discussions, d.id = id) :
    ¬ likesConsistent { db with
      discussion_likes := db.discussion_likes ++
        [{ id := lid, discussion_id := id, student_id := s, created_at := now }]
      seq := seq } := by
  obtain ⟨hcount, -⟩ := h
  obtain ⟨d, hd, hid⟩ := hpost
  intro hc
  have h1 := hc.1 d hd
  have h2 := hcount d hd
  simp only [List.filter_append, List.length_append] at h1
  rw [h2] at h1
  simp [hid] at h1

theorem inserted_pairs (db : DB) (id s lid now : Int) (seq : Sequences)
    (h : pairsUnique db) (hnone : selectLikes db id s = []) :
    pairsUnique { db with
      discussion_likes := db.discussion_likes ++
        [{ id := lid, discussion_id := id, student_id := s, created_at := now }]
      seq := seq } := by
  unfold pairsUnique at h ⊢
  simp only [List.map_append, List.map_cons, List.map_nil]
  rw [List.nodup_append]
  refine ⟨h, List.nodup_singleton _, ?_⟩
  intro p hp hp'
  rw [List.mem_singleton] at hp'
  subst hp'
  rw [List.mem_map] at hp
  obtain ⟨l, hl, hkey⟩ := hp
  have : l ∈ selectLikes db id s := by
    unfold selectLikes
    rw [List.mem_filter]
    simp only [Prod.mk.injEq] at hkey
    exact ⟨hl, by simp [hkey.1, hkey.2]⟩
  rw [hnone] at this
  exact List.not_mem_nil _ this

/-- Claim C6, as stated, at a failing input. The sample tables satisfy the invariant (post 1
has one like row, of student 1, and counter 1; post 2 has none) and post 1 exists. Student
2 likes post 1 while the store rejects the statement `UPDATE discussions SET likes =
likes + 1`: the `INSERT` before it has executed and is not undone, the handler answers 500,
and post 1 is left with two like rows and counter 1. The invariant does not hold after the
request. -/
theorem rejected_increment_breaks_counter :
    (∃ d ∈ sampleDB.discussions, d.id = 1) ∧ likesConsistent sampleDB ∧
    (likePost incrementRejected sampleDB 1 2).response.status = 500 ∧
    (likePost incrementRejected sampleDB 1 2).db.discussions.map (fun d => (d.id, d.likes))
      = [(1, 1), (2, 0)] ∧
    (likePost incrementRejected sampleDB 1 2).db.discussion_likes.map
      (fun l => (l.discussion_id, l.student_id)) = [(1, 1), (1, 2)] ∧
    ¬ likesConsistent (likePost incrementRejected sampleDB 1 2).db := by
  decide

/-- Claim C6, amended. Under sequential execution, for a `POST /posts/:id/like` request on
an existing post and whatever the store rejects and whether or not the emit succeeds: if
before the request every post's `likes` counter equals the number of `discussion_likes`
rows of that post and every (post, student) pair has at most one row, then after the
request (1) the same holds if and only if the store did not reject the counter `UPDATE` of
the request; (2) when it did reject it, the context rejects one of the two counter
statements and the response is 500 "Error liking post"; (3) every (post, student) pair
still has at most one row; (4) no `likes` counter is negative. -/
theorem like_consistent_unless_update_rejected (ctx : Ctx) (db : DB) (id student_id : Int)
    (hpost : ∃ d ∈ db.discussions, d.id = id) (hinv : likesConsistent db) :
    (likesConsistent (likePost ctx db id student_id).db ↔
      ¬ counterRejected (likePost ctx db id student_id).effects) ∧
    (counterRejected (likePost ctx db id student_id).effects →
      (ctx.rejects .likeDecrement = true ∨ ctx.rejects .likeIncrement = true) ∧
      (likePost ctx db id student_id).response = Response.fail 500 "Error liking post") ∧
    pairsUnique (likePost ctx db id student_id).db ∧
    ∀ d ∈ (likePost ctx db id student_id).db.discussions, 0 ≤ d.likes := by
  have hnn := likesConsistent_nonneg db hinv
  have good : ∀ out : Outcome, likesConsistent out.db → ¬ counterRejected out.effects →
      (likesConsistent out.db ↔ ¬ counterRejected out.effects) ∧
      (counterRejected out.effects →
        (ctx.rejects .likeDecrement = true ∨ ctx.rejects .likeIncrement = true) ∧
        out.response = Response.fail 500 "Error liking post") ∧
      pairsUnique out.db ∧ ∀ d ∈ out.db.discussions, 0 ≤ d.likes :=
    fun out h1 h2 => ⟨⟨fun _ => h2, fun _ => h1⟩, fun h => absurd h h2, h1.2,
      likesConsistent_nonneg _ h1⟩
  have bad : ∀ out : Outcome, ¬ likesConsistent out.db → counterRejected out.effects →
      (ctx.rejects .likeDecrement = true ∨ ctx.rejects .likeIncrement = true) →
      out.response = Response.fail 500 "Error liking post" →
      pairsUnique out.db → out.db.discussions = db.discussions →
      (likesConsistent out.db ↔ ¬ counterRejected out.effects) ∧
      (counterRejected out.effects →
        (ctx.rejects .likeDecrement = true ∨ ctx.rejects .likeIncrement = true) ∧
        out.response = Response.fail 500 "Error liking post") ∧
      pairsUnique out.db ∧ ∀ d ∈ out.db.discussions, 0 ≤ d.likes :=
    fun out h1 h2 hr hresp h3 h4 =>
      ⟨⟨fun h => absurd h h1, fun h => absurd h2 h⟩, fun _ => ⟨hr, hresp⟩, h3,
        by rw [h4]; exact hnn⟩
  by_cases hs : student_id = 0
  · apply good
    · simpa [likePost, hs] using hinv
    · simp [likePost, hs, counterRejected]
  cases h1 : ctx.rejects .likeCheck
  swap
  · apply good
    · simpa [likePost, hs, handle, query, bind, H.bind, pure, H.pure, h1] using hinv
    · simp [likePost, hs, handle, query, bind, H.bind, pure, H.pure, h1, counterRejected]
  by_cases hrow : selectLikes db id student_id = []
  · cases h4 : ctx.rejects .likeInsert
    swap
    · apply good
      · simpa [likePost, hs, handle, query, bind, H.bind, pure, H.pure, h1, hrow, h4] using hinv
      · simp [likePost, hs, handle, query, bind, H.bind, pure, H.pure, h1, hrow, h4,
          counterRejected]
    by_cases hstu : ∃ s ∈ db.student, s.stu_id = student_id
    swap
    · have hi := insertLike_fails ctx.now db id student_id (fun h => hstu h.2)
      apply good
      · have : likesConsistent { db with
            seq := { db.seq with discussion_likes := db.seq.discussion_likes + 1 } } :=
          likesConsistent_congr _ _ rfl rfl hinv
        simpa [likePost, hs, handle, query, bind, H.bind, pure, H.pure, h1, hrow, h4, hi]
          using this
      · simp [likePost, hs, handle, query, bind, H.bind, pure, H.pure, h1, hrow, h4, hi,
          counterRejected]
    have hi := insertLike_ok ctx.now db id student_id hpost hstu hrow
    by_cases h5 : ctx.rejects .likeIncrement = true
    · apply bad
      · have := inserted_not_consistent db id student_id db.seq.discussion_likes ctx.now
          { db.seq with discussion_likes := db.seq.discussion_likes + 1 } hinv hpost
        simpa [likePost, hs, handle, query, bind, H.bind, pure, H.pure, h1, hrow, h4, hi, h5]
          using this
      · simp [likePost, hs, handle, query, bind, H.bind, pure, H.pure, h1, hrow, h4, hi, h5,
          counterRejected]
      · exact Or.inr h5
      · simp [likePost, hs, handle, query, bind, H.bind, pure, H.pure, h1, hrow, h4, hi, h5]
      · have := inserted_pairs db id student_id db.seq.discussion_likes ctx.now
          { db.seq with discussion_likes := db.seq.discussion_likes + 1 } hinv.2 hrow
        simpa [likePost, hs, handle, query, bind, H.bind, pure, H.pure, h1, hrow, h4, hi, h5]
          using this
      · simp [likePost, hs, handle, query, bind, H.bind, pure, H.pure, h1, hrow, h4, hi, h5]
    rw [Bool.not_eq_true] at h5
    have hc := likesConsistent_like db id student_id db.seq.discussion_likes ctx.now hinv hrow
    apply good
    · apply likesConsistent_congr _ _ _ _ hc
      · cases h6 : ctx.rejects .likeLiker <;> cases h7 : ctx.rejects .likeNotify <;>
          cases h8 : ctx.hasSocket <;> cases h9 : ctx.emitThrows <;>
          simp [likePost, hs, handle, query, emit, bind, H.bind, pure, H.pure, h1, hrow, h4, hi,
            h5, h6, h7, h8, h9, incrementLikes, insertNotification]
      · cases h6 : ctx.rejects .likeLiker <;> cases h7 : ctx.rejects .likeNotify <;>
          cases h8 : ctx.hasSocket <;> cases h9 : ctx.emitThrows <;>
          simp [likePost, hs, handle, query, emit, bind, H.bind, pure, H.pure, h1, hrow, h4, hi,
            h5, h6, h7, h8, h9, incrementLikes, insertNotification]
    · cases h6 : ctx.rejects .likeLiker <;> cases h7 : ctx.rejects .likeNotify <;>
        cases h8 : ctx.hasSocket <;> cases h9 : ctx.emitThrows <;>
        simp [likePost, hs, handle, query, emit, bind, H.bind, pure, H.pure, h1, hrow, h4, hi,
          h5, h6, h7, h8, h9, incrementLikes, insertNotification, counterRejected]
  · have hlen : (selectLikes db id student_id).length > 0 := List.length_pos.mpr hrow
    cases h2 : ctx.rejects .likeDelete
    swap
    · apply good
      · simpa [likePost, hs, handle, query, bind, H.bind, pure, H.pure, h1, hlen, h2] using hinv
      · simp [likePost, hs, handle, query, bind, H.bind, pure, H.pure, h1, hlen, h2,
          counterRejected]
    by_cases h3 : ctx.rejects .likeDecrement = true
    · apply bad
      · have := deleted_not_consistent db id student_id hinv hpost hrow
        simpa [likePost, hs, handle, query, bind, H.bind, pure, H.pure, h1, hlen, h2, h3]
          using this
      · simp [likePost, hs, handle, query, bind, H.bind, pure, H.pure, h1, hlen, h2, h3,
          counterRejected]
      · exact Or.inl h3
      · simp [likePost, hs, handle, query, bind, H.bind, pure, H.pure, h1, hlen, h2, h3]
      · have : pairsUnique (deleteLikes db id student_id) := by
          unfold pairsUnique deleteLikes
          exact hinv.2.sublist ((List.filter_sublist _).map _)
        simpa [likePost, hs, handle, query, bind, H.bind, pure, H.pure, h1, hlen, h2, h3]
          using this
      · simp [likePost, hs, handle, query, bind, H.bind, pure, H.pure, h1, hlen, h2, h3,
          deleteLikes]
    rw [Bool.not_eq_true] at h3
    apply good
    · have := likesConsistent_unlike db id student_id hinv hrow
      simpa [likePost, hs, handle, query, bind, H.bind, pure, H.pure, h1, hlen, h2, h3]
        using this
    · simp [likePost, hs, handle, query, bind, H.bind, pure, H.pure, h1, hlen, h2, h3,
        counterRejected]

/-- Witness of the amended C6: on the sample tables, with the increment rejected, student 2
likes post 1; the pairs stay unique and the counters non-negative. -/
theorem like_consistent_unless_update_rejected_witness :
    (∃ d ∈ sampleDB.discussions, d.id = 1) ∧ likesConsistent sampleDB ∧
    pairsUnique (likePost incrementRejected sampleDB 1 2).db ∧
    ∀ d ∈ (likePost incrementRejected sampleDB 1 2).db.discussions, 0 ≤ d.likes :=
  ⟨by decide, by decide,
    (like_consistent_unless_update_rejected incrementRejected sampleDB 1 2 (by decide)
      (by decide)).2.2⟩

/-! ## Starting a conversation twice -/

theorem selectExisting_eq (db : DB) (a b : Int) :
    selectExisting db a b =
      db.conversations.flatMap (fun c => pairRows db.conversation_participants c a b) := rfl

theorem mem_pairRows (parts : List Participant) (c : Conversation) (a b x : Int) :
    x ∈ pairRows parts c a b ↔
      x = c.id ∧ (∃ p1 ∈ parts, c.id = p1.conversation_id ∧ p1.student_id = a) ∧
        (∃ p2 ∈ parts, c.id = p2.conversation_id ∧ p2.student_id = b) := by
  unfold pairRows
  simp only [List.mem_flatMap, List.mem_filter, beq_iff_eq]
  constructor
  · rintro ⟨p1, ⟨h1, hc1⟩, p2, ⟨h2, hc2⟩, hx⟩
    by_cases hab : (p1.student_id == a && p2.student_id == b) = true
    · rw [if_pos hab] at hx
      simp only [Bool.and_eq_true, beq_iff_eq] at hab
      exact ⟨by simpa using hx, ⟨p1, h1, hc1, hab.1⟩, ⟨p2, h2, hc2, hab.2⟩⟩
    · rw [if_neg hab] at hx
      simp at hx
  · rintro ⟨hx, ⟨p1, h1, hc1, ha⟩, ⟨p2, h2, hc2, hb⟩⟩
    refine ⟨p1, ⟨h1, hc1⟩, p2, ⟨h2, hc2⟩, ?_⟩
    simp [ha, hb, hx]

theorem pairRows_eq_nil_swap (parts : List Participant) (c : Conversation) (a b : Int) :
    pairRows parts c a b = [] ↔ pairRows parts c b a = [] := by
  simp only [List.eq_nil_iff_forall_not_mem, mem_pairRows]
  constructor <;>
  · intro h x hx
    exact h x ⟨hx.1, hx.2.2, hx.2.1⟩

theorem head?_pairRows (parts : List Participant) (c : Conversation) (a b : Int)
    (h : pairRows parts c a b ≠ []) : (pairRows parts c a b).head? = some c.id := by
  cases hl : pairRows parts c a b with
  | nil => exact absurd hl h
  | cons x xs =>
    have hx : x ∈ pairRows parts c a b := by rw [hl]; exact List.mem_cons_self _ _
    rw [((mem_pairRows parts c a b x).mp hx).1]
    rfl

/-- The first row of the existence query does not depend on who asks. -/
theorem head?_flatMap_pairRows_swap (parts : List Participant) (cs : List Conversation)
    (a b : Int) :
    (cs.flatMap (fun c => pairRows parts c a b)).head? =
      (cs.flatMap (fun c => pairRows parts c b a)).head? := by
  induction cs with
  | nil => rfl
  | cons c cs ih =>
    simp only [List.flatMap_cons, List.head?_append]
    by_cases h : pairRows parts c a b = []
    · rw [h, (pairRows_eq_nil_swap parts c a b).mp h]
      simpa using ih
    · have h' : pairRows parts c b a ≠ [] := fun hn => h ((pairRows_eq_nil_swap parts c a b).mpr hn)
      rw [head?_pairRows parts c a b h, head?_pairRows parts c b a h']
      rfl

theorem selectExisting_head?_swap (db : DB) (a b : Int) :
    (selectExisting db a b).head? = (selectExisting db b a).head? :=
  head?_flatMap_pairRows_swap db.conversation_participants db.conversations a b

theorem startConversation_existing (ctx : Ctx) (db : DB) (a b first : Int) (rest : List Int)
    (hctx : ctx.healthy) (hb : b ≠ 0) (h : selectExisting db a b = first :: rest) :
    (startConversation ctx db a b).response =
      Response.json (.obj [("success", .bool true), ("conversationId", .num first)]) ∧
    (startConversation ctx db a b).db = db := by
  obtain ⟨hrej, -⟩ := hctx
  simp [startConversation, hb, handle, query, bind, H.bind, pure, H.pure, hrej, h]

theorem startConversation_new (ctx : Ctx) (db : DB) (a b : Int)
    (hctx : ctx.healthy) (hb : b ≠ 0)
    (ha : ∃ s ∈ db.student, s.stu_id = a) (hbe : ∃ s ∈ db.student, s.stu_id = b)
    (h : selectExisting db a b = []) :
    (startConversation ctx db a b).response =
      Response.json (.obj [("success", .bool true),
        ("conversationId", .num db.seq.conversations)]) ∧
    (startConversation ctx db a b).db = withConversation ctx.now db a b := by
  obtain ⟨hrej, -⟩ := hctx
  have h1 : db.student.any (fun s => s.stu_id == a) = true := by simpa using ha
  have h2 : db.student.any (fun s => s.stu_id == b) = true := by simpa using hbe
  simp [startConversation, hb, handle, query, bind, H.bind, pure, H.pure, hrej, h,
    insertConversation, insertParticipants, h1, h2, withConversation]

/-- Once the conversation of `a` and `b` has been created, the existence query finds it
first, whoever of the two asks. -/
theorem selectExisting_withConversation (now : Int) (db : DB) (a b x y : Int)
    (h : selectExisting db a b = [])
    (hxy : (x = a ∧ y = b) ∨ (x = b ∧ y = a)) :
    ∃ rest, selectExisting (withConversation now db a b) x y = db.seq.conversations :: rest := by
  have hall : ∀ z ∈ selectExisting (withConversation now db a b) x y,
      z = db.seq.conversations := by
    intro z hz
    rw [selectExisting_eq, List.mem_flatMap] at hz
    obtain ⟨c, hc, hzc⟩ := hz
    rw [mem_pairRows] at hzc
    obtain ⟨hzid, ⟨p1, hp1, hc1, hs1⟩, ⟨p2, hp2, hc2, hs2⟩⟩ := hzc
    by_contra hne
    have hcid : c.id ≠ db.seq.conversations := hzid ▸ hne
    have hcold : c ∈ db.conversations := by
      simp only [withConversation, List.mem_append, List.mem_singleton] at hc
      rcases hc with hc | hc
      · exact hc
      · exact absurd (by rw [hc]) hcid
    have hold : ∀ p ∈ (withConversation now db a b).conversation_participants,
        c.id = p.conversation_id → p ∈ db.conversation_participants := by
      intro p hp hpc
      simp only [withConversation, List.mem_append, List.mem_cons, List.mem_singleton,
        List.not_mem_nil, or_false] at hp
      rcases hp with hp | hp | hp
      · exact hp
      · exact absurd (by rw [hpc, hp]) hcid
      · exact absurd (by rw [hpc, hp]) hcid
    have hp1' := hold p1 hp1 hc1
    have hp2' := hold p2 hp2 hc2
    have hmem : c.id ∈ selectExisting db a b := by
      rw [selectExisting_eq, List.mem_flatMap]
      refine ⟨c, hcold, ?_⟩
      rw [mem_pairRows]
      rcases hxy with ⟨hx, hy⟩ | ⟨hx, hy⟩
      · exact ⟨rfl, ⟨p1, hp1', hc1, hs1.trans hx⟩, ⟨p2, hp2', hc2, hs2.trans hy⟩⟩
      · exact ⟨rfl, ⟨p2, hp2', hc2, hs2.trans hy⟩, ⟨p1, hp1', hc1, hs1.trans hx⟩⟩
    rw [h] at hmem
    exact absurd hmem (List.not_mem_nil _)
  have hne : db.seq.conversations ∈ selectExisting (withConversation now db a b) x y := by
    rw [selectExisting_eq, List.mem_flatMap]
    refine ⟨{ id := db.seq.conversations, created_at := now }, ?_, ?_⟩
    · simp [withConversation]
    · rw [mem_pairRows]
      have hpa : Participant.mk db.seq.conversation_participants db.seq.conversations a ∈
          (withConversation now db a b).conversation_participants := by
        simp [withConversation]
      have hpb : Participant.mk (db.seq.conversation_participants + 1) db.seq.conversations b ∈
          (withConversation now db a b).conversation_participants := by
        simp [withConversation]
      rcases hxy with ⟨hx, hy⟩ | ⟨hx, hy⟩
      · exact ⟨rfl, ⟨_, hpa, rfl, hx.symm⟩, ⟨_, hpb, rfl, hy.symm⟩⟩
      · exact ⟨rfl, ⟨_, hpb, rfl, hx.symm⟩, ⟨_, hpa, rfl, hy.symm⟩⟩
  cases hl : selectExisting (withConversation now db a b) x y with
  | nil => rw [hl] at hne; exact absurd hne (List.not_mem_nil _)
  | cons z zs =>
    have hz : z = db.seq.conversations := hall z (by rw [hl]; exact List.mem_cons_self _ _)
    exact ⟨zs, by rw [hz]⟩

/-- Claim C7. For every database state and every two students `a` and `b` that exist
(their ids, drawn from a `SERIAL` column, are not `0`; they need not even be distinct),
whenever the store executes the statements: `POST /start` by `a` with recipient `b`
answers some `conversationId`, and a following `POST /start` by `b` with recipient `a`, or
by `a` with recipient `b` again, answers the same `conversationId` and leaves every table
as it is, so it inserts no conversation row and no participant row. -/
theorem start_twice_same_conversation (ctx1 ctx2 : Ctx) (db : DB) (a b : Int)
    (h1 : ctx1.healthy) (h2 : ctx2.healthy) (ha0 : a ≠ 0) (hb0 : b ≠ 0)
    (ha : ∃ s ∈ db.student, s.stu_id = a) (hb : ∃ s ∈ db.student, s.stu_id = b) :
    ∃ c : Int,
      (startConversation ctx1 db a b).response =
        Response.json (.obj [("success", .bool true), ("conversationId", .num c)]) ∧
      (startConversation ctx2 (startConversation ctx1 db a b).db b a).response =
        Response.json (.obj [("success", .bool true), ("conversationId", .num c)]) ∧
      (startConversation ctx2 (startConversation ctx1 db a b).db b a).db =
        (startConversation ctx1 db a b).db ∧
      (startConversation ctx2 (startConversation ctx1 db a b).db a b).response =
        Response.json (.obj [("success", .bool true), ("conversationId", .num c)]) ∧
      (startConversation ctx2 (startConversation ctx1 db a b).db a b).db =
        (startConversation ctx1 db a b).db := by
  cases hex : selectExisting db a b with
  | cons first rest =>
    obtain ⟨hr, hd⟩ := startConversation_existing ctx1 db a b first rest h1 hb0 hex
    have hswap := selectExisting_head?_swap db a b
    rw [hex] at hswap
    cases hex' : selectExisting db b a with
    | nil => rw [hex'] at hswap; cases hswap
    | cons first' rest' =>
      rw [hex'] at hswap
      have hf : first' = first := by
        simp only [List.head?_cons, Option.some.injEq] at hswap
        exact hswap.symm
      subst hf
      rw [hd]
      obtain ⟨hr2, hd2⟩ := startConversation_existing ctx2 db b a first' rest' h2 ha0 hex'
      obtain ⟨hr3, hd3⟩ := startConversation_existing ctx2 db a b first' rest h2 hb0 hex
      exact ⟨first', hr, hr2, hd2, hr3, hd3⟩
  | nil =>
    obtain ⟨hr, hd⟩ := startConversation_new ctx1 db a b h1 hb0 ha hb hex
    rw [hd]
    obtain ⟨r2, hs2⟩ := selectExisting_withConversation ctx1.now db a b b a hex (Or.inr ⟨rfl, rfl⟩)
    obtain ⟨r3, hs3⟩ := selectExisting_withConversation ctx1.now db a b a b hex (Or.inl ⟨rfl, rfl⟩)
    obtain ⟨hr2, hd2⟩ := startConversation_existing ctx2 _ b a _ r2 h2 ha0 hs2
    obtain ⟨hr3, hd3⟩ := startConversation_existing ctx2 _ a b _ r3 h2 hb0 hs3
    exact ⟨db.seq.conversations, hr, hr2, hd2, hr3, hd3⟩

/-- Witness of C7: students 1 and 2 of the sample tables start a conversation twice. -/
theorem start_twice_same_conversation_witness :
    (∃ s ∈ sampleDB.student, s.stu_id = 1) ∧ (∃ s ∈ sampleDB.student, s.stu_id = 2) ∧
    ∃ c : Int,
      (startConversation sampleCtx sampleDB 1 2).response =
        Response.json (.obj [("success", .bool true), ("conversationId", .num c)]) ∧
      (startConversation sampleCtx (startConversation sampleCtx sampleDB 1 2).db 2 1).response =
        Response.json (.obj [("success", .bool true), ("conversationId", .num c)]) ∧
      (startConversation sampleCtx (startConversation sampleCtx sampleDB 1 2).db 2 1).db =
        (startConversation sampleCtx sampleDB 1 2).db ∧
      (startConversation sampleCtx (startConversation sampleCtx sampleDB 1 2).db 1 2).response =
        Response.json (.obj [("success", .bool true), ("conversationId", .num c)]) ∧
      (startConversation sampleCtx (startConversation sampleCtx sampleDB 1 2).db 1 2).db =
        (startConversation sampleCtx sampleDB 1 2).db :=
  ⟨by decide, by decide,
    start_twice_same_conversation sampleCtx sampleCtx sampleDB 1 2 sampleCtx_healthy
      sampleCtx_healthy (by decide) (by decide) (by decide) (by decide)⟩

/-! ## Persist first, then notify -/

theorem likePost_guarded (ctx : Ctx) (db : DB) (id student_id : Int) :
    guardedFrom .likeInsert .likeNotify false false (likePost ctx db id student_id).effects
      = true := by
  unfold likePost
  by_cases hs : student_id = 0
  · simp [hs, guardedFrom]
  · cases h1 : ctx.rejects .likeCheck
    · by_cases hlen : (selectLikes db id student_id).length > 0
      · cases h2 : ctx.rejects .likeDelete <;> cases h3 : ctx.rejects .likeDecrement <;>
          simp [guardedFrom, handle, query, H.bind, H.pure, bind, pure, hs, hlen, h1, h2, h3]
      · cases h4 : ctx.rejects .likeInsert
        · rcases hi : insertLike ctx.now id student_id db with ⟨_ | _, db1⟩
          · simp [guardedFrom, handle, query, H.bind, H.pure, bind, pure, hs, hlen, h1, h4, hi]
          · cases h5 : ctx.rejects .likeIncrement <;> cases h6 : ctx.rejects .likeLiker <;>
              cases h7 : ctx.rejects .likeNotify <;> cases h8 : ctx.hasSocket <;>
              cases h9 : ctx.emitThrows <;>
              simp [guardedFrom, handle, query, emit, H.bind, H.pure, bind, pure,
                insertNotification, hs, hlen, h1, h4, hi, h5, h6, h7, h8, h9]
        · simp [guardedFrom, handle, query, H.bind, H.pure, bind, pure, hs, hlen, h1, h4]
    · simp [guardedFrom, handle, query, H.bind, H.pure, bind, pure, hs, h1]

theorem guardedFrom_sound (ins notif : Site) (pre : List Effect) :
    ∀ (a b : Bool) (room : Option String) (payload : JVal) (post : List Effect),
      guardedFrom ins notif a b (pre ++ .emit room "new_notification" payload :: post) = true →
      (a = true ∨ .query ins true ∈ pre) ∧ (b = true ∨ .query notif true ∈ pre) := by
  induction pre with
  | nil =>
    intro a b room payload post h
    simp only [List.nil_append, guardedFrom, bne_self_eq_false, Bool.false_or,
      Bool.and_eq_true] at h
    exact ⟨Or.inl h.1.1, Or.inl h.1.2⟩
  | cons e pre ih =>
    intro a b room payload post h
    cases e with
    | query site executed =>
      simp only [List.cons_append, guardedFrom] at h
      obtain ⟨ha, hb⟩ := ih _ _ room payload post h
      constructor
      · rcases ha with ha | ha
        · simp only [Bool.or_eq_true, Bool.and_eq_true, beq_iff_eq] at ha
          rcases ha with ha | ⟨he, hs⟩
          · exact Or.inl ha
          · exact Or.inr (by rw [he, hs]; exact List.mem_cons_self _ _)
        · exact Or.inr (List.mem_cons_of_mem _ ha)
      · rcases hb with hb | hb
        · simp only [Bool.or_eq_true, Bool.and_eq_true, beq_iff_eq] at hb
          rcases hb with hb | ⟨he, hs⟩
          · exact Or.inl hb
          · exact Or.inr (by rw [he, hs]; exact List.mem_cons_self _ _)
        · exact Or.inr (List.mem_cons_of_mem _ hb)
    | emit r ev p =>
      simp only [List.cons_append, guardedFrom, Bool.and_eq_true] at h
      obtain ⟨ha, hb⟩ := ih _ _ room payload post h.2
      exact ⟨ha.imp_right (List.mem_cons_of_mem _), hb.imp_right (List.mem_cons_of_mem _)⟩

theorem emitAfter_of_guarded (ins notif : Site) (effects : List Effect)
    (h : guardedFrom ins notif false false effects = true) : EmitAfter ins notif effects := by
  have h1 : ∀ pre room payload post,
      effects = pre ++ .emit room "new_notification" payload :: post →
      .query ins true ∈ pre ∧ .query notif true ∈ pre := by
    intro pre room payload post he
    rw [he] at h
    obtain ⟨ha, hb⟩ := guardedFrom_sound ins notif pre false false room payload post h
    exact ⟨ha.resolve_left (by simp), hb.resolve_left (by simp)⟩
  refine ⟨h1, ?_⟩
  intro hno room payload hmem
  obtain ⟨pre, post, he⟩ := List.append_of_mem hmem
  obtain ⟨ha, hb⟩ := h1 pre room payload post he
  rcases hno with hno | hno
  · exact hno (he ▸ List.mem_append_left _ ha)
  · exact hno (he ▸ List.mem_append_left _ hb)

theorem addComment_guarded (ctx : Ctx) (db : DB) (id : Int) (content : String)
    (student_id : Int) :
    guardedFrom .commentInsert .commentNotify false false
      (addComment ctx db id content student_id).effects = true := by
  unfold addComment
  by_cases hs : content = "" ∨ student_id = 0
  · simp [hs, guardedFrom]
  · cases h1 : ctx.rejects .commentInsert
    · rcases hi : insertComment ctx.now id student_id content db with ⟨_ | _, db1⟩
      · simp [guardedFrom, handle, query, H.bind, H.pure, bind, pure, hs, h1, hi]
      · cases h2 : ctx.rejects .commentCommenter <;> cases h3 : ctx.rejects .commentNotify <;>
          cases h8 : ctx.hasSocket <;> cases h9 : ctx.emitThrows <;>
          simp [guardedFrom, handle, query, emit, H.bind, H.pure, bind, pure,
            insertNotification, hs, h1, hi, h2, h3, h8, h9]
    · simp [guardedFrom, handle, query, H.bind, H.pure, bind, pure, hs, h1]

theorem createPost_guarded (ctx : Ctx) (classify : String → Option String) (db : DB)
    (b : PostBody) :
    guardedFrom .postInsert .postNotify false false (createPost ctx classify db b).effects
      = true := by
  unfold createPost
  by_cases hs : b.title = "" ∨ b.content = "" ∨ b.student_id = 0
  · simp [hs, guardedFrom]
  · cases hm : (checkDiscussionContent classify b.content).allowed
    · simp [guardedFrom, handle, H.bind, H.pure, bind, pure, hs, hm]
    · cases h1 : ctx.rejects .postInsert
      · rcases hi : insertDiscussion ctx.now b.title b.content (categoryOrGeneral b.category)
            b.student_id (moduleOrNull b.module_id) db with ⟨_ | post, db1⟩
        · simp [guardedFrom, handle, query, H.bind, H.pure, bind, pure, hs, hm, h1, hi]
        · cases h2 : ctx.rejects .postAuthor
          · cases h3 : ctx.rejects .postNotify <;> cases h4 : ctx.rejects .postModule <;>
              cases h8 : ctx.hasSocket <;> cases h9 : ctx.emitThrows <;>
              rcases hmod : post.module_id with _ | m <;>
              (try by_cases hm0 : m = 0) <;>
              simp [guardedFrom, handle, query, emit, H.bind, H.pure, bind, pure,
                insertNotification, hs, hm, h1, hi, h2, h3, h4, h8, h9, hmod] <;>
              simp [hm0, guardedFrom, H.pure, H.bind, query, emit, h3, h4, h8, h9,
                insertNotification]
          · simp [guardedFrom, handle, query, H.bind, H.pure, bind, pure, hs, hm, h1, hi, h2]
      · simp [guardedFrom, handle, query, H.bind, H.pure, bind, pure, hs, hm, h1]

/-- Claim C8. In the create-post, add-comment and like handlers, whatever the store
rejects and whether or not emitting throws, every `new_notification` emit in the sequence
of effects of a request is preceded, in that request, by the executed insert of the
triggering row and by the executed insert of the notification row; and a request in which
one of the two inserts has not executed emits no `new_notification` event. -/
theorem notify_after_persist (ctx : Ctx) (classify : String → Option String) (db : DB)
    (b : PostBody) (id : Int) (content : String) (student_id : Int) :
    EmitAfter .postInsert .postNotify (createPost ctx classify db b).effects ∧
    EmitAfter .commentInsert .commentNotify (addComment ctx db id content student_id).effects ∧
    EmitAfter .likeInsert .likeNotify (likePost ctx db id student_id).effects :=
  ⟨emitAfter_of_guarded _ _ _ (createPost_guarded ctx classify db b),
    emitAfter_of_guarded _ _ _ (addComment_guarded ctx db id content student_id),
    emitAfter_of_guarded _ _ _ (likePost_guarded ctx db id student_id)⟩

/-! ## Delivery of messages to the sockets of a conversation -/

theorem conversationRoom_injective (c c' : String) (h : conversationRoom c = conversationRoom c') :
    c = c' := by
  unfold conversationRoom at h
  have h' := congrArg String.data h
  simp only [String.data_append] at h'
  exact String.ext (List.append_cancel_left h')

theorem mem_members (sk : Sockets) (room : String) (s : Nat) :
    s ∈ sk.members room ↔ (s, room) ∈ sk.joined := by
  unfold Sockets.members
  simp only [List.mem_map, List.mem_filter, beq_iff_eq]
  constructor
  · rintro ⟨⟨s', r⟩, ⟨hm, hr⟩, hs⟩
    simp only at hr hs
    rw [← hr, ← hs]
    exact hm
  · intro h
    exact ⟨(s, room), ⟨h, rfl⟩, rfl⟩

/-- The memberships after one action. -/
theorem mem_joined_step (srv : Server) (a : Action) (s : Nat) (c : String) :
    (s, conversationRoom c) ∈ (srv.step a).sockets.joined ↔
      (a = .joinConversation s c) ∨
        ((s, conversationRoom c) ∈ srv.sockets.joined ∧ a ≠ .disconnect s) := by
  cases a with
  | connect s' => simp [Server.step, Sockets.connect]
  | joinConversation s' c' =>
    simp only [Server.step, Sockets.joinConversation]
    by_cases hin : (s', conversationRoom c') ∈ srv.sockets.joined
    · rw [if_pos hin]
      constructor
      · intro h; exact Or.inr ⟨h, by simp⟩
      · rintro (h | h)
        · simp only [Action.joinConversation.injEq] at h
          rw [← h.1, ← h.2]; exact hin
        · exact h.1
    · rw [if_neg hin]
      simp only [List.mem_append, List.mem_singleton, Prod.mk.injEq]
      constructor
      · rintro (h | ⟨hs, hc⟩)
        · exact Or.inr ⟨h, by simp⟩
        · exact Or.inl (by rw [hs, conversationRoom_injective _ _ hc])
      · rintro (h | h)
        · simp only [Action.joinConversation.injEq] at h
          exact Or.inr ⟨h.1.symm, by rw [h.2]⟩
        · exact Or.inl h.1
  | disconnect s' =>
    simp only [Server.step, Sockets.disconnect, List.mem_filter, bne_iff_ne, ne_eq,
      Action.disconnect.injEq, false_or, reduceCtorEq]
    constructor
    · rintro ⟨h, hne⟩; exact ⟨h, fun he => hne he.symm⟩
    · rintro ⟨h, hne⟩; exact ⟨h, fun he => hne he.symm⟩
  | start ctx a b => simp [Server.step]
  | message ctx a c' t => simp [Server.step]

theorem mem_joined_run (history : List Action) :
    ∀ (srv : Server) (s : Nat) (c : String),
      (s, conversationRoom c) ∈ (srv.run history).sockets.joined ↔
        joinedIn history s c ∨
          ((s, conversationRoom c) ∈ srv.sockets.joined ∧ Action.disconnect s ∉ history) := by
  induction history with
  | nil =>
    intro srv s c
    simp [Server.run, joinedIn]
  | cons a rest ih =>
    intro srv s c
    have hrun : srv.run (a :: rest) = (srv.step a).run rest := rfl
    rw [hrun, ih, mem_joined_step]
    constructor
    · rintro (⟨pre, post, he, hd⟩ | ⟨ha | ⟨hm, hne⟩, hnd⟩)
      · exact Or.inl ⟨a :: pre, post, by rw [he]; rfl, hd⟩
      · refine Or.inl ⟨[], rest, by rw [ha]; rfl, ?_⟩
        intro s' hs' he
        exact hnd (he ▸ hs')
      · refine Or.inr ⟨hm, ?_⟩
        intro hmem
        rcases List.mem_cons.mp hmem with h | h
        · exact hne h.symm
        · exact hnd h
    · rintro (⟨pre, post, he, hd⟩ | ⟨hm, hnd⟩)
      · cases pre with
        | nil =>
          simp only [List.nil_append, List.cons.injEq] at he
          refine Or.inr ⟨Or.inl he.1, ?_⟩
          rw [he.2]
          intro hmem
          exact hd s hmem rfl
        | cons x pre' =>
          simp only [List.cons_append, List.cons.injEq] at he
          exact Or.inl ⟨pre', post, he.2, hd⟩
      · refine Or.inr ⟨Or.inr ⟨hm, ?_⟩, ?_⟩
        · intro he
          exact hnd (he ▸ List.mem_cons_self _ _)
        · intro hmem
          exact hnd (List.mem_cons_of_mem _ hmem)

/-- A successful `POST /:conversationId/message` has inserted the message and emitted it
to the room of the conversation, once. -/
theorem sendMessage_ok (ctx : Ctx) (db : DB) (senderId : Int) (conversationId content : String)
    (hsock : ctx.ioInstance = true)
    (hok : (sendMessage ctx db senderId conversationId content).response.status = 200) :
    ∃ m : Message,
      (insertMessage ctx.now conversationId senderId content db).1 = some m ∧
      (sendMessage ctx db senderId conversationId content).effects =
        [.query .messageInsert true,
         .emit (some (conversationRoom conversationId)) "receive_message" (messageJson m)] := by
  unfold sendMessage at hok ⊢
  by_cases hc : content = "" ∨ trim content = ""
  · simp [hc, Response.fail] at hok
  · cases h1 : ctx.rejects .messageInsert
    · rcases hi : insertMessage ctx.now conversationId senderId content db with ⟨_ | m, db1⟩
      · simp [handle, query, H.bind, H.pure, bind, pure, hc, h1, hi, Response.fail] at hok
      · cases h9 : ctx.emitThrows
        · refine ⟨m, rfl, ?_⟩
          simp [handle, query, emit, H.bind, H.pure, bind, pure, hc, h1, hi, hsock, h9]
        · simp [handle, query, emit, H.bind, H.pure, bind, pure, hc, h1, hi, hsock, h9,
            Response.fail] at hok
    · simp [handle, query, H.bind, H.pure, bind, pure, hc, h1, Response.fail] at hok

/-- Delivery by the text of the id. With the rooms modelled by the (socket, room)
memberships that `join_conversation` creates and a disconnection removes, on a server that
starts with no membership and has called `setSocket`: a successful
`POST /:conversationId/message` whose route parameter is the text `c` emits
`receive_message` exactly once, to the room named after `c`, and a socket receives it if
and only if it sent `join_conversation` with the same text `c` and has not disconnected
since; `POST /start` changes no membership. The text `c` is compared as written: two texts
that denote the same conversation (`1` and `01`) name two rooms. -/
theorem receivers_joined_same_text (srv : Server) (history : List Action) (ctx : Ctx)
    (senderId : Int) (c content : String)
    (h0 : srv.sockets.joined = []) (hsock : ctx.ioInstance = true)
    (hok : (sendMessage ctx (srv.run history).db senderId c content).response.status = 200) :
    (∃ m : Message,
      (sendMessage ctx (srv.run history).db senderId c content).effects =
        [.query .messageInsert true,
         .emit (some (conversationRoom c)) "receive_message" (messageJson m)] ∧
      ∀ s, s ∈ (srv.run history).sockets.receivers
          (.emit (some (conversationRoom c)) "receive_message" (messageJson m)) ↔
        joinedIn history s c) ∧
    (∀ s, (∀ pre post, history ≠ pre ++ Action.joinConversation s c :: post) →
      ∀ e ∈ (sendMessage ctx (srv.run history).db senderId c content).effects,
        s ∉ (srv.run history).sockets.receivers e) ∧
    (∀ (x : Server) (ctx' : Ctx) (a b : Int),
      (x.step (.start ctx' a b)).sockets = x.sockets) := by
  obtain ⟨m, -, he⟩ := sendMessage_ok ctx _ senderId c content hsock hok
  have hrecv : ∀ s, s ∈ (srv.run history).sockets.receivers
      (.emit (some (conversationRoom c)) "receive_message" (messageJson m)) ↔
      joinedIn history s c := by
    intro s
    show s ∈ (srv.run history).sockets.members (conversationRoom c) ↔ _
    rw [mem_members, mem_joined_run, h0]
    simp
  refine ⟨⟨m, he, hrecv⟩, ?_, fun _ _ _ _ => rfl⟩
  intro s hnever e hmem
  rw [he] at hmem
  simp only [List.mem_cons, List.mem_singleton, List.not_mem_nil, or_false] at hmem
  rcases hmem with rfl | rfl
  · simp [Sockets.receivers]
  · rw [hrecv]
    rintro ⟨pre, post, hh, -⟩
    exact hnever pre post hh

/-- Claim C9, at a failing input. The claim says that a successful
`POST /:conversationId/message` on a conversation is received by exactly the sockets that
joined that conversation. In the sample history conversation 1 exists and socket 10 has
sent `join_conversation` for it, so socket 10 is the one member of the room
`conversation_1`. Student 1 posts `hello` to the route `/01/message`: the store casts the
text `01` to the integer 1, the message row is stored in conversation 1 and the response is
200, but the event is emitted to the room `conversation_01`, built from the raw route text,
and no socket receives it. The same request on the route `/1/message` reaches socket 10. -/
theorem padded_route_reaches_no_socket :
    (sampleServer.run sampleHistory).sockets.members (conversationRoom "1") = [10] ∧
    (sendMessage sampleCtx (sampleServer.run sampleHistory).db 1 "01" "hello").response.status
      = 200 ∧
    (sendMessage sampleCtx (sampleServer.run sampleHistory).db 1 "01" "hello").db.messages.map
      (fun m => (m.id, m.conversation_id, m.sender_id, m.content)) = [(1, 1, 1, "hello")] ∧
    (sendMessage sampleCtx (sampleServer.run sampleHistory).db 1 "01" "hello").effects =
      [.query .messageInsert true,
       .emit (some "conversation_01") "receive_message"
         (messageJson { id := 1, conversation_id := 1, sender_id := 1, content := "hello",
                        created_at := 100 })] ∧
    (sendMessage sampleCtx (sampleServer.run sampleHistory).db 1 "01" "hello").effects.map
      (sampleServer.run sampleHistory).sockets.receivers = [[], []] ∧
    (sendMessage sampleCtx (sampleServer.run sampleHistory).db 1 "1" "hello").effects.map
      (sampleServer.run sampleHistory).sockets.receivers = [[], [10]] :=
  ⟨by decide, by decide, by decide, rfl, by decide, by decide⟩

/-! ## The payload of `new_notification` -/

/-- Claim C10, at a failing input. The claim says that every `new_notification` payload
carries `id`, `type`, `message`, `created_at` and `read = false`, with `id`, `message` and
`created_at` those of the notification row the request persisted. The like handler does so
(first part: student 2 likes post 1 of the sample tables). The upload handler does not
(second part: student 1 uploads a link): its payload has no `id` field, carries `ref_id`
instead, and its `created_at` is the server clock (105), not the `created_at` of the
persisted row (100). -/
theorem upload_payload_lacks_id :
    ((likePost sampleCtx sampleDB 1 2).effects.getLast? =
        some (.emit none "new_notification"
          (.obj [("id", .num 1), ("type", .str "like"),
            ("message", .str "👍 Bob Ray liked your post"), ("created_at", .num 100),
            ("read", .bool false)])) ∧
      (likePost sampleCtx sampleDB 1 2).db.notifications =
        [{ id := 1, type := "like", ref_id := some 1, message := "👍 Bob Ray liked your post",
           created_at := 100, is_read := false }]) ∧
    ((uploadMaterial sampleCtx sampleDB sampleUpload).effects =
        [.query .uploadInsert true, .query .uploadMark true, .query .uploadNotify true,
         .emit none "new_notification"
          (.obj [("type", .str "material"), ("ref_id", .num 1),
            ("message", .str "ðŸ“˜ New study material uploaded: Notes"),
            ("created_at", .num 105), ("read", .bool false)])] ∧
      (uploadMaterial sampleCtx sampleDB sampleUpload).db.notifications =
        [{ id := 1, type := "material", ref_id := some 1,
           message := "ðŸ“˜ New study material uploaded: Notes", created_at := 100,
           is_read := false }] ∧
      JVal.field? "id"
        (.obj [("type", .str "material"), ("ref_id", .num 1),
          ("message", .str "ðŸ“˜ New study material uploaded: Notes"),
          ("created_at", .num 105), ("read", .bool false)]) = none) :=
  ⟨⟨rfl, by decide⟩, rfl, by decide, rfl⟩

/-! ## Pagination: page number, page size, offset -/

/-- Claim C13, counterexample. The `page` of 401 digits that writes 10^400 is read by
`parseInt` as `Infinity`: the page number is `Infinity`, which is no integer, and so is the
offset. -/
theorem huge_page_not_integer :
    hugePageParams.page = some (.str (String.mk ('1' :: List.replicate 400 '0'))) ∧
    pageNum hugePageParams = .inf ∧ (∀ n : Int, pageNum hugePageParams ≠ .int n) ∧
    offset hugePageParams = .inf ∧ (∀ o : Int, offset hugePageParams ≠ .int o) := by
  refine ⟨rfl, pageNum_hugePage, ?_, offset_hugePage, ?_⟩
  · intro n h
    rw [pageNum_hugePage] at h
    cases h
  · intro o h
    rw [offset_hugePage] at h
    cases h

/-- Claim C13, amended. For every value of the `page` and `limit` parameters of `GET /posts`
(absent, not a number, zero, negative, with a fraction, or as large as one likes) the page
size is an integer from 1 to 100; the page number is an integer not below 1, or `Infinity`;
and the offset is `(pageNum - 1) * limitNum` in JavaScript arithmetic: a non-negative
integer or `Infinity`, `Infinity` when the page number is, and the exact product
`(pageNum - 1) * limitNum` whenever that product is at most `Number.MAX_SAFE_INTEGER`. -/
theorem page_limit_offset (p : PostsParams) :
    ∃ k : Int, limitNum p = .int k ∧ 1 ≤ k ∧ k ≤ 100 ∧
      offset p = JsNum.mul (JsNum.sub (pageNum p) (.int 1)) (.int k) ∧
      ((pageNum p = .inf ∧ offset p = .inf) ∨
        (∃ n : Int, pageNum p = .int n ∧ 1 ≤ n ∧
          (offset p = .inf ∨ ∃ o : Int, offset p = .int o ∧ 0 ≤ o) ∧
          ((n - 1) * k ≤ maxSafeInteger → offset p = .int ((n - 1) * k)))) := by
  obtain ⟨k, hk, hk1, hk2⟩ := limitNum_int p
  refine ⟨k, hk, hk1, hk2, by unfold offset; rw [hk], ?_⟩
  have hk0 : k ≠ 0 := by omega
  have hkpos : (0 < k) = True := by simp; omega
  rcases pageNum_cases p with hp | ⟨n, hn, hn1⟩
  · left
    refine ⟨hp, ?_⟩
    unfold offset
    rw [hp, hk]
    simp [JsNum.sub, JsNum.mul, JsNum.scaleInf, hk0, hkpos]
  · right
    have hnn0 : 0 ≤ (n - 1) * k := Int.mul_nonneg (by omega) (by omega)
    refine ⟨n, hn, hn1, ?_, ?_⟩
    · unfold offset
      rw [hn, hk]
      simp only [JsNum.sub]
      unfold JsNum.ofInt
      split
      · left
        simp [JsNum.mul, JsNum.scaleInf, hk0, hkpos]
      · split
        · exfalso
          have : (0 : Int) ≤ (doubleOverflow : Int) := Int.ofNat_nonneg _
          have hd : (0 : Int) < (doubleOverflow : Int) := by
            have : 0 < doubleOverflow := by decide
            exact_mod_cast this
          omega
        · simp only [JsNum.mul]
          unfold JsNum.ofInt
          split
          · left; rfl
          · split
            · exfalso
              have hd : (0 : Int) < (doubleOverflow : Int) := by
                have : 0 < doubleOverflow := by decide
                exact_mod_cast this
              omega
            · right; exact ⟨_, rfl, hnn0⟩
    · intro hsafe
      have hnn : 0 ≤ (n - 1) * k := Int.mul_nonneg (by omega) (by omega)
      have hms : maxSafeInteger < (doubleOverflow : Int) := by decide
      have hn1k : n - 1 ≤ (n - 1) * k := by
        have := Int.mul_le_mul_of_nonneg_left hk1 (show 0 ≤ n - 1 by omega)
        simpa using this
      unfold offset
      rw [hn, hk]
      simp only [JsNum.sub]
      have e1 : JsNum.ofInt (n - 1) = .int (n - 1) := by
        unfold JsNum.ofInt
        rw [if_neg (by omega), if_neg (by omega)]
      rw [e1]
      simp only [JsNum.mul]
      unfold JsNum.ofInt
      rw [if_neg (by omega), if_neg (by omega)]

theorem digitsValue_append_digit (ds : List Char) (c : Char) :
    digitsValue (ds ++ [c]) = 10 * digitsValue ds + (c.toNat - 48) := by
  unfold digitsValue
  rw [List.foldl_append]
  rfl

/-- Every natural number is the value of a string of decimal digits. -/
theorem exists_digits (n : Nat) :
    ∃ ds : List Char, ds ≠ [] ∧ (∀ c ∈ ds, c.isDigit = true) ∧ digitsValue ds = n := by
  induction n using Nat.strong_induction_on with
  | _ n ih =>
    have hdig : ∀ r, r < 10 → (Char.ofNat (48 + r)).isDigit = true ∧
        (Char.ofNat (48 + r)).toNat - 48 = r := by
      intro r hr
      interval_cases r <;> exact ⟨by decide, by decide⟩
    by_cases h : n < 10
    · refine ⟨[Char.ofNat (48 + n)], List.cons_ne_nil _ _, ?_, ?_⟩
      · intro c hc
        rw [List.mem_singleton.mp hc]
        exact (hdig n h).1
      · have := digitsValue_append_digit [] (Char.ofNat (48 + n))
        simp only [List.nil_append] at this
        rw [this, (hdig n h).2]
        have h0 : digitsValue [] = 0 := rfl
        rw [h0]
        omega
    · obtain ⟨ds, hne, hd, hv⟩ := ih (n / 10) (by omega)
      have hr : n % 10 < 10 := Nat.mod_lt _ (by decide)
      refine ⟨ds ++ [Char.ofNat (48 + n % 10)], by simp, ?_, ?_⟩
      · intro c hc
        rcases List.mem_append.mp hc with hc | hc
        · exact hd c hc
        · rw [List.mem_singleton.mp hc]
          exact (hdig _ hr).1
      · rw [digitsValue_append_digit, hv, (hdig _ hr).2]
        omega

/-- Every integer is the value of a decimal numeral. -/
theorem exists_decimal (v : Int) :
    ∃ (neg : Bool) (ds : List Char), ds ≠ [] ∧ (∀ c ∈ ds, c.isDigit = true) ∧
      decimalValue neg ds = v := by
  obtain ⟨ds, hne, hd, hv⟩ := exists_digits v.natAbs
  by_cases h : 0 ≤ v
  · refine ⟨false, ds, hne, hd, ?_⟩
    simp only [decimalValue, Bool.false_eq_true, if_false, hv]
    omega
  · refine ⟨true, ds, hne, hd, ?_⟩
    simp only [decimalValue, if_true, hv]
    omega

/-- Claim C14, counterexample. With `limit=0` the page size is 10, the default, and not 1,
the value of 0 clamped to the range from 1 to 100. -/
theorem zero_limit_not_clamped :
    zeroLimitParams.limit = some (.str (decimal false ['0'])) ∧
    decimalValue false ['0'] = 0 ∧
    limitNum zeroLimitParams = .int 10 ∧
    limitNum zeroLimitParams ≠ .int (min (max 0 1) 100) := by
  refine ⟨rfl, rfl, by decide, by decide⟩

/-- Claim C14, amended. For every decimal numeral (an optional minus sign and one or more
digits) given as `limit`, the page size is the denoted integer clamped to the range from 1
to 100, except for the numerals of zero, for which it is 10; and for every decimal numeral
given as `page` whose value is at most `Number.MAX_SAFE_INTEGER` in magnitude, the page
number is the greater of that value and 1. -/
theorem limit_page_clamped (p : PostsParams) (neg : Bool) (ds : List Char) (hne : ds ≠ [])
    (hd : ∀ c ∈ ds, c.isDigit = true) :
    (p.limit = some (.str (decimal neg ds)) →
      limitNum p = .int (if decimalValue neg ds = 0 then 10
        else min (max (decimalValue neg ds) 1) 100)) ∧
    (p.page = some (.str (decimal neg ds)) → |decimalValue neg ds| ≤ maxSafeInteger →
      pageNum p = .int (max (decimalValue neg ds) 1)) := by
  have hparse := parseInt10_decimal neg ds hne hd
  have hd0 : (0 : Int) < (doubleOverflow : Int) := by
    have : 0 < doubleOverflow := by decide
    exact_mod_cast this
  have hbig : (100 : Int) < (doubleOverflow : Int) := by decide
  constructor
  · intro hl
    have h : limitNum p = JsNum.max (JsNum.min (orDefault (parseInt10 (decimal neg ds))
        (.int 10)) (.int 100)) (.int 1) := by
      unfold limitNum
      rw [hl]
      rfl
    rw [h, hparse]
    generalize decimalValue neg ds = v
    unfold JsNum.ofInt
    split
    · have hv : v ≠ 0 := by omega
      have e : min (max v 1) 100 = 100 := by omega
      simp [orDefault, JsNum.min, JsNum.max, hv, e]
    · split
      · have hv : v ≠ 0 := by omega
        have e : min (max v 1) 100 = 1 := by omega
        simp [orDefault, JsNum.min, JsNum.max, hv, e]
      · by_cases hv : v = 0
        · simp [orDefault, JsNum.min, JsNum.max, hv]
        · simp only [orDefault, hv, if_false, JsNum.min, JsNum.max]
          congr 1
          omega
  · intro hpg hsafe
    have h : pageNum p = JsNum.max (orDefault (parseInt10 (decimal neg ds)) (.int 1))
        (.int 1) := by
      unfold pageNum
      rw [hpg]
      rfl
    rw [h, hparse]
    generalize decimalValue neg ds = v at hsafe
    have hms : maxSafeInteger < (doubleOverflow : Int) := by decide
    have habs := abs_le.mp hsafe
    unfold JsNum.ofInt
    rw [if_neg (by omega), if_neg (by omega)]
    by_cases hv : v = 0
    · simp [orDefault, JsNum.max, hv]
    · simp [orDefault, JsNum.max, hv]

/-- Witness of C14: `limit=-250` gives the page size 1 and `page=-250` the page number 1. -/
theorem limit_page_clamped_witness :
    limitNum { zeroLimitParams with limit := some (.str "-250") } = .int 1 ∧
    pageNum { zeroLimitParams with page := some (.str "-250") } = .int 1 :=
  ⟨(limit_page_clamped { zeroLimitParams with limit := some (.str "-250") } true
      ['2', '5', '0'] (by decide) (by decide)).1 rfl,
   (limit_page_clamped { zeroLimitParams with page := some (.str "-250") } true
      ['2', '5', '0'] (by decide) (by decide)).2 rfl (by decide)⟩

/-! ## The search and category conditions -/

theorem anySuffix_iff (f : List Char → Bool) (l : List Char) :
    anySuffix f l = true ↔ ∃ t, t <:+ l ∧ f t = true := by
  induction l with
  | nil =>
    simp only [anySuffix, List.suffix_nil]
    constructor
    · intro h; exact ⟨[], rfl, h⟩
    · rintro ⟨t, rfl, h⟩; exact h
  | cons c cs ih =>
    simp only [anySuffix, Bool.or_eq_true, ih, List.suffix_cons_iff]
    constructor
    · rintro (h | ⟨t, ht, h⟩)
      · exact ⟨_, Or.inl rfl, h⟩
      · exact ⟨t, Or.inr ht, h⟩
    · rintro ⟨t, (rfl | ht), h⟩
      · exact Or.inl h
      · exact Or.inr ⟨t, ht, h⟩

/-- The test `text.includes(word)` holds exactly when the word is a run of consecutive
characters of the text. -/
theorem includes_iff (text word : String) :
    includes text word = true ↔ word.toList <:+: text.toList := by
  unfold includes
  rw [anySuffix_iff, List.infix_iff_prefix_suffix]
  constructor
  · rintro ⟨t, ht, h⟩
    exact ⟨t, List.isPrefixOf_iff_prefix.mp h, ht⟩
  · rintro ⟨t, hp, ht⟩
    exact ⟨t, ht, List.isPrefixOf_iff_prefix.mpr hp⟩

theorem likeMatch_percent (p t : List Char) :
    likeMatch ('%' :: p) t = anySuffix (likeMatch p) t := by
  rw [likeMatch]

theorem likeMatch_plain (c : Char) (p t : List Char) (hc : isLikeSpecial c = false) :
    likeMatch (c :: p) t = match t with
      | [] => false
      | c' :: t' => c == c' && likeMatch p t' := by
  simp only [isLikeSpecial, Bool.or_eq_false_iff, beq_eq_false_iff_ne] at hc
  obtain ⟨⟨h1, h2⟩, h3⟩ := hc
  cases t with
  | nil => exact likeMatch.eq_7 c p h1 h2 (fun _ _ h _ => h3 h)
  | cons c' t' => exact likeMatch.eq_8 c p c' t' h1 h2 (fun _ _ h _ => h3 h)

theorem anySuffix_isEmpty (t : List Char) : anySuffix (likeMatch []) t = true := by
  rw [anySuffix_iff]
  exact ⟨[], List.nil_suffix, rfl⟩

/-- A pattern that starts with ordinary characters matches the texts that start with them
and go on with a match of the rest. -/
theorem likeMatch_literal (q r t : List Char) (hq : ∀ c ∈ q, isLikeSpecial c = false) :
    likeMatch (q ++ r) t = true ↔ ∃ t', t = q ++ t' ∧ likeMatch r t' = true := by
  induction q generalizing t with
  | nil => simp
  | cons c q ih =>
    rw [List.cons_append, likeMatch_plain c _ _ (hq c (List.mem_cons_self _ _))]
    cases t with
    | nil => simp
    | cons c' t' =>
      simp only [Bool.and_eq_true, beq_iff_eq, ih t' (fun x hx => hq x (List.mem_cons_of_mem _ hx)),
        List.cons_append, List.cons.injEq]
      constructor
      · rintro ⟨rfl, u, rfl, h⟩
        exact ⟨u, ⟨rfl, rfl⟩, h⟩
      · rintro ⟨u, ⟨rfl, rfl⟩, h⟩
        exact ⟨rfl, u, rfl, h⟩

/-- The pattern `%q%` with `q` made of ordinary characters matches the texts that contain
`q`. -/
theorem likeMatch_contains (q t : List Char) (hq : ∀ c ∈ q, isLikeSpecial c = false) :
    likeMatch ('%' :: (q ++ ['%'])) t = true ↔ q <:+: t := by
  rw [likeMatch_percent, anySuffix_iff, List.infix_iff_prefix_suffix]
  constructor
  · rintro ⟨u, hu, h⟩
    obtain ⟨t', rfl, -⟩ := (likeMatch_literal q ['%'] u hq).mp h
    exact ⟨_, List.prefix_append _ _, hu⟩
  · rintro ⟨u, ⟨t', rfl⟩, hu⟩
    refine ⟨_, hu, (likeMatch_literal q ['%'] _ hq).mpr ⟨t', rfl, ?_⟩⟩
    rw [likeMatch_percent]
    exact anySuffix_isEmpty t'

theorem toLower_not_special (c : Char) (hc : isLikeSpecial c = false) :
    isLikeSpecial c.toLower = false := by
  have h : c.toLower = if c.toNat ≥ 65 ∧ c.toNat ≤ 90 then Char.ofNat (c.toNat + 32) else c := rfl
  rw [h]
  split
  · rename_i hr
    obtain ⟨h1, h2⟩ := hr
    generalize c.toNat = n at h1 h2
    interval_cases n <;> decide
  · exact hc

theorem map_toLower_not_special (q : List Char) (hq : ∀ c ∈ q, isLikeSpecial c = false) :
    ∀ c ∈ q.map Char.toLower, isLikeSpecial c = false := by
  intro c hc
  obtain ⟨x, hx, rfl⟩ := List.mem_map.mp hc
  exact toLower_not_special x (hq x hx)

/-- The test `text ILIKE '%s%'` for a text `s` of ordinary characters: `s` occurs in the
text, both folded to lower case. -/
theorem ilike_contains (text s : String) (hs : ∀ c ∈ s.toList, isLikeSpecial c = false) :
    ilike text ("%" ++ s ++ "%") = true ↔
      s.toList.map Char.toLower <:+: text.toList.map Char.toLower := by
  unfold ilike
  have hp : ("%" ++ s ++ "%").toList.map Char.toLower =
      '%' :: (s.toList.map Char.toLower ++ ['%']) := by
    simp [String.toList]
  rw [hp]
  exact likeMatch_contains _ _ (map_toLower_not_special _ hs)

theorem param_length_succ (vs : List PgVal) (x : PgVal) (rest : List PgVal) :
    param (vs ++ x :: rest) (vs.length + 1) = x := by
  have h : (vs ++ x :: rest)[vs.length]? = some x := by
    rw [List.getElem?_append_right (le_refl _)]
    simp
  simp [param, List.getD_eq_getElem?_getD, h]

theorem visibility_not_filter (allowed : List (Option Int)) (p : PostsParams) :
    (visibilityCondition allowed p).1.isSearch = false ∧
      (visibilityCondition allowed p).1.isCategory = false := by
  unfold visibilityCondition
  by_cases h1 : allowed.length > 0 <;> by_cases h2 : includeGeneral p = true <;>
    simp [h1, h2, Cond.isSearch, Cond.isCategory]

theorem truthy?_str (s : String) (hs : s ≠ "") : truthy? (some (.str s)) = true := by
  simp [truthy?, QVal.truthy, hs]

/-- Claim C17, counterexample. The search text `_` occurs neither in the title `Exam tips`
nor in the content `Past papers` of the first sample post, and the post passes the search
condition: in the pattern `%_%` the underscore stands for any one character. -/
theorem underscore_search_matches :
    underscoreParams.search = some (.str "_") ∧
    (buildFeedQuery sampleCtx [] underscoreParams).conditions.filter Cond.isSearch =
      [.searchLike 1] ∧
    (Cond.searchLike 1).eval (buildFeedQuery sampleCtx [] underscoreParams).values samplePost =
      some true ∧
    ¬ ("_".toList.map Char.toLower <:+: samplePost.title.toList.map Char.toLower) ∧
    ¬ ("_".toList.map Char.toLower <:+: samplePost.content.toList.map Char.toLower) := by
  refine ⟨rfl, by decide, by decide, by decide, by decide⟩

theorem searchLike_eval (vs rest : List PgVal) (s : String) (d : Discussion)
    (hplain : ∀ c ∈ s.toList, isLikeSpecial c = false) :
    (Cond.searchLike (vs.length + 1)).eval (vs ++ PgVal.text ("%" ++ s ++ "%") :: rest) d =
        some true ↔
      (s.toList.map Char.toLower <:+: d.title.toList.map Char.toLower ∨
        s.toList.map Char.toLower <:+: d.content.toList.map Char.toLower) := by
  have h : (Cond.searchLike (vs.length + 1)).eval
      (vs ++ PgVal.text ("%" ++ s ++ "%") :: rest) d =
      triOr (some (ilike d.title ("%" ++ s ++ "%"))) (some (ilike d.content ("%" ++ s ++ "%"))) := by
    simp only [Cond.eval, param_length_succ]
    rfl
  rw [h, triOr_true_iff]
  simp only [Option.some.injEq, ilike_contains _ s hplain]

theorem categoryEq_eval (vs rest : List PgVal) (c : String) (d : Discussion) :
    (Cond.categoryEq (vs.length + 1)).eval (vs ++ PgVal.text c :: rest) d = some true ↔
      d.category = c := by
  have h : (Cond.categoryEq (vs.length + 1)).eval (vs ++ PgVal.text c :: rest) d =
      some (decide (d.category = c)) := by
    simp only [Cond.eval, param_length_succ]
    rfl
  rw [h]
  simp

/-- Claim C17, amended. For every non-empty search string `s` in which none of the
characters `%`, `_` and backslash occurs, and every post, the `WHERE` clause of `GET /posts`
has one search condition, and the post passes it if and only if `s` occurs, letters A to Z
compared without regard to case, as a run of consecutive characters of the title or of the
content of the post; and for every non-empty category string the clause has one category
condition, which a post passes if and only if its category is that string. -/
theorem search_category_conditions (ctx : Ctx) (allowed : List (Option Int))
    (p : PostsParams) (d : Discussion) :
    (∀ s, p.search = some (.str s) → s ≠ "" → (∀ c ∈ s.toList, isLikeSpecial c = false) →
      ∃ k, (buildFeedQuery ctx allowed p).conditions.filter Cond.isSearch = [.searchLike k] ∧
        ((Cond.searchLike k).eval (buildFeedQuery ctx allowed p).values d = some true ↔
          (s.toList.map Char.toLower <:+: d.title.toList.map Char.toLower ∨
            s.toList.map Char.toLower <:+: d.content.toList.map Char.toLower))) ∧
    (∀ c, p.category = some (.str c) → c ≠ "" →
      ∃ k, (buildFeedQuery ctx allowed p).conditions.filter Cond.isCategory = [.categoryEq k] ∧
        ((Cond.categoryEq k).eval (buildFeedQuery ctx allowed p).values d = some true ↔
          d.category = c)) := by
  obtain ⟨hv1, hv2⟩ := visibility_not_filter allowed p
  have e1 : ∀ k, Cond.isSearch (.searchLike k) = true := fun _ => rfl
  have e2 : ∀ k, Cond.isSearch (.categoryEq k) = false := fun _ => rfl
  have e3 : ∀ k, Cond.isCategory (.searchLike k) = false := fun _ => rfl
  have e4 : ∀ k, Cond.isCategory (.categoryEq k) = true := fun _ => rfl
  constructor
  · intro s hs hne hplain
    have ht : truthy? p.search = true := by rw [hs]; exact truthy?_str s hne
    have hget : (p.search.getD (.str "")).jsString = s := by rw [hs]; rfl
    by_cases hc : truthy? p.category = true
    · refine ⟨((visibilityCondition allowed p).2 ++
          [PgVal.text (bindText ctx (p.category.getD (.str "")))]).length + 1, ?_, ?_⟩
      · unfold buildFeedQuery
        simp [hc, ht, List.filter_cons, hv1, e1, e2]
      · have hvals : (buildFeedQuery ctx allowed p).values =
            ((visibilityCondition allowed p).2 ++
              [PgVal.text (bindText ctx (p.category.getD (.str "")))]) ++
              (PgVal.text ("%" ++ s ++ "%")) ::
                [PgVal.ofNum (limitNum p), PgVal.ofNum (offset p)] := by
          unfold buildFeedQuery
          simp [hc, ht, hget]
        rw [hvals]
        exact searchLike_eval _ _ s d hplain
    · refine ⟨(visibilityCondition allowed p).2.length + 1, ?_, ?_⟩
      · unfold buildFeedQuery
        simp [hc, ht, List.filter_cons, hv1, e1]
      · have hvals : (buildFeedQuery ctx allowed p).values =
            (visibilityCondition allowed p).2 ++
              (PgVal.text ("%" ++ s ++ "%")) ::
                [PgVal.ofNum (limitNum p), PgVal.ofNum (offset p)] := by
          unfold buildFeedQuery
          simp [hc, ht, hget]
        rw [hvals]
        exact searchLike_eval _ _ s d hplain
  · intro c hcat hne
    have hc : truthy? p.category = true := by rw [hcat]; exact truthy?_str c hne
    have hget : bindText ctx (p.category.getD (.str "")) = c := by rw [hcat]; rfl
    refine ⟨(visibilityCondition allowed p).2.length + 1, ?_, ?_⟩
    · unfold buildFeedQuery
      by_cases ht : truthy? p.search = true <;>
        simp [hc, ht, List.filter_cons, hv2, e3, e4]
    · have hvals : ∃ rest, (buildFeedQuery ctx allowed p).values =
          (visibilityCondition allowed p).2 ++ (PgVal.text c) :: rest := by
        unfold buildFeedQuery
        by_cases ht : truthy? p.search = true
        · exact ⟨_, by simp [hc, ht, hget]; rfl⟩
        · exact ⟨_, by simp [hc, ht, hget]; rfl⟩
      obtain ⟨rest, hvals⟩ := hvals
      rw [hvals]
      exact categoryEq_eval _ _ c d

/-- Witness of C17: the search text `EXAM` and the category `General`, on the first sample
post. -/
theorem search_category_conditions_witness :
    (∃ k, (buildFeedQuery sampleCtx [] examParams).conditions.filter Cond.isSearch =
        [.searchLike k] ∧
      ((Cond.searchLike k).eval (buildFeedQuery sampleCtx [] examParams).values samplePost =
          some true ↔
        ("EXAM".toList.map Char.toLower <:+: samplePost.title.toList.map Char.toLower ∨
          "EXAM".toList.map Char.toLower <:+: samplePost.content.toList.map Char.toLower))) ∧
    (∃ k, (buildFeedQuery sampleCtx [] examParams).conditions.filter Cond.isCategory =
        [.categoryEq k] ∧
      ((Cond.categoryEq k).eval (buildFeedQuery sampleCtx [] examParams).values samplePost =
          some true ↔
        samplePost.category = "General")) :=
  ⟨(search_category_conditions sampleCtx [] examParams samplePost).1 "EXAM" rfl (by decide)
      (by decide),
    (search_category_conditions sampleCtx [] examParams samplePost).2 "General" rfl
      (by decide)⟩

/-! ## The allowed module ids -/

theorem mem_grants (L : List Grant) (viewer : Int) (m : Option Int) :
    m ∈ (L.filter (fun g => g.student_id == viewer)).map Grant.module_id ↔
      ∃ g ∈ L, g.student_id = viewer ∧ g.module_id = m := by
  simp only [List.mem_map, List.mem_filter, beq_iff_eq]
  constructor
  · rintro ⟨g, ⟨hg, hv⟩, hm⟩
    exact ⟨g, hg, hv, hm⟩
  · rintro ⟨g, hg, hv, hm⟩
    exact ⟨g, ⟨hg, hv⟩, hm⟩

theorem mem_allowedModuleIds (db : DB) (viewer : Int) (m : Option Int) :
    m ∈ allowedModuleIds db viewer ↔
      (∃ g ∈ db.student_subscriptions, g.student_id = viewer ∧ g.module_id = m) ∨
        (∃ g ∈ db.student_modules, g.student_id = viewer ∧ g.module_id = m) := by
  unfold allowedModuleIds
  rw [List.mem_dedup, List.mem_append, mem_grants, mem_grants]

/-- Claim C15. For every viewer and every content of `student_subscriptions` and
`student_modules`, the list of allowed module ids of `GET /posts` has no duplicate; it
contains a module id exactly when the viewer has a subscription row or an enrollment row
for it; exchanging the two tables gives a list with the same elements, a reordering of the
first; and a module id granted by both tables occurs once. -/
theorem allowed_modules_union (db : DB) (viewer : Int) :
    (allowedModuleIds db viewer).Nodup ∧
    (∀ m, m ∈ allowedModuleIds db viewer ↔
      (∃ g ∈ db.student_subscriptions, g.student_id = viewer ∧ g.module_id = m) ∨
        (∃ g ∈ db.student_modules, g.student_id = viewer ∧ g.module_id = m)) ∧
    (∀ m, m ∈ allowedModuleIds (swapGrants db) viewer ↔ m ∈ allowedModuleIds db viewer) ∧
    (allowedModuleIds (swapGrants db) viewer).Perm (allowedModuleIds db viewer) ∧
    (∀ m, (∃ g ∈ db.student_subscriptions, g.student_id = viewer ∧ g.module_id = m) →
      (∃ g ∈ db.student_modules, g.student_id = viewer ∧ g.module_id = m) →
      (allowedModuleIds db viewer).count m = 1) := by
  have hnd : ∀ db : DB, (allowedModuleIds db viewer).Nodup := fun db => List.nodup_dedup _
  have hswap : ∀ m, m ∈ allowedModuleIds (swapGrants db) viewer ↔
      m ∈ allowedModuleIds db viewer := by
    intro m
    rw [mem_allowedModuleIds, mem_allowedModuleIds]
    exact Or.comm
  refine ⟨hnd db, mem_allowedModuleIds db viewer, hswap, ?_, ?_⟩
  · exact (List.perm_ext_iff_of_nodup (hnd _) (hnd _)).mpr hswap
  · intro m h1 _
    have hc := List.count_eq_one_of_mem (hnd db)
      ((mem_allowedModuleIds db viewer m).mpr (Or.inl h1))
    rw [← hc]
    simp only [List.count]
    congr 1
    funext x
    cases x <;> cases m <;> simp

/-! ## Content moderation -/

theorem basicFilter_false_iff (content : String) :
    basicFilter content = false ↔
      ∃ w ∈ bannedTopics, w.toList <:+: (toLowerCase content).toList := by
  unfold basicFilter
  simp only [Bool.not_eq_false_eq_eq_true, Bool.not_eq_false', List.any_eq_true, includes_iff]

/-- Claim C18. For every content whose lower-cased form contains one of the twelve banned
words, `checkDiscussionContent` resolves to `allowed: false` with the reason
`Off-topic keyword detected (not school related)`, whatever the chat completion call would
answer, and it does not make that call. -/
theorem banned_word_rejected (classify : String → Option String) (content : String)
    (h : ∃ w ∈ bannedTopics, w.toList <:+: (toLowerCase content).toList) :
    bannedTopics.length = 12 ∧
    checkDiscussionContent classify content =
      { allowed := false, reason := "Off-topic keyword detected (not school related)" } ∧
    (moderate classify content).calls = [] := by
  have hb := (basicFilter_false_iff content).mpr h
  refine ⟨rfl, ?_, ?_⟩
  · simp [checkDiscussionContent, moderate, hb]
  · simp [moderate, hb]

/-- Witness of C18: the content `pizza party`, with a chat completion that would answer
`ALLOW`. -/
theorem banned_word_rejected_witness :
    (∃ w ∈ bannedTopics, w.toList <:+: (toLowerCase "pizza party").toList) ∧
    checkDiscussionContent allowAll "pizza party" =
      { allowed := false, reason := "Off-topic keyword detected (not school related)" } ∧
    (moderate allowAll "pizza party").calls = [] :=
  ⟨⟨"pizza", by decide, by decide⟩,
    (banned_word_rejected allowAll "pizza party" ⟨"pizza", by decide, by decide⟩).2⟩

/-- Claim C19. For every content, when the chat completion call throws,
`checkDiscussionContent` still resolves: if it made the call, it resolves to `allowed` equal
to `basicFilter(content)` with the reason `AI unavailable, used fallback filter`; it makes the
call exactly when the content has no banned word, and then `allowed` is true. -/
theorem classifier_failure_falls_back (classify : String → Option String) (content : String)
    (hraise : classify content = none) :
    ((moderate classify content).calls = [content] →
      checkDiscussionContent classify content =
        { allowed := basicFilter content, reason := "AI unavailable, used fallback filter" }) ∧
    (basicFilter content = true →
      (moderate classify content).calls = [content] ∧
      checkDiscussionContent classify content =
        { allowed := true, reason := "AI unavailable, used fallback filter" }) ∧
    (basicFilter content = false → (moderate classify content).calls = []) := by
  cases hb : basicFilter content
  · refine ⟨?_, ?_, ?_⟩
    · intro hcalls
      simp [moderate, hb] at hcalls
    · intro h; cases h
    · intro _
      simp [moderate, hb]
  · refine ⟨?_, ?_, ?_⟩
    · intro _
      simp [checkDiscussionContent, moderate, hb, hraise]
    · intro _
      simp [checkDiscussionContent, moderate, hb, hraise]
    · intro h; cases h

/-- Witness of C19: the content `Exam notes`, with a chat completion call that throws. -/
theorem classifier_failure_falls_back_witness :
    unavailable "Exam notes" = none ∧ basicFilter "Exam notes" = true ∧
    (moderate unavailable "Exam notes").calls = ["Exam notes"] ∧
    checkDiscussionContent unavailable "Exam notes" =
      { allowed := true, reason := "AI unavailable, used fallback filter" } :=
  ⟨rfl, by decide,
    (classifier_failure_falls_back unavailable "Exam notes" rfl).2.1 (by decide)⟩

/-! ## The moderation gate of `POST /posts` -/

/-- Claim C20. For every `POST /posts` request with a title, a content and a `student_id`
whose moderation result has `allowed` false, the handler answers 400 with `success: false`
and the message `Post rejected by moderation`; the tables are unchanged, no statement is
issued and no event is emitted. -/
theorem rejected_post_changes_nothing (ctx : Ctx) (classify : String → Option String)
    (db : DB) (b : PostBody) (ht : b.title ≠ "") (hc : b.content ≠ "") (hs : b.student_id ≠ 0)
    (hm : (checkDiscussionContent classify b.content).allowed = false) :
    (createPost ctx classify db b).response =
      { status := 400, body := .obj [("success", .bool false),
          ("message", .str "Post rejected by moderation")] } ∧
    (createPost ctx classify db b).db = db ∧
    (createPost ctx classify db b).effects = [] := by
  have hg : ¬ (b.title = "" ∨ b.content = "" ∨ b.student_id = 0) := by
    rintro (h | h | h)
    · exact ht h
    · exact hc h
    · exact hs h
  unfold createPost
  rw [if_neg hg]
  simp [handle, hm, bind, H.bind, pure, H.pure, JVal.object, Moderation.categories]

/-- Witness of C20: the content `pizza party`, posted by student 2. -/
theorem rejected_post_changes_nothing_witness :
    (checkDiscussionContent allowAll pizzaBody.content).allowed = false ∧
    (createPost sampleCtx allowAll sampleDB pizzaBody).response =
      { status := 400, body := .obj [("success", .bool false),
          ("message", .str "Post rejected by moderation")] } ∧
    (createPost sampleCtx allowAll sampleDB pizzaBody).db = sampleDB ∧
    (createPost sampleCtx allowAll sampleDB pizzaBody).effects = [] :=
  ⟨by decide,
    rejected_post_changes_nothing sampleCtx allowAll sampleDB pizzaBody (by decide) (by decide)
      (by decide) (by decide)⟩

/-! ## A socket server whose `emit` throws -/

/-- Claim C11. When `emit` throws, the three handlers answer 500 although every statement
executed and the rows are stored: on the sample tables student 2 likes post 2, creates a
post and comments on post 1; with a socket server whose `emit` throws each response is the
failure envelope of the `catch` block, and the like, the post, the comment and their
notifications are in the tables.  The same requests succeed when `emit` does not throw and
when the request carries no socket server. -/
theorem emit_failure_fails_request :
    (∀ site, throwingCtx.rejects site = false) ∧
    (likePost throwingCtx sampleDB 2 2).response = Response.fail 500 "Error liking post" ∧
    (likePost throwingCtx sampleDB 2 2).db.discussion_likes =
      sampleDB.discussion_likes ++ [⟨2, 2, 2, 100⟩] ∧
    (likePost throwingCtx sampleDB 2 2).db.notifications.length = 1 ∧
    (createPost throwingCtx allowAll sampleDB sampleBody).response =
      Response.fail 500 "Error creating post" ∧
    (createPost throwingCtx allowAll sampleDB sampleBody).db.discussions =
      sampleDB.discussions ++ [⟨3, 2, "Revision", "Exam notes", "General", 0, 0, 100, none⟩] ∧
    (createPost throwingCtx allowAll sampleDB sampleBody).db.notifications.length = 1 ∧
    (addComment throwingCtx sampleDB 1 "Thanks" 2).response =
      Response.fail 500 "Error adding comment" ∧
    (addComment throwingCtx sampleDB 1 "Thanks" 2).db.comments =
      sampleDB.comments ++ [⟨1, 1, 2, "Thanks", 100⟩] ∧
    (addComment throwingCtx sampleDB 1 "Thanks" 2).db.notifications.length = 1 ∧
    (likePost sampleCtx sampleDB 2 2).response.status = 200 ∧
    (createPost sampleCtx allowAll sampleDB sampleBody).response.status = 200 ∧
    (addComment sampleCtx sampleDB 1 "Thanks" 2).response.status = 200 ∧
    (likePost socketlessCtx sampleDB 2 2).response.status = 200 ∧
    (createPost socketlessCtx allowAll sampleDB sampleBody).response.status = 200 ∧
    (addComment socketlessCtx sampleDB 1 "Thanks" 2).response.status = 200 := by
  refine ⟨fun _ => rfl, rfl, by decide, by decide, rfl, by decide, by decide, rfl, by decide,
    by decide, by decide, by decide, by decide, by decide, by decide, by decide⟩

/-! ## The view counter of `GET /posts/:id` -/

theorem mem_leftJoin_of_mem {α β : Type} (left : List α) (right : List β)
    (joinOn : α → β → Bool) (a : α) (ha : a ∈ left) :
    ∃ b, (a, b) ∈ leftJoin left right joinOn := by
  unfold leftJoin
  cases h : right.filter (joinOn a) with
  | nil =>
    refine ⟨none, List.mem_flatMap.mpr ⟨a, ha, ?_⟩⟩
    simp [h]
  | cons b bs =>
    refine ⟨some b, List.mem_flatMap.mpr ⟨a, ha, ?_⟩⟩
    simp [h]

theorem fst_mem_of_mem_leftJoin {α β : Type} (left : List α) (right : List β)
    (joinOn : α → β → Bool) (r : α × Option β) (hr : r ∈ leftJoin left right joinOn) :
    r.1 ∈ left := by
  unfold leftJoin at hr
  obtain ⟨a, ha, hmem⟩ := List.mem_flatMap.mp hr
  cases h : right.filter (joinOn a) with
  | nil =>
    rw [h] at hmem
    simp only [List.mem_singleton] at hmem
    subst hmem
    exact ha
  | cons b bs =>
    rw [h] at hmem
    simp only [List.mem_map] at hmem
    obtain ⟨x, -, rfl⟩ := hmem
    exact ha

/-- The joined rows of the feed carry exactly the rows of `discussions`. -/
theorem exists_feedRow_iff (db : DB) (d : Discussion) :
    (∃ r ∈ feedFrom db, r.d = d) ↔ d ∈ db.discussions := by
  unfold feedFrom
  constructor
  · rintro ⟨r, hr, rfl⟩
    obtain ⟨x, hx, rfl⟩ := List.mem_map.mp hr
    exact fst_mem_of_mem_leftJoin _ _ _ _ (fst_mem_of_mem_leftJoin _ _ _ _ hx)
  · intro hd
    obtain ⟨s, hs⟩ := mem_leftJoin_of_mem db.discussions db.student
      (fun d s => d.student_id == s.stu_id) d hd
    obtain ⟨m, hm⟩ := mem_leftJoin_of_mem _ db.modules
      (fun ds m => ds.1.module_id == some m.id) (d, s) hs
    exact ⟨_, List.mem_map.mpr ⟨_, hm, rfl⟩, rfl⟩

theorem selectRows_eq_nil_iff (db : DB) (i : Int) :
    (feedFrom db).filter (fun r => r.d.id == i) = [] ↔ ∀ d ∈ db.discussions, d.id ≠ i := by
  rw [List.filter_eq_nil_iff]
  constructor
  · intro h d hd hid
    obtain ⟨r, hr, rfl⟩ := (exists_feedRow_iff db d).mpr hd
    exact h r hr (by simpa using hid)
  · intro h r hr hid
    exact h r.d ((exists_feedRow_iff db r.d).mp ⟨r, hr, rfl⟩) (by simpa using hid)

theorem getPost_missing (ctx : Ctx) (db : DB) (id : String) (i : Int)
    (hi : pgInt? id = some i) (h1 : ctx.rejects .getSelect = false)
    (hno : ∀ d ∈ db.discussions, d.id ≠ i) :
    (getPost ctx db id).response = Response.fail 404 "Post not found" ∧
      (getPost ctx db id).db = db := by
  have hrows := (selectRows_eq_nil_iff db i).mpr hno
  simp [getPost, handle, query, bind, H.bind, pure, H.pure, selectPost, hi, h1, hrows]

theorem getPost_found (ctx : Ctx) (db : DB) (id : String) (i : Int)
    (hi : pgInt? id = some i) (h1 : ctx.rejects .getSelect = false)
    (h2 : ctx.rejects .getView = false) (hex : ∃ d ∈ db.discussions, d.id = i) :
    (getPost ctx db id).db = { db with discussions := viewed 1 i db.discussions } := by
  have hrows : (feedFrom db).filter (fun r => r.d.id == i) ≠ [] := by
    intro h
    obtain ⟨d, hd, hid⟩ := hex
    exact (selectRows_eq_nil_iff db i).mp h d hd hid
  obtain ⟨r, rs, hrs⟩ := List.exists_cons_of_ne_nil hrows
  cases h3 : ctx.rejects .getComments <;>
    simp [getPost, handle, query, bind, H.bind, pure, H.pure, selectPost, incrementViews,
      selectComments, hi, h1, h2, h3, hrs, viewed]

theorem viewed_viewed (n m i : Int) (ds : List Discussion) :
    viewed n i (viewed m i ds) = viewed (m + n) i ds := by
  unfold viewed
  rw [List.map_map]
  apply List.map_congr_left
  intro d _
  by_cases h : d.id = i
  · simp [h, add_assoc]
  · simp [h]

theorem exists_viewed (n i : Int) (ds : List Discussion) (h : ∃ d ∈ ds, d.id = i) :
    ∃ d ∈ viewed n i ds, d.id = i := by
  obtain ⟨d, hd, hid⟩ := h
  refine ⟨_, List.mem_map.mpr ⟨d, hd, rfl⟩, ?_⟩
  simp [hid]

theorem fetchAll_found (ctxs : List Ctx) (db : DB) (id : String) (i : Int)
    (hi : pgInt? id = some i)
    (hctx : ∀ ctx ∈ ctxs, ctx.rejects .getSelect = false ∧ ctx.rejects .getView = false)
    (hex : ∃ d ∈ db.discussions, d.id = i) :
    fetchAll id ctxs db = { db with discussions := viewed ctxs.length i db.discussions } := by
  induction ctxs generalizing db with
  | nil =>
    have h : viewed ((([] : List Ctx).length : Nat) : Int) i db.discussions = db.discussions := by
      unfold viewed
      simp
    rw [h]
    rfl
  | cons ctx rest ih =>
    obtain ⟨h1, h2⟩ := hctx ctx (List.mem_cons_self _ _)
    have hstep : fetchAll id (ctx :: rest) db = fetchAll id rest (getPost ctx db id).db := rfl
    rw [hstep, getPost_found ctx db id i hi h1 h2 hex,
      ih _ (fun c hc => hctx c (List.mem_cons_of_mem _ hc)) (exists_viewed 1 i _ hex)]
    simp only [viewed_viewed, List.length_cons, Nat.cast_add, Nat.cast_one]
    rw [add_comm]

theorem getPost_status (ctx : Ctx) (db : DB) (id : String) (i : Int)
    (hi : pgInt? id = some i) (h1 : ctx.rejects .getSelect = false)
    (h2 : ctx.rejects .getView = false) (h3 : ctx.rejects .getComments = false)
    (hex : ∃ d ∈ db.discussions, d.id = i) :
    (getPost ctx db id).response.status = 200 := by
  have hrows : (feedFrom db).filter (fun r => r.d.id == i) ≠ [] := by
    intro h
    obtain ⟨d, hd, hid⟩ := hex
    exact (selectRows_eq_nil_iff db i).mp h d hd hid
  obtain ⟨r, rs, hrs⟩ := List.exists_cons_of_ne_nil hrows
  simp [getPost, handle, query, bind, H.bind, pure, H.pure, selectPost, incrementViews,
    selectComments, hi, h1, h2, h3, hrs, Response.json]

/-- Claim C12. For every route parameter that denotes an integer `i` and every number of
consecutive `GET /posts/:id` requests whose first two statements the store executes: when a
post has the id `i`, the requests leave the tables as they were except that the `views` of
the posts with that id are greater by the number of requests, the other posts being
unchanged, and each request whose third statement executes as well answers 200; when no
post has the id `i`, a request answers 404 and leaves the tables as they were. -/
theorem views_count_fetches (ctxs : List Ctx) (db : DB) (id : String) (i : Int)
    (hi : pgInt? id = some i)
    (hctx : ∀ ctx ∈ ctxs, ctx.rejects .getSelect = false ∧ ctx.rejects .getView = false) :
    ((∃ d ∈ db.discussions, d.id = i) →
      fetchAll id ctxs db = { db with discussions := viewed ctxs.length i db.discussions } ∧
      ∀ ctx ∈ ctxs, ctx.rejects .getComments = false →
        (getPost ctx db id).response.status = 200) ∧
    ((∀ d ∈ db.discussions, d.id ≠ i) → ∀ ctx ∈ ctxs,
      (getPost ctx db id).response = Response.fail 404 "Post not found" ∧
        (getPost ctx db id).db = db) := by
  constructor
  · intro hex
    refine ⟨fetchAll_found ctxs db id i hi hctx hex, ?_⟩
    intro ctx hc h3
    exact getPost_status ctx db id i hi (hctx ctx hc).1 (hctx ctx hc).2 h3 hex
  · intro hno ctx hc
    exact getPost_missing ctx db id i hi (hctx ctx hc).1 hno

/-- Witness of C12: two fetches of post 1 of the sample tables raise its `views` from 0 to 2
and leave post 2 as it was; a fetch of post 9, which does not exist, answers 404. -/
theorem views_count_fetches_witness :
    pgInt? "1" = some 1 ∧
    (fetchAll "1" [sampleCtx, sampleCtx] sampleDB).discussions =
      [⟨1, 1, "Exam tips", "Past papers", "General", 2, 1, 10, none⟩,
        ⟨2, 2, "Algebra", "Rings", "Maths", 0, 0, 20, some 7⟩] ∧
    (getPost sampleCtx sampleDB "9").response = Response.fail 404 "Post not found" :=
  ⟨by decide,
    by
      rw [((views_count_fetches [sampleCtx, sampleCtx] sampleDB "1" 1 (by decide)
        (by decide)).1 (by decide)).1]
      decide,
    ((views_count_fetches [sampleCtx] sampleDB "9" 9 (by decide) (by decide)).2 (by decide)
      sampleCtx (List.mem_singleton.mpr rfl)).1⟩

/-! ## The page of the feed -/

theorem sortKey_total (a b : SortKey) : SortKey.le a b = true ∨ SortKey.le b a = true := by
  cases a with
  | int x =>
    cases b with
    | int y =>
      simp only [SortKey.le, decide_eq_true_eq]
      exact le_total x y
    | text y => exact Or.inl rfl
  | text x =>
    cases b with
    | int y => exact Or.inr rfl
    | text y =>
      simp only [SortKey.le, decide_eq_true_eq]
      exact le_total x y

theorem sortKey_trans (a b c : SortKey) (h1 : SortKey.le a b = true)
    (h2 : SortKey.le b c = true) : SortKey.le a c = true := by
  cases a <;> cases b <;> cases c <;>
    simp only [SortKey.le, decide_eq_true_eq, Bool.false_eq_true] at h1 h2 ⊢
  · exact le_trans h1 h2
  · exact le_trans h1 h2

/-- The rows the store returns are in the order of the feed on the sort column. -/
theorem feedOrder_sorted (key : Discussion → SortKey) (l : List FeedRow) :
    (l.insertionSort (fun a b => SortKey.le (key b.d) (key a.d) = true)).Sorted
      (fun a b => SortKey.le (key b.d) (key a.d) = true) := by
  haveI : IsTotal FeedRow (fun a b => SortKey.le (key b.d) (key a.d) = true) :=
    ⟨fun a b => sortKey_total (key b.d) (key a.d)⟩
  haveI : IsTrans FeedRow (fun a b => SortKey.le (key b.d) (key a.d) = true) :=
    ⟨fun a b c h1 h2 => sortKey_trans _ _ _ h2 h1⟩
  exact List.sorted_insertionSort _ l

theorem offset_default (p : PostsParams) (hp : p.page = none) : offset p = .int 0 := by
  obtain ⟨k, hk, hk1, hk2⟩ := limitNum_int p
  have hpg : pageNum p = .int 1 := by
    unfold pageNum
    rw [hp]
    decide
  unfold offset
  rw [hpg, hk]
  have h : JsNum.sub (.int 1) (.int 1) = .int 0 := by decide
  rw [h]
  simp only [JsNum.mul, zero_mul]
  decide

theorem limitNum_default (p : PostsParams) (hl : p.limit = none) : limitNum p = .int 10 := by
  unfold limitNum
  rw [hl]
  decide

/-- Claim C16. For every database state and every request whose offset is an integer not
above `Number.MAX_SAFE_INTEGER`, when the store executes the two statements of the handler,
`GET /posts` answers with the posts list made of the rows from position `offset` on, at most
`limitNum` of them, of a list that holds exactly the rows that pass the conditions of the
`WHERE` clause and is in non-increasing order of the effective sort column; the list has at
most `limitNum` elements, itself at most 100, and is in non-increasing order; when `page`
is omitted the offset is 0, when `limit` is omitted `limitNum` is 10, and when `sort` is
omitted the column is `created_at`. -/
theorem feed_page_segment (ctx : Ctx) (db : DB) (viewer : Int) (p : PostsParams) (o : Int)
    (ho : offset p = .int o) (hsafe : o ≤ maxSafeInteger)
    (h1 : ctx.rejects .feedModules = false) (h2 : ctx.rejects .feedPosts = false) :
    ∃ (key : Discussion → SortKey) (k : Int) (sorted rows : List FeedRow),
      orderColumn? (sortCol p).jsString = some key ∧ limitNum p = .int k ∧
      sorted.Perm ((feedFrom db).filter (fun r =>
        passesWhere (buildFeedQuery ctx (allowedModuleIds db viewer) p).conditions
          (buildFeedQuery ctx (allowedModuleIds db viewer) p).values r.d)) ∧
      sorted.Pairwise (fun a b => SortKey.le (key b.d) (key a.d) = true) ∧
      rows = (sorted.drop o.toNat).take k.toNat ∧
      getPosts ctx db viewer p =
        Response.json (.obj [("success", .bool true), ("posts", .arr (rows.map postJson))]) ∧
      rows.Pairwise (fun a b => SortKey.le (key b.d) (key a.d) = true) ∧
      (rows.length : Int) ≤ k ∧ k ≤ 100 ∧
      (p.page = none → o = 0) ∧ (p.limit = none → k = 10) ∧
      (p.sort = none → key = fun d => SortKey.int d.created_at) := by
  have hmax : o ≤ bigintMax := le_trans hsafe (by decide)
  obtain ⟨key, k, hkey, hk, hk1, hk2, ho0, hex⟩ :=
    buildFeedQuery_exec ctx (allowedModuleIds db viewer) p db o ho hmax
  have hsorted := feedOrder_sorted key ((feedFrom db).filter (fun r =>
    passesWhere (buildFeedQuery ctx (allowedModuleIds db viewer) p).conditions
      (buildFeedQuery ctx (allowedModuleIds db viewer) p).values r.d))
  refine ⟨key, k, _, _, hkey, hk, List.perm_insertionSort _ _, hsorted, rfl, ?_, ?_, ?_, hk2,
    ?_, ?_, ?_⟩
  · unfold getPosts
    rw [h1, h2, hex]
    rfl
  · exact (hsorted.sublist ((List.take_sublist _ _).trans (List.drop_sublist _ _)))
  · have hlen := List.length_take_le k.toNat
      (List.drop o.toNat (List.insertionSort
        (fun a b => SortKey.le (key b.d) (key a.d) = true)
        ((feedFrom db).filter (fun r =>
          passesWhere (buildFeedQuery ctx (allowedModuleIds db viewer) p).conditions
            (buildFeedQuery ctx (allowedModuleIds db viewer) p).values r.d))))
    have hkn : ((k.toNat : Nat) : Int) = k := Int.toNat_of_nonneg (by omega)
    omega
  · intro hp
    have h := offset_default p hp
    rw [ho] at h
    cases h
    rfl
  · intro hl
    have h := limitNum_default p hl
    rw [hk] at h
    cases h
    rfl
  · intro hs
    have hcol : (sortCol p).jsString = "created_at" := by
      rw [sortCol_jsString, hs]
      rfl
    rw [hcol] at hkey
    have hc : orderColumn? "created_at" = some (fun d => SortKey.int d.created_at) := rfl
    rw [hc] at hkey
    cases hkey
    rfl

/-- Witness of C16: student 2, who has no grant, asks for the feed with no parameter on
tables with general posts created at 10, 30 and 20 and a post of module 7: the three
general posts come back, the one created at 30 first and the one created at 10 last. -/
theorem feed_page_segment_witness :
    offset defaultParams = .int 0 ∧
    (∃ (key : Discussion → SortKey) (k : Int) (sorted rows : List FeedRow),
      orderColumn? (sortCol defaultParams).jsString = some key ∧
      limitNum defaultParams = .int k ∧
      sorted.Perm ((feedFrom threePosts).filter (fun r =>
        passesWhere (buildFeedQuery sampleCtx (allowedModuleIds threePosts 2)
            defaultParams).conditions
          (buildFeedQuery sampleCtx (allowedModuleIds threePosts 2) defaultParams).values
          r.d)) ∧
      sorted.Pairwise (fun a b => SortKey.le (key b.d) (key a.d) = true) ∧
      rows = (sorted.drop (0 : Int).toNat).take k.toNat ∧
      getPosts sampleCtx threePosts 2 defaultParams =
        Response.json (.obj [("success", .bool true), ("posts", .arr (rows.map postJson))]) ∧
      rows.Pairwise (fun a b => SortKey.le (key b.d) (key a.d) = true) ∧
      (rows.length : Int) ≤ k ∧ k ≤ 100 ∧
      (defaultParams.page = none → (0 : Int) = 0) ∧ (defaultParams.limit = none → k = 10) ∧
      (defaultParams.sort = none → key = fun d => SortKey.int d.created_at)) ∧
    ((buildFeedQuery sampleCtx (allowedModuleIds threePosts 2) defaultParams).exec
        threePosts).map (fun rows => rows.map (fun r => r.d.created_at)) = some [30, 20, 10] :=
  ⟨by decide,
    feed_page_segment sampleCtx threePosts 2 defaultParams 0 (by decide) (by decide) rfl rfl,
    by decide⟩

/-! ## The verdict of the classifier -/

/-- Claim C30. For every content that passes the keyword filter and every reply text of the
chat completion, `checkDiscussionContent` resolves to `allowed: true` if and only if the
trimmed, lower-cased reply contains `allow` and does not contain `reject`; a reply with
neither word, or with both, is not allowed; and the reason is `Allowed by AI moderation`
when `allowed` is true and `Rejected by AI moderation` otherwise. -/
theorem verdict_parsing (classify : String → Option String) (content reply : String)
    (hf : basicFilter content = true) (hr : classify content = some reply) :
    ((checkDiscussionContent classify content).allowed = true ↔
      ("allow".toList <:+: (toLowerCase (trim reply)).toList ∧
        ¬ "reject".toList <:+: (toLowerCase (trim reply)).toList)) ∧
    ((¬ "allow".toList <:+: (toLowerCase (trim reply)).toList ∧
        ¬ "reject".toList <:+: (toLowerCase (trim reply)).toList) →
      (checkDiscussionContent classify content).allowed = false) ∧
    (("allow".toList <:+: (toLowerCase (trim reply)).toList ∧
        "reject".toList <:+: (toLowerCase (trim reply)).toList) →
      (checkDiscussionContent classify content).allowed = false) ∧
    ((checkDiscussionContent classify content).allowed = true →
      (checkDiscussionContent classify content).reason = "Allowed by AI moderation") ∧
    ((checkDiscussionContent classify content).allowed = false →
      (checkDiscussionContent classify content).reason = "Rejected by AI moderation") := by
  rw [← includes_iff, ← includes_iff]
  have h : checkDiscussionContent classify content =
      { allowed := includes (toLowerCase (trim reply)) "allow" &&
          !includes (toLowerCase (trim reply)) "reject"
        reason := if (includes (toLowerCase (trim reply)) "allow" &&
            !includes (toLowerCase (trim reply)) "reject") = true
          then "Allowed by AI moderation" else "Rejected by AI moderation" } := by
    simp only [checkDiscussionContent, moderate, hf, hr, Bool.not_true, Bool.false_eq_true,
      if_false]
    cases includes (toLowerCase (trim reply)) "allow" <;>
      cases includes (toLowerCase (trim reply)) "reject" <;> rfl
  rw [h]
  cases includes (toLowerCase (trim reply)) "allow" <;>
    cases includes (toLowerCase (trim reply)) "reject" <;> simp

/-- Witness of C30: the content `Exam notes` with the reply ` ALLOW ` is allowed. -/
theorem verdict_parsing_witness :
    basicFilter "Exam notes" = true ∧ allowSpaced "Exam notes" = some " ALLOW " ∧
    ((checkDiscussionContent allowSpaced "Exam notes").allowed = true ↔
      ("allow".toList <:+: (toLowerCase (trim " ALLOW ")).toList ∧
        ¬ "reject".toList <:+: (toLowerCase (trim " ALLOW ")).toList)) ∧
    checkDiscussionContent allowSpaced "Exam notes" =
      { allowed := true, reason := "Allowed by AI moderation" } :=
  ⟨by decide, rfl, (verdict_parsing allowSpaced "Exam notes" " ALLOW " (by decide) rfl).1,
    by decide⟩

/-! ## The body of a rejection -/

/-- Claim C21. For every `POST /posts` request with a title, a content and a `student_id`
that moderation rejects, the body of the response is `{ success: false, message }` and no
more: the handler reads `moderation.categories`, which `checkDiscussionContent` never sets,
and the property, being `undefined`, is not in the serialized body. -/
theorem rejection_body_lacks_categories (ctx : Ctx) (classify : String → Option String)
    (db : DB) (b : PostBody) (ht : b.title ≠ "") (hc : b.content ≠ "") (hs : b.student_id ≠ 0)
    (hm : (checkDiscussionContent classify b.content).allowed = false) :
    (createPost ctx classify db b).response.status = 400 ∧
    (createPost ctx classify db b).response.body =
      .obj [("success", .bool false), ("message", .str "Post rejected by moderation")] ∧
    ((createPost ctx classify db b).response.body.field? "categories").isNone = true ∧
    (checkDiscussionContent classify b.content).categories = none := by
  have hg : ¬ (b.title = "" ∨ b.content = "" ∨ b.student_id = 0) := by
    rintro (h | h | h)
    · exact ht h
    · exact hc h
    · exact hs h
  have hresp : (createPost ctx classify db b).response =
      { status := 400, body := .obj [("success", .bool false),
          ("message", .str "Post rejected by moderation")] } := by
    unfold createPost
    rw [if_neg hg]
    simp [handle, hm, bind, H.bind, pure, H.pure, JVal.object, Moderation.categories]
  rw [hresp]
  exact ⟨rfl, rfl, rfl, rfl⟩

/-- Witness of C21: the content `pizza party`, rejected by the keyword filter, and the
content `Exam notes`, rejected by the verdict `Reject`. -/
theorem rejection_body_lacks_categories_witness :
    (checkDiscussionContent allowAll pizzaBody.content).allowed = false ∧
    ((createPost sampleCtx allowAll sampleDB pizzaBody).response.body.field?
      "categories").isNone = true ∧
    (checkDiscussionContent rejectAll sampleBody.content).allowed = false ∧
    ((createPost sampleCtx rejectAll sampleDB sampleBody).response.body.field?
      "categories").isNone = true :=
  ⟨by decide,
    (rejection_body_lacks_categories sampleCtx allowAll sampleDB pizzaBody (by decide)
      (by decide) (by decide) (by decide)).2.2.1,
    by decide,
    (rejection_body_lacks_categories sampleCtx rejectAll sampleDB sampleBody (by decide)
      (by decide) (by decide) (by decide)).2.2.1⟩

/-! ## The flags of the notifications -/

theorem frozen_flagged (flag : Bool) (i : Int) (ns : List Notification) :
    (flagged flag i ns).map Notification.frozen = ns.map Notification.frozen := by
  unfold flagged
  rw [List.map_map]
  apply List.map_congr_left
  intro n _
  by_cases h : n.id = i <;> simp [h, Notification.frozen]

theorem flagged_of_absent (flag : Bool) (i : Int) (ns : List Notification)
    (h : ∀ n ∈ ns, n.id ≠ i) : flagged flag i ns = ns := by
  unfold flagged
  conv_rhs => rw [← List.map_id ns]
  apply List.map_congr_left
  intro n hn
  simp [h n hn]

/-- What a request to mark one notification does to the tables, whatever the store does. -/
theorem setRead_db (flag : Bool) (id : String) (db : DB) :
    (setRead flag id db).2 = db ∨
      ∃ i, pgInt? id = some i ∧
        (setRead flag id db).2 = { db with notifications := flagged flag i db.notifications } := by
  unfold setRead
  cases h : pgInt? id with
  | none => exact Or.inl rfl
  | some i => exact Or.inr ⟨i, rfl, rfl⟩

theorem markRead_db (ctx : Ctx) (db : DB) (id : String) :
    (markRead ctx db id).db = db ∨
      ∃ i, pgInt? id = some i ∧ ctx.rejects .notifRead = false ∧
        (markRead ctx db id).db = { db with notifications := flagged true i db.notifications } := by
  cases hr : ctx.rejects .notifRead
  · cases hi : pgInt? id with
    | none =>
      left
      simp [markRead, handle, query, bind, H.bind, pure, H.pure, setRead, hr, hi]
    | some i =>
      right
      refine ⟨i, rfl, rfl, ?_⟩
      cases hrows : db.notifications.filter (fun n => n.id == i) <;>
        simp [markRead, handle, query, bind, H.bind, pure, H.pure, setRead, hr, hi, hrows,
          flagged]
  · left
    simp [markRead, handle, query, bind, H.bind, pure, H.pure, hr]

theorem markUnread_db (ctx : Ctx) (db : DB) (id : String) :
    (markUnread ctx db id).db = db ∨
      ∃ i, pgInt? id = some i ∧ ctx.rejects .notifUnread = false ∧
        (markUnread ctx db id).db =
          { db with notifications := flagged false i db.notifications } := by
  cases hr : ctx.rejects .notifUnread
  · cases hi : pgInt? id with
    | none =>
      left
      simp [markUnread, handle, query, bind, H.bind, pure, H.pure, setRead, hr, hi]
    | some i =>
      right
      refine ⟨i, rfl, rfl, ?_⟩
      cases hrows : db.notifications.filter (fun n => n.id == i) <;>
        simp [markUnread, handle, query, bind, H.bind, pure, H.pure, setRead, hr, hi, hrows,
          flagged]
  · left
    simp [markUnread, handle, query, bind, H.bind, pure, H.pure, hr]

theorem markRead_missing (ctx : Ctx) (db : DB) (id : String) (i : Int)
    (hi : pgInt? id = some i) (hr : ctx.rejects .notifRead = false)
    (hno : ∀ n ∈ db.notifications, n.id ≠ i) :
    (markRead ctx db id).response = Response.fail 404 "Notification not found" ∧
      (markRead ctx db id).db = db := by
  have hrows : db.notifications.filter (fun n => n.id == i) = [] := by
    rw [List.filter_eq_nil_iff]
    intro n hn
    simpa using hno n hn
  have hfl := flagged_of_absent true i db.notifications hno
  unfold flagged at hfl
  simp [markRead, handle, query, bind, H.bind, pure, H.pure, setRead, hr, hi, hrows, hfl]

theorem markUnread_missing (ctx : Ctx) (db : DB) (id : String) (i : Int)
    (hi : pgInt? id = some i) (hr : ctx.rejects .notifUnread = false)
    (hno : ∀ n ∈ db.notifications, n.id ≠ i) :
    (markUnread ctx db id).response = Response.fail 404 "Notification not found" ∧
      (markUnread ctx db id).db = db := by
  have hrows : db.notifications.filter (fun n => n.id == i) = [] := by
    rw [List.filter_eq_nil_iff]
    intro n hn
    simpa using hno n hn
  have hfl := flagged_of_absent false i db.notifications hno
  unfold flagged at hfl
  simp [markUnread, handle, query, bind, H.bind, pure, H.pure, setRead, hr, hi, hrows, hfl]

theorem markRead_found (ctx : Ctx) (db : DB) (id : String) (i : Int)
    (hi : pgInt? id = some i) (hr : ctx.rejects .notifRead = false)
    (hex : ∃ n ∈ db.notifications, n.id = i) :
    (markRead ctx db id).response.status = 200 ∧
      (markRead ctx db id).db = { db with notifications := flagged true i db.notifications } := by
  have hrows : db.notifications.filter (fun n => n.id == i) ≠ [] := by
    intro h
    rw [List.filter_eq_nil_iff] at h
    obtain ⟨n, hn, hid⟩ := hex
    exact h n hn (by simpa using hid)
  obtain ⟨r, rs, hrs⟩ := List.exists_cons_of_ne_nil hrows
  simp [markRead, handle, query, bind, H.bind, pure, H.pure, setRead, hr, hi, hrs, flagged,
    Response.json]

theorem markUnread_found (ctx : Ctx) (db : DB) (id : String) (i : Int)
    (hi : pgInt? id = some i) (hr : ctx.rejects .notifUnread = false)
    (hex : ∃ n ∈ db.notifications, n.id = i) :
    (markUnread ctx db id).response.status = 200 ∧
      (markUnread ctx db id).db =
        { db with notifications := flagged false i db.notifications } := by
  have hrows : db.notifications.filter (fun n => n.id == i) ≠ [] := by
    intro h
    rw [List.filter_eq_nil_iff] at h
    obtain ⟨n, hn, hid⟩ := hex
    exact h n hn (by simpa using hid)
  obtain ⟨r, rs, hrs⟩ := List.exists_cons_of_ne_nil hrows
  simp [markUnread, handle, query, bind, H.bind, pure, H.pure, setRead, hr, hi, hrs, flagged,
    Response.json]

/-- The rows after `read-all`: every unread row is read, the read ones are as they were. -/
theorem allRead_eq (ns : List Notification) :
    ns.map (fun n => if n.is_read = false then { n with is_read := true } else n) =
      ns.map (fun n => { n with is_read := true }) := by
  apply List.map_congr_left
  intro n _
  cases h : n.is_read
  · simp
  · simp only [Bool.true_eq_false, if_false]
    cases n
    simp_all

theorem markAllRead_ok (ctx : Ctx) (db : DB) (hr : ctx.rejects .notifReadAll = false) :
    (markAllRead ctx db).response =
      Response.json (.obj [("success", .bool true),
        ("count", .num ((db.notifications.filter (fun n => n.is_read == false)).length))]) ∧
    (markAllRead ctx db).db =
      { db with notifications := db.notifications.map (fun n => { n with is_read := true }) } := by
  simp [markAllRead, handle, query, bind, H.bind, pure, H.pure, setAllRead, hr, allRead_eq]

theorem markAllRead_rejected (ctx : Ctx) (db : DB) (hr : ctx.rejects .notifReadAll = true) :
    (markAllRead ctx db).db = db := by
  simp [markAllRead, handle, query, bind, H.bind, pure, H.pure, hr]

/-- Claim C23. Each of `PUT /:id/read`, `PUT /:id/unread` and `PUT /read-all` leaves every
table but `notifications` as it was, and in `notifications` the rows and their `id`, `type`,
`ref_id`, `message` and `created_at`, whatever the store does; when the store executes the
statement and the route parameter denotes the integer `i`, the first two set the flag of the
rows with the id `i` and of no other row, and answer 404, changing nothing, when no row has
that id; when the store executes its statement, `read-all` leaves every notification read
and answers with the number of notifications that were unread. -/
theorem notification_flags_only (ctx : Ctx) (db : DB) (id : String) :
    (∀ o ∈ [markRead ctx db id, markUnread ctx db id, markAllRead ctx db],
      o.db.notifications.map Notification.frozen = db.notifications.map Notification.frozen ∧
        o.db = { db with notifications := o.db.notifications }) ∧
    (∀ i, pgInt? id = some i →
      (ctx.rejects .notifRead = false →
        (markRead ctx db id).db.notifications = flagged true i db.notifications ∧
        ((∃ n ∈ db.notifications, n.id = i) → (markRead ctx db id).response.status = 200) ∧
        ((∀ n ∈ db.notifications, n.id ≠ i) →
          (markRead ctx db id).response = Response.fail 404 "Notification not found" ∧
            (markRead ctx db id).db = db)) ∧
      (ctx.rejects .notifUnread = false →
        (markUnread ctx db id).db.notifications = flagged false i db.notifications ∧
        ((∃ n ∈ db.notifications, n.id = i) → (markUnread ctx db id).response.status = 200) ∧
        ((∀ n ∈ db.notifications, n.id ≠ i) →
          (markUnread ctx db id).response = Response.fail 404 "Notification not found" ∧
            (markUnread ctx db id).db = db))) ∧
    (ctx.rejects .notifReadAll = false →
      (∀ n ∈ (markAllRead ctx db).db.notifications, n.is_read = true) ∧
      (markAllRead ctx db).response =
        Response.json (.obj [("success", .bool true),
          ("count", .num ((db.notifications.filter (fun n => n.is_read == false)).length))])) := by
  refine ⟨?_, ?_, ?_⟩
  · intro o ho
    simp only [List.mem_cons, List.mem_singleton, List.not_mem_nil, or_false] at ho
    rcases ho with rfl | rfl | rfl
    · rcases markRead_db ctx db id with h | ⟨i, -, -, h⟩
      · rw [h]
        exact ⟨rfl, rfl⟩
      · rw [h]
        exact ⟨frozen_flagged _ _ _, rfl⟩
    · rcases markUnread_db ctx db id with h | ⟨i, -, -, h⟩
      · rw [h]
        exact ⟨rfl, rfl⟩
      · rw [h]
        exact ⟨frozen_flagged _ _ _, rfl⟩
    · cases hr : ctx.rejects .notifReadAll
      · rw [(markAllRead_ok ctx db hr).2]
        refine ⟨?_, rfl⟩
        simp only [List.map_map]
        apply List.map_congr_left
        intro n _
        rfl
      · rw [markAllRead_rejected ctx db hr]
        exact ⟨rfl, rfl⟩
  · intro i hi
    constructor
    · intro hr
      refine ⟨?_, fun hex => (markRead_found ctx db id i hi hr hex).1,
        fun hno => markRead_missing ctx db id i hi hr hno⟩
      by_cases hex : ∃ n ∈ db.notifications, n.id = i
      · rw [(markRead_found ctx db id i hi hr hex).2]
      · have hno : ∀ n ∈ db.notifications, n.id ≠ i := fun n hn h => hex ⟨n, hn, h⟩
        rw [(markRead_missing ctx db id i hi hr hno).2, flagged_of_absent true i _ hno]
    · intro hr
      refine ⟨?_, fun hex => (markUnread_found ctx db id i hi hr hex).1,
        fun hno => markUnread_missing ctx db id i hi hr hno⟩
      by_cases hex : ∃ n ∈ db.notifications, n.id = i
      · rw [(markUnread_found ctx db id i hi hr hex).2]
      · have hno : ∀ n ∈ db.notifications, n.id ≠ i := fun n hn h => hex ⟨n, hn, h⟩
        rw [(markUnread_missing ctx db id i hi hr hno).2, flagged_of_absent false i _ hno]
  · intro hr
    refine ⟨?_, (markAllRead_ok ctx db hr).1⟩
    rw [(markAllRead_ok ctx db hr).2]
    intro n hn
    obtain ⟨x, -, rfl⟩ := List.mem_map.mp hn
    rfl

/-- Witness of C23: of three notifications, the second read, `PUT /3/read` sets the flag of
the third only, `PUT /9/read` answers 404, and `PUT /read-all` answers the count 2. -/
theorem notification_flags_only_witness :
    (markRead sampleCtx threeNotifications "3").db.notifications =
      [⟨1, "discussion", some 1, "a", 10, false⟩, ⟨2, "like", some 1, "b", 20, true⟩,
        ⟨3, "comment", some 2, "c", 30, true⟩] ∧
    (markRead sampleCtx threeNotifications "9").response =
      Response.fail 404 "Notification not found" ∧
    (markAllRead sampleCtx threeNotifications).response =
      Response.json (.obj [("success", .bool true), ("count", .num 2)]) :=
  ⟨((notification_flags_only sampleCtx threeNotifications "3").2.1 3 (by decide)).1 rfl |>.1,
    (((notification_flags_only sampleCtx threeNotifications "9").2.1 9 (by decide)).1 rfl
      |>.2.2 (by decide)).1,
    ((notification_flags_only sampleCtx threeNotifications "3").2.2 rfl).2⟩

/-! ## Subscribing twice -/

theorem subscribe_duplicate (ctx : Ctx) (db : DB) (b : SubscribeBody) (s m : Int)
    (hs : parseId (orElse b.student_id b.studentId) = .int s)
    (hm : parseId (orElse b.module_id b.moduleId) = .int m)
    (hsr : pgIntOfNum? (.int s) = some s) (hmr : pgIntOfNum? (.int m) = some m)
    (hmod : ∃ x ∈ db.modules, x.id = m)
    (hdup : ∃ g ∈ db.student_subscriptions, g.student_id = s ∧ g.module_id = some m)
    (h1 : ctx.rejects .subscribeModule = false) (h2 : ctx.rejects .subscribeInsert = false) :
    (subscribe ctx db b).response =
      Response.json (.obj [("success", .bool false), ("message", .str "Already subscribed")]) ∧
    (subscribe ctx db b).db =
      { db with seq := { db.seq with
          student_subscriptions := db.seq.student_subscriptions + 1 } } := by
  have hrows : db.modules.filter (fun x => x.id == m) ≠ [] := by
    intro h
    rw [List.filter_eq_nil_iff] at h
    obtain ⟨x, hx, hid⟩ := hmod
    exact h x hx (by simpa using hid)
  obtain ⟨r, rs, hrs⟩ := List.exists_cons_of_ne_nil hrows
  have hany : db.student_subscriptions.any
      (fun g => g.student_id == s && g.module_id == some m) = true := by
    obtain ⟨g, hg, h3, h4⟩ := hdup
    exact List.any_eq_true.mpr ⟨g, hg, by simp [h3, h4]⟩
  have hg : ¬ (JsNum.int s = .nan ∨ JsNum.int m = .nan) := by
    rintro (h | h) <;> cases h
  unfold subscribe
  simp only [hs, hm, if_neg hg]
  simp [handle, query, bind, H.bind, pure, H.pure, selectModule, insertSubscription, hsr, hmr,
    h1, h2, hrs, hany]

/-- Claim C24, counterexample. Student 1 is subscribed to module 7 in the sample tables; the
request to subscribe again is answered with status 200 and the body
`{ success: false, message: "Already subscribed" }`: the table is unchanged, but the
response reports `success: false`. -/
theorem duplicate_subscription_reports_failure :
    (∃ g ∈ sampleDB.student_subscriptions, g.student_id = 1 ∧ g.module_id = some 7) ∧
    (∃ x ∈ sampleDB.modules, x.id = 7) ∧
    (subscribe sampleCtx sampleDB dupBody).db.student_subscriptions =
      sampleDB.student_subscriptions ∧
    (subscribe sampleCtx sampleDB dupBody).response.status = 200 ∧
    (subscribe sampleCtx sampleDB dupBody).response.body.field? "success" =
      some (.bool false) ∧
    (subscribe sampleCtx sampleDB dupBody).response.body.field? "message" =
      some (.str "Already subscribed") := by
  refine ⟨by decide, by decide, by decide, by decide, rfl, rfl⟩

/-- Claim C24, amended. For every student and every existing module, a
`POST /api/subscriptions` request for a pair that is subscribed already, whose two
statements the store executes, inserts nothing: `student_subscriptions` and every other
table are as they were (the `SERIAL` counter of the table advances), and the response has
status 200 and the body `{ success: false, message: "Already subscribed" }`. -/
theorem duplicate_subscription (ctx : Ctx) (db : DB) (b : SubscribeBody) (s m : Int)
    (hs : parseId (orElse b.student_id b.studentId) = .int s)
    (hm : parseId (orElse b.module_id b.moduleId) = .int m)
    (hsr : pgIntOfNum? (.int s) = some s) (hmr : pgIntOfNum? (.int m) = some m)
    (hmod : ∃ x ∈ db.modules, x.id = m)
    (hdup : ∃ g ∈ db.student_subscriptions, g.student_id = s ∧ g.module_id = some m)
    (h1 : ctx.rejects .subscribeModule = false) (h2 : ctx.rejects .subscribeInsert = false) :
    (subscribe ctx db b).response =
      Response.json (.obj [("success", .bool false), ("message", .str "Already subscribed")]) ∧
    (subscribe ctx db b).response.status = 200 ∧
    (subscribe ctx db b).db.student_subscriptions = db.student_subscriptions ∧
    (subscribe ctx db b).db =
      { db with seq := { db.seq with
          student_subscriptions := db.seq.student_subscriptions + 1 } } ∧
    (subscribe ctx db b).effects =
      [.query .subscribeModule true, .query .subscribeInsert true] := by
  obtain ⟨hresp, hdb⟩ := subscribe_duplicate ctx db b s m hs hm hsr hmr hmod hdup h1 h2
  refine ⟨hresp, by rw [hresp]; rfl, by rw [hdb], hdb, ?_⟩
  have hrows : db.modules.filter (fun x => x.id == m) ≠ [] := by
    intro h
    rw [List.filter_eq_nil_iff] at h
    obtain ⟨x, hx, hid⟩ := hmod
    exact h x hx (by simpa using hid)
  obtain ⟨r, rs, hrs⟩ := List.exists_cons_of_ne_nil hrows
  have hany : db.student_subscriptions.any
      (fun g => g.student_id == s && g.module_id == some m) = true := by
    obtain ⟨g, hg, h3, h4⟩ := hdup
    exact List.any_eq_true.mpr ⟨g, hg, by simp [h3, h4]⟩
  have hg : ¬ (JsNum.int s = .nan ∨ JsNum.int m = .nan) := by
    rintro (h | h) <;> cases h
  unfold subscribe
  simp only [hs, hm, if_neg hg]
  simp [handle, query, bind, H.bind, pure, H.pure, selectModule, insertSubscription, hsr, hmr,
    h1, h2, hrs, hany]

/-- Witness of C24: student 1 subscribes to module 7 a second time. -/
theorem duplicate_subscription_witness :
    parseId (orElse dupBody.student_id dupBody.studentId) = .int 1 ∧
    parseId (orElse dupBody.module_id dupBody.moduleId) = .int 7 ∧
    (subscribe sampleCtx sampleDB dupBody).response =
      Response.json (.obj [("success", .bool false), ("message", .str "Already subscribed")]) ∧
    (subscribe sampleCtx sampleDB dupBody).db.student_subscriptions =
      sampleDB.student_subscriptions :=
  ⟨by decide, by decide,
    (duplicate_subscription sampleCtx sampleDB dupBody 1 7 (by decide) (by decide) (by decide)
      (by decide) (by decide) (by decide) rfl rfl).1,
    (duplicate_subscription sampleCtx sampleDB dupBody 1 7 (by decide) (by decide) (by decide)
      (by decide) (by decide) (by decide) rfl rfl).2.2.1⟩

/-! ## The list of notifications -/

/-- Claim C26. Student 1 (`Ann Lee`) comments on post 2 of the sample tables, where no
comment exists yet: the comment gets the id 1 and its notification the `ref_id` 2, the id of
the post.  `GET /api/notifications` joins `comments` on `n.ref_id = c.id`, finds no comment
with the id 2, and returns the notification with `first_name`, `last_name` and `avatar`
NULL instead of the details of student 1. -/
theorem comment_notification_lacks_actor :
    (addComment sampleCtx sampleDB 2 "Thanks" 1).response.status = 200 ∧
    (addComment sampleCtx sampleDB 2 "Thanks" 1).db.comments = [⟨1, 2, 1, "Thanks", 100⟩] ∧
    (addComment sampleCtx sampleDB 2 "Thanks" 1).db.notifications =
      [⟨1, "comment", some 2, "💬 Ann Lee commented on a post", 100, false⟩] ∧
    selectStudent sampleDB 1 = [⟨1, some "Ann", some "Lee", none⟩] ∧
    selectNotifications (addComment sampleCtx sampleDB 2 "Thanks" 1).db =
      [{ n := ⟨1, "comment", some 2, "💬 Ann Lee commented on a post", 100, false⟩,
         d := none, c := none, l := none, s := none }] ∧
    ((getNotifications sampleCtx (addComment sampleCtx sampleDB 2 "Thanks" 1).db).body.field?
        "notifications").map
      (fun rows => match rows with
        | .arr (r :: _) => r.field? "first_name"
        | _ => none) = some (some .null) := by
  refine ⟨by decide, by decide, by decide, by decide, by decide, rfl⟩

/-- Claim C29. Student 2 likes post 1 of the sample tables, which student 1 has liked
already: one notification of type `like` with the `ref_id` 1 is stored, and
`GET /api/notifications`, which joins `discussion_likes` on `n.ref_id = l.discussion_id`,
returns it twice, once per like of the post. -/
theorem like_notification_listed_twice :
    (likePost sampleCtx sampleDB 1 2).response.status = 200 ∧
    (likePost sampleCtx sampleDB 1 2).db.notifications.length = 1 ∧
    (likePost sampleCtx sampleDB 1 2).db.discussion_likes.length = 2 ∧
    (selectNotifications (likePost sampleCtx sampleDB 1 2).db).length = 2 ∧
    (selectNotifications (likePost sampleCtx sampleDB 1 2).db).map (fun r => r.n.id) = [1, 1] ∧
    (selectNotifications (likePost sampleCtx sampleDB 1 2).db).map
      (fun r => r.s.bind Student.first_name) = [some "Ann", some "Bob"] ∧
    ((getNotifications sampleCtx (likePost sampleCtx sampleDB 1 2).db).body.field?
        "notifications").map
      (fun rows => match rows with
        | .arr xs => xs.length
        | _ => 0) = some 2 := by
  refine ⟨by decide, by decide, by decide, by decide, by decide, by decide, rfl⟩

/-! ## The order of comments and messages -/

theorem mem_innerJoin {α β : Type} (left : List α) (right : List β) (joinOn : α → β → Bool)
    (r : α × β) :
    r ∈ innerJoin left right joinOn ↔ r.1 ∈ left ∧ r.2 ∈ right ∧ joinOn r.1 r.2 = true := by
  unfold innerJoin
  simp only [List.mem_flatMap, List.mem_map, List.mem_filter]
  constructor
  · rintro ⟨a, ha, b, ⟨hb, hj⟩, rfl⟩
    exact ⟨ha, hb, hj⟩
  · rintro ⟨ha, hb, hj⟩
    exact ⟨r.1, ha, r.2, ⟨hb, hj⟩, rfl⟩

/-- With at most one right row per key, a left join keeps each left row once. -/
theorem leftJoin_fst {α β : Type} (left : List α) (right : List β) (joinOn : α → β → Bool)
    (h : ∀ a ∈ left, (right.filter (joinOn a)).length ≤ 1) :
    (leftJoin left right joinOn).map Prod.fst = left := by
  unfold leftJoin
  induction left with
  | nil => rfl
  | cons a l ih =>
    rw [List.flatMap_cons, List.map_append, ih (fun x hx => h x (List.mem_cons_of_mem _ hx))]
    have ha := h a (List.mem_cons_self _ _)
    cases hf : right.filter (joinOn a) with
    | nil => rfl
    | cons b bs =>
      rw [hf] at ha
      cases bs with
      | nil => rfl
      | cons c cs => simp at ha

theorem filter_key_le_one {β : Type} (right : List β) (key : β → Int) (k : Int)
    (h : (right.map key).Nodup) : (right.filter (fun s => k == key s)).length ≤ 1 := by
  induction right with
  | nil => simp
  | cons b bs ih =>
    rw [List.map_cons, List.nodup_cons] at h
    rw [List.filter_cons]
    by_cases hk : (k == key b) = true
    · have hnone : bs.filter (fun s => k == key s) = [] := by
        rw [List.filter_eq_nil_iff]
        intro s hs hks
        have h1 : k = key b := by simpa using hk
        have h2 : k = key s := by simpa using hks
        exact h.1 (List.mem_map.mpr ⟨s, hs, by rw [← h2, h1]⟩)
      simp [hk, hnone]
    · simp only [hk, Bool.false_eq_true, if_false]
      exact ih h.2

theorem commentOrder_sorted (l : List (Comment × Option Student)) :
    (l.insertionSort (fun a b => a.1.created_at ≤ b.1.created_at)).Sorted
      (fun a b => a.1.created_at ≤ b.1.created_at) := by
  haveI : IsTotal (Comment × Option Student) (fun a b => a.1.created_at ≤ b.1.created_at) :=
    ⟨fun a b => le_total a.1.created_at b.1.created_at⟩
  haveI : IsTrans (Comment × Option Student) (fun a b => a.1.created_at ≤ b.1.created_at) :=
    ⟨fun a b c h1 h2 => le_trans h1 h2⟩
  exact List.sorted_insertionSort _ l

theorem messageOrder_sorted (l : List (Message × Student)) :
    (l.insertionSort (fun a b => a.1.created_at ≤ b.1.created_at)).Sorted
      (fun a b => a.1.created_at ≤ b.1.created_at) := by
  haveI : IsTotal (Message × Student) (fun a b => a.1.created_at ≤ b.1.created_at) :=
    ⟨fun a b => le_total a.1.created_at b.1.created_at⟩
  haveI : IsTrans (Message × Student) (fun a b => a.1.created_at ≤ b.1.created_at) :=
    ⟨fun a b c h1 h2 => le_trans h1 h2⟩
  exact List.sorted_insertionSort _ l

theorem getPost_response (ctx : Ctx) (db : DB) (id : String) (i : Int)
    (hi : pgInt? id = some i) (h1 : ctx.rejects .getSelect = false)
    (h2 : ctx.rejects .getView = false) (h3 : ctx.rejects .getComments = false)
    (hex : ∃ d ∈ db.discussions, d.id = i) :
    ∃ p, (getPost ctx db id).response =
      Response.json (.obj [("success", .bool true), ("post", postDetailJson p),
        ("comments", .arr ((commentRows db i).map commentJson))]) := by
  have hrows : (feedFrom db).filter (fun r => r.d.id == i) ≠ [] := by
    intro h
    obtain ⟨d, hd, hid⟩ := hex
    exact (selectRows_eq_nil_iff db i).mp h d hd hid
  obtain ⟨r, rs, hrs⟩ := List.exists_cons_of_ne_nil hrows
  refine ⟨r, ?_⟩
  simp [getPost, handle, query, bind, H.bind, pure, H.pure, selectPost, incrementViews,
    selectComments, hi, h1, h2, h3, hrs, commentRows]

theorem commentRows_spec (db : DB) (i : Int) :
    (commentRows db i).Sorted (fun a b => a.1.created_at ≤ b.1.created_at) ∧
    (∀ r ∈ commentRows db i, r.1 ∈ db.comments ∧ r.1.discussion_id = i) ∧
    (∀ c ∈ db.comments, c.discussion_id = i → ∃ r ∈ commentRows db i, r.1 = c) ∧
    ((db.student.map Student.stu_id).Nodup →
      ((commentRows db i).map Prod.fst).Perm
        (db.comments.filter (fun c => c.discussion_id == i))) := by
  have hperm : (commentRows db i).Perm
      ((leftJoin db.comments db.student (fun c s => c.student_id == s.stu_id)).filter
        (fun r => r.1.discussion_id == i)) := List.perm_insertionSort _ _
  refine ⟨commentOrder_sorted _, ?_, ?_, ?_⟩
  · intro r hr
    have hr2 := (List.mem_filter.mp (hperm.mem_iff.mp hr))
    exact ⟨fst_mem_of_mem_leftJoin _ _ _ _ hr2.1, by simpa using hr2.2⟩
  · intro c hc hci
    obtain ⟨s, hs⟩ := mem_leftJoin_of_mem db.comments db.student
      (fun c s => c.student_id == s.stu_id) c hc
    exact ⟨(c, s), hperm.mem_iff.mpr (List.mem_filter.mpr ⟨hs, by simpa using hci⟩), rfl⟩
  · intro hnd
    have hfst := leftJoin_fst db.comments db.student (fun c s => c.student_id == s.stu_id)
      (fun c _ => filter_key_le_one db.student Student.stu_id c.student_id hnd)
    have h1 := (hperm.map Prod.fst)
    have h2 : (((leftJoin db.comments db.student (fun c s => c.student_id == s.stu_id)).filter
        (fun r => r.1.discussion_id == i)).map Prod.fst) =
        db.comments.filter (fun c => c.discussion_id == i) := by
      have h3 : List.filter (fun c : Comment => c.discussion_id == i)
          (List.map Prod.fst
            (leftJoin db.comments db.student (fun c s => c.student_id == s.stu_id))) =
          List.map Prod.fst (List.filter ((fun c : Comment => c.discussion_id == i) ∘ Prod.fst)
            (leftJoin db.comments db.student (fun c s => c.student_id == s.stu_id))) :=
        List.filter_map _ _
      rw [hfst] at h3
      rw [h3]
      rfl
    rw [h2] at h1
    exact h1

theorem messageRows_spec (db : DB) (c : Int) :
    (messageRows db c).Sorted (fun a b => a.1.created_at ≤ b.1.created_at) ∧
    (∀ r ∈ messageRows db c, r.1 ∈ db.messages ∧ r.1.conversation_id = c) := by
  have hperm : (messageRows db c).Perm
      ((innerJoin db.messages db.student (fun m s => m.sender_id == s.stu_id)).filter
        (fun r => r.1.conversation_id == c)) := List.perm_insertionSort _ _
  refine ⟨messageOrder_sorted _, ?_⟩
  intro r hr
  have hr2 := List.mem_filter.mp (hperm.mem_iff.mp hr)
  exact ⟨((mem_innerJoin _ _ _ r).mp hr2.1).1, by simpa using hr2.2⟩

/-- Claim C25. For every post, when the store executes the three statements of
`GET /posts/:id`, the `comments` list of the response is made of the rows of a list in
non-decreasing `created_at` order whose comments are comments of that post, every comment
of the post among them, each once when no two students share an id; and for every
conversation, when the store executes the statement of `GET /:conversationId/messages`, the
`messages` list is made of the rows of a list in non-decreasing `created_at` order whose
messages are messages of that conversation. -/
theorem comments_and_messages_ordered (ctx : Ctx) (db : DB) (id : String) (i : Int)
    (hi : pgInt? id = some i) :
    ((∃ d ∈ db.discussions, d.id = i) → ctx.rejects .getSelect = false →
      ctx.rejects .getView = false → ctx.rejects .getComments = false →
      ∃ (post : JVal) (rows : List (Comment × Option Student)),
        (getPost ctx db id).response =
          Response.json (.obj [("success", .bool true), ("post", post),
            ("comments", .arr (rows.map commentJson))]) ∧
        rows.Sorted (fun a b => a.1.created_at ≤ b.1.created_at) ∧
        (∀ r ∈ rows, r.1 ∈ db.comments ∧ r.1.discussion_id = i) ∧
        (∀ c ∈ db.comments, c.discussion_id = i → ∃ r ∈ rows, r.1 = c) ∧
        ((db.student.map Student.stu_id).Nodup →
          (rows.map Prod.fst).Perm (db.comments.filter (fun c => c.discussion_id == i)))) ∧
    (ctx.rejects .messagesSelect = false →
      ∃ rows : List (Message × Student),
        getMessages ctx db id =
          Response.json (.obj [("success", .bool true),
            ("messages", .arr (rows.map messageRowJson))]) ∧
        rows.Sorted (fun a b => a.1.created_at ≤ b.1.created_at) ∧
        (∀ r ∈ rows, r.1 ∈ db.messages ∧ r.1.conversation_id = i)) := by
  constructor
  · intro hex h1 h2 h3
    obtain ⟨p, hp⟩ := getPost_response ctx db id i hi h1 h2 h3 hex
    obtain ⟨hs, hin, hall, hperm⟩ := commentRows_spec db i
    exact ⟨postDetailJson p, commentRows db i, hp, hs, hin, hall, hperm⟩
  · intro hm
    obtain ⟨hs, hin⟩ := messageRows_spec db i
    refine ⟨messageRows db i, ?_, hs, hin⟩
    simp [getMessages, hm, selectMessages, hi, messageRows]

/-- Witness of C25: post 1 has comments written at 30, 10 and 20, and conversation 1 has
messages written at 33, 11 and 22; both lists come back in the order of the clock. -/
theorem comments_and_messages_ordered_witness :
    (commentRows chatter 1).map (fun r => r.1.created_at) = [10, 20, 30] ∧
    (messageRows chatter 1).map (fun r => r.1.created_at) = [11, 22, 33] ∧
    (∃ (post : JVal) (rows : List (Comment × Option Student)),
      (getPost sampleCtx chatter "1").response =
        Response.json (.obj [("success", .bool true), ("post", post),
          ("comments", .arr (rows.map commentJson))]) ∧
      rows.Sorted (fun a b => a.1.created_at ≤ b.1.created_at) ∧
      (∀ r ∈ rows, r.1 ∈ chatter.comments ∧ r.1.discussion_id = 1) ∧
      (∀ c ∈ chatter.comments, c.discussion_id = 1 → ∃ r ∈ rows, r.1 = c) ∧
      ((chatter.student.map Student.stu_id).Nodup →
        (rows.map Prod.fst).Perm (chatter.comments.filter (fun c => c.discussion_id == 1)))) ∧
    (∃ rows : List (Message × Student),
      getMessages sampleCtx chatter "1" =
        Response.json (.obj [("success", .bool true),
          ("messages", .arr (rows.map messageRowJson))]) ∧
      rows.Sorted (fun a b => a.1.created_at ≤ b.1.created_at) ∧
      (∀ r ∈ rows, r.1 ∈ chatter.messages ∧ r.1.conversation_id = 1)) :=
  ⟨by decide, by decide,
    (comments_and_messages_ordered sampleCtx chatter "1" 1 (by decide)).1 (by decide) rfl rfl
      rfl,
    (comments_and_messages_ordered sampleCtx chatter "1" 1 (by decide)).2 rfl⟩

/-! ## The participants of a conversation -/

theorem startedResponse_injective (a b : Int) (h : startedResponse a = startedResponse b) :
    a = b := by
  simpa [startedResponse, Response.json] using h

theorem fail_ne_started (code : Nat) (msg : String) (cid : Int) (hc : code ≠ 200) :
    Response.fail code msg ≠ startedResponse cid := by
  intro h
  have hs := congrArg Response.status h
  exact hc hs

/-- What `POST /start` does to the participant rows: nothing, or it appends the two rows of
a new conversation; and what a successful response means in each case. -/
theorem startConversation_cases (ctx : Ctx) (db : DB) (s r : Int) :
    ((startConversation ctx db s r).db.conversation_participants =
        db.conversation_participants ∧
      db.seq.conversations ≤ (startConversation ctx db s r).db.seq.conversations ∧
      (∀ cid, (startConversation ctx db s r).response = startedResponse cid →
        ∃ rest, selectExisting db s r = cid :: rest)) ∨
    ((startConversation ctx db s r).db.conversation_participants =
        db.conversation_participants ++
          [{ id := db.seq.conversation_participants, conversation_id := db.seq.conversations,
             student_id := s },
           { id := db.seq.conversation_participants + 1,
             conversation_id := db.seq.conversations, student_id := r }] ∧
      (startConversation ctx db s r).db.seq.conversations = db.seq.conversations + 1 ∧
      (startConversation ctx db s r).response = startedResponse db.seq.conversations) := by
  by_cases hr : r = 0
  · left
    have h : startConversation ctx db s r =
        { response := Response.fail 400 "Recipient ID required", db := db, effects := [] } := by
      simp [startConversation, hr]
    rw [h]
    exact ⟨rfl, le_refl _, fun cid hc => absurd hc (fail_ne_started _ _ _ (by decide))⟩
  · cases h1 : ctx.rejects .startExisting
    · cases hex : selectExisting db s r with
      | cons first rest =>
        left
        have h : (startConversation ctx db s r).response = startedResponse first ∧
            (startConversation ctx db s r).db = db := by
          simp [startConversation, hr, handle, query, bind, H.bind, pure, H.pure, h1, hex,
            startedResponse]
        rw [h.1, h.2]
        refine ⟨rfl, le_refl _, fun cid hc => ⟨rest, ?_⟩⟩
        rw [startedResponse_injective _ _ hc]
      | nil =>
        cases h2 : ctx.rejects .startConversation
        · cases h3 : ctx.rejects .startParticipants
          · by_cases hs : (db.student.any (fun x => x.stu_id == s) &&
                db.student.any (fun x => x.stu_id == r)) = true
            · right
              simp only [Bool.and_eq_true] at hs
              simp [startConversation, hr, handle, query, bind, H.bind, pure, H.pure, h1, hex,
                h2, h3, insertConversation, insertParticipants, hs.1, hs.2, startedResponse]
            · left
              have h : (startConversation ctx db s r).response =
                    Response.fail 500 "Server error" ∧
                  (startConversation ctx db s r).db.conversation_participants =
                    db.conversation_participants ∧
                  (startConversation ctx db s r).db.seq.conversations =
                    db.seq.conversations + 1 := by
                simp only [Bool.and_eq_true, not_and_or, Bool.not_eq_true] at hs
                rcases hs with hs | hs
                · simp [startConversation, hr, handle, query, bind, H.bind, pure, H.pure, h1,
                    hex, h2, h3, insertConversation, insertParticipants, hs]
                · simp [startConversation, hr, handle, query, bind, H.bind, pure, H.pure, h1,
                    hex, h2, h3, insertConversation, insertParticipants, hs]
              rw [h.1, h.2.1, h.2.2]
              exact ⟨rfl, by omega, fun cid hc => absurd hc (fail_ne_started _ _ _ (by decide))⟩
          · left
            have h : (startConversation ctx db s r).response =
                  Response.fail 500 "Server error" ∧
                (startConversation ctx db s r).db.conversation_participants =
                  db.conversation_participants ∧
                (startConversation ctx db s r).db.seq.conversations =
                  db.seq.conversations + 1 := by
              simp [startConversation, hr, handle, query, bind, H.bind, pure, H.pure, h1,
                hex, h2, h3, insertConversation]
            rw [h.1, h.2.1, h.2.2]
            exact ⟨rfl, by omega, fun cid hc => absurd hc (fail_ne_started _ _ _ (by decide))⟩
        · left
          have h : (startConversation ctx db s r).response =
                Response.fail 500 "Server error" ∧
              (startConversation ctx db s r).db = db := by
            simp [startConversation, hr, handle, query, bind, H.bind, pure, H.pure, h1,
              hex, h2]
          rw [h.1, h.2]
          exact ⟨rfl, le_refl _, fun cid hc => absurd hc (fail_ne_started _ _ _ (by decide))⟩
    · left
      have h : (startConversation ctx db s r).response = Response.fail 500 "Server error" ∧
          (startConversation ctx db s r).db = db := by
        simp [startConversation, hr, handle, query, bind, H.bind, pure, H.pure, h1]
      rw [h.1, h.2]
      exact ⟨rfl, le_refl _, fun cid hc => absurd hc (fail_ne_started _ _ _ (by decide))⟩

theorem pairsOnly_of_empty (db : DB) (h : db.conversation_participants = []) : pairsOnly db := by
  refine ⟨?_, ?_⟩
  · intro p hp
    rw [h] at hp
    cases hp
  · intro cid
    left
    unfold participantsOf
    rw [h]
    rfl

theorem pairsOnly_step (ctx : Ctx) (db : DB) (s r : Int) (h : pairsOnly db) :
    pairsOnly (startConversation ctx db s r).db := by
  obtain ⟨hlt, hpairs⟩ := h
  rcases startConversation_cases ctx db s r with ⟨hp, hseq, -⟩ | ⟨hp, hseq, -⟩
  · refine ⟨?_, ?_⟩
    · intro p hpm
      rw [hp] at hpm
      exact lt_of_lt_of_le (hlt p hpm) hseq
    · intro cid
      unfold participantsOf
      rw [hp]
      exact hpairs cid
  · refine ⟨?_, ?_⟩
    · intro p hpm
      rw [hp, List.mem_append] at hpm
      rw [hseq]
      rcases hpm with hpm | hpm
      · have := hlt p hpm
        omega
      · simp only [List.mem_cons, List.mem_singleton, List.not_mem_nil, or_false] at hpm
        rcases hpm with rfl | rfl <;> simp
    · intro cid
      unfold participantsOf
      rw [hp, List.filter_append]
      by_cases hc : cid = db.seq.conversations
      · right
        subst hc
        have hold : db.conversation_participants.filter
            (fun p => p.conversation_id == db.seq.conversations) = [] := by
          rw [List.filter_eq_nil_iff]
          intro p hpm
          have := hlt p hpm
          simp only [beq_iff_eq]
          omega
        rw [hold, List.nil_append]
        simp only [List.filter_cons, beq_self_eq_true, if_true, List.filter_nil]
        exact ⟨_, _, rfl⟩
      · have hnew : List.filter (fun p : Participant => p.conversation_id == cid)
            [{ id := db.seq.conversation_participants,
               conversation_id := db.seq.conversations, student_id := s },
             { id := db.seq.conversation_participants + 1,
               conversation_id := db.seq.conversations, student_id := r }] = [] := by
          have hc2 : ¬ db.seq.conversations = cid := fun h => hc h.symm
          simp [List.filter_cons, hc2]
        rw [hnew, List.append_nil]
        exact hpairs cid

theorem pairsOnly_startAll (reqs : List (Ctx × Int × Int)) (db : DB) (h : pairsOnly db) :
    pairsOnly (startAll reqs db) := by
  induction reqs generalizing db with
  | nil => exact h
  | cons req rest ih => exact ih _ (pairsOnly_step req.1 db req.2.1 req.2.2 h)

/-- In tables where conversations have no participant row or two, the conversation that a
successful `POST /start` of a sender to another student names has two participant rows, one
of the sender and one of the recipient. -/
theorem started_pair (ctx : Ctx) (db : DB) (s r cid : Int) (h : pairsOnly db) (hne : s ≠ r)
    (hresp : (startConversation ctx db s r).response = startedResponse cid) :
    ((participantsOf (startConversation ctx db s r).db cid).map
      Participant.student_id).Perm [s, r] := by
  obtain ⟨hlt, hpairs⟩ := h
  rcases startConversation_cases ctx db s r with ⟨hp, -, hex⟩ | ⟨hp, -, hr⟩
  · obtain ⟨rest, hsel⟩ := hex cid hresp
    have hmem : cid ∈ selectExisting db s r := by
      rw [hsel]
      exact List.mem_cons_self _ _
    rw [selectExisting_eq, List.mem_flatMap] at hmem
    obtain ⟨c, -, hc⟩ := hmem
    obtain ⟨hcid, ⟨p1, hp1, hc1, hs1⟩, ⟨p2, hp2, hc2, hs2⟩⟩ :=
      (mem_pairRows _ _ _ _ _).mp hc
    have hm1 : p1 ∈ participantsOf db cid := by
      unfold participantsOf
      exact List.mem_filter.mpr ⟨hp1, by simp [hcid, hc1]⟩
    have hm2 : p2 ∈ participantsOf db cid := by
      unfold participantsOf
      exact List.mem_filter.mpr ⟨hp2, by simp [hcid, hc2]⟩
    have hsame : participantsOf (startConversation ctx db s r).db cid =
        participantsOf db cid := by
      unfold participantsOf
      rw [hp]
    rw [hsame]
    rcases hpairs cid with hnil | ⟨p, q, hpq⟩
    · rw [hnil] at hm1
      cases hm1
    · rw [hpq] at hm1 hm2 ⊢
      simp only [List.mem_cons, List.mem_singleton, List.not_mem_nil, or_false] at hm1 hm2
      rcases hm1 with rfl | rfl <;> rcases hm2 with rfl | rfl
      · exact absurd (hs1.symm.trans hs2) hne
      · simp [hs1, hs2]
      · simp only [List.map_cons, List.map_nil, hs1, hs2]
        exact List.Perm.swap _ _ _
      · exact absurd (hs1.symm.trans hs2) hne
  · rw [hr] at hresp
    have hcid := startedResponse_injective _ _ hresp
    subst hcid
    unfold participantsOf
    rw [hp, List.filter_append]
    have hold : db.conversation_participants.filter
        (fun p => p.conversation_id == db.seq.conversations) = [] := by
      rw [List.filter_eq_nil_iff]
      intro p hpm
      have := hlt p hpm
      simp only [beq_iff_eq]
      omega
    rw [hold]
    simp

/-- Claim C22, counterexample. In the sample tables, which have no conversation, student 1
starts a conversation with student 1: `POST /start` answers with the new conversation 1,
whose two participant rows are both of student 1, not two distinct participants. -/
theorem self_conversation_not_a_pair :
    sampleDB.conversation_participants = [] ∧
    (startConversation sampleCtx sampleDB 1 1).response = startedResponse 1 ∧
    (participantsOf (startConversation sampleCtx sampleDB 1 1).db 1).map
      Participant.student_id = [1, 1] ∧
    ¬ ((participantsOf (startConversation sampleCtx sampleDB 1 1).db 1).map
      Participant.student_id).Nodup := by
  refine ⟨rfl, rfl, by decide, by decide⟩

/-- Claim C22, amended. For every database state reached by `POST /start` requests (of any
senders and recipients, a recipient equal to the sender included) from a state without
participant rows, and every sender and recipient that are not the same student, the
conversation whose id `POST /start` returns has exactly two participant rows, one of the
sender and one of the recipient. -/
theorem started_conversation_is_a_pair (reqs : List (Ctx × Int × Int)) (db0 : DB)
    (ctx : Ctx) (s r cid : Int) (h0 : db0.conversation_participants = []) (hne : s ≠ r)
    (hresp : (startConversation ctx (startAll reqs db0) s r).response = startedResponse cid) :
    ((participantsOf (startConversation ctx (startAll reqs db0) s r).db cid).map
      Participant.student_id).Perm [s, r] ∧
    (participantsOf (startConversation ctx (startAll reqs db0) s r).db cid).length = 2 :=
  have hperm := started_pair ctx (startAll reqs db0) s r cid
    (pairsOnly_startAll reqs db0 (pairsOnly_of_empty db0 h0)) hne hresp
  ⟨hperm, by simpa using hperm.length_eq⟩

/-- Witness of C22: after student 1 has started a conversation with itself and one with
student 2, student 2 starts a conversation with student 1 and gets conversation 2, whose
participants are students 1 and 2. -/
theorem started_conversation_is_a_pair_witness :
    (startConversation sampleCtx (startAll [(sampleCtx, 1, 1), (sampleCtx, 1, 2)] sampleDB)
      2 1).response = startedResponse 2 ∧
    ((participantsOf (startConversation sampleCtx
        (startAll [(sampleCtx, 1, 1), (sampleCtx, 1, 2)] sampleDB) 2 1).db 2).map
      Participant.student_id).Perm [2, 1] ∧
    (participantsOf (startConversation sampleCtx
        (startAll [(sampleCtx, 1, 1), (sampleCtx, 1, 2)] sampleDB) 2 1).db 2).length = 2 :=
  ⟨rfl, started_conversation_is_a_pair [(sampleCtx, 1, 1), (sampleCtx, 1, 2)] sampleDB
    sampleCtx 2 1 2 rfl (by decide) rfl⟩

/-! ## Two concurrent likes -/

theorem pairsUnique_insertLike (now id s : Int) (db : DB) (h : pairsUnique db) :
    pairsUnique (insertLike now id s db).2 := by
  unfold pairsUnique at h ⊢
  unfold insertLike
  split
  · rename_i hc
    simp only [Bool.and_eq_true, List.isEmpty_iff] at hc
    obtain ⟨-, hnone⟩ := hc
    simp only [List.map_append, List.map_cons, List.map_nil]
    refine List.Nodup.append h (List.nodup_singleton _) ?_
    intro x hx hx2
    rw [List.mem_singleton] at hx2
    subst hx2
    obtain ⟨l, hl, hpair⟩ := List.mem_map.mp hx
    have hmem : l ∈ selectLikes db id s := by
      unfold selectLikes
      refine List.mem_filter.mpr ⟨hl, ?_⟩
      simp only [Prod.mk.injEq] at hpair
      simp [hpair.1, hpair.2]
    rw [hnone] at hmem
    cases hmem
  · exact h

theorem pairsUnique_step (ctx : Ctx) (id s : Int) (pc : LikePc) (db : DB)
    (h : pairsUnique db) : pairsUnique (likeStep ctx id s pc db).2 := by
  cases pc with
  | check =>
    cases hr : ctx.rejects .likeCheck
    · by_cases hl : (selectLikes db id s).length > 0 <;> simpa [likeStep, hr, hl] using h
    · simpa [likeStep, hr] using h
  | delete =>
    cases hr : ctx.rejects .likeDelete
    · have hd : pairsUnique (deleteLikes db id s) := by
        unfold pairsUnique at h ⊢
        exact h.sublist ((List.filter_sublist _).map _)
      simpa [likeStep, hr] using hd
    · simpa [likeStep, hr] using h
  | decrement =>
    cases hr : ctx.rejects .likeDecrement
    · have hd : pairsUnique (decrementLikes db id) := h
      simpa [likeStep, hr] using hd
    · simpa [likeStep, hr] using h
  | insert =>
    cases hr : ctx.rejects .likeInsert
    · have hd := pairsUnique_insertLike ctx.now id s db h
      rcases hi : insertLike ctx.now id s db with ⟨_ | u, db1⟩
      · rw [hi] at hd
        simpa [likeStep, hr, hi] using hd
      · rw [hi] at hd
        simpa [likeStep, hr, hi] using hd
    · simpa [likeStep, hr] using h
  | increment =>
    cases hr : ctx.rejects .likeIncrement
    · have hd : pairsUnique (incrementLikes db id) := h
      simpa [likeStep, hr] using hd
    · simpa [likeStep, hr] using h
  | liker =>
    cases hr : ctx.rejects .likeLiker <;> simpa [likeStep, hr] using h
  | notify liker =>
    cases hr : ctx.rejects .likeNotify
    · have hd : pairsUnique (insertNotification ctx.now "like" (some id)
          ("👍 " ++ likerName liker ++ " liked your post") db).2 := h
      cases h8 : ctx.hasSocket <;> cases h9 : ctx.emitThrows <;>
        simpa [likeStep, hr, insertNotification, h8, h9] using hd
    · simpa [likeStep, hr] using h
  | done r => exact h

theorem pairsUnique_run (ctx1 ctx2 : Ctx) (id s : Int) (schedule : List Bool) (st : LikeRace)
    (h : pairsUnique st.db) : pairsUnique (runSchedule ctx1 ctx2 id s schedule st).db := by
  induction schedule generalizing st with
  | nil => exact h
  | cons b rest ih =>
    cases b
    · exact ih _ (pairsUnique_step ctx2 id s st.second st.db h)
    · exact ih _ (pairsUnique_step ctx1 id s st.first st.db h)

/-- Statement by statement, a request alone does what the handler does. -/
theorem likeAlone_eq (ctx : Ctx) (id s : Int) (db : DB) :
    likeAlone ctx id s db = (.done (likePost ctx db id s).response, (likePost ctx db id s).db) := by
  unfold likeAlone
  by_cases hs : s = 0
  · simp [likeStart, likePost, hs, likeStep]
  · cases h1 : ctx.rejects .likeCheck
    · by_cases hlen : (selectLikes db id s).length > 0
      · cases h2 : ctx.rejects .likeDelete
        · cases h3 : ctx.rejects .likeDecrement <;>
            simp [likeStart, likePost, hs, likeStep, handle, query, bind, H.bind, pure, H.pure,
              h1, h2, h3, hlen]
        · simp [likeStart, likePost, hs, likeStep, handle, query, bind, H.bind, pure, H.pure,
            h1, h2, hlen]
      · cases h4 : ctx.rejects .likeInsert
        · rcases hi : insertLike ctx.now id s db with ⟨_ | u, db1⟩
          · simp [likeStart, likePost, hs, likeStep, handle, query, bind, H.bind, pure, H.pure,
              h1, h4, hlen, hi]
          · cases h5 : ctx.rejects .likeIncrement
            · cases h6 : ctx.rejects .likeLiker
              · cases h7 : ctx.rejects .likeNotify
                · cases h8 : ctx.hasSocket <;> cases h9 : ctx.emitThrows <;>
                    simp [likeStart, likePost, hs, likeStep, handle, query, emit, bind, H.bind,
                      pure, H.pure, h1, h4, h5, h6, h7, h8, h9, hlen, hi, insertNotification,
                      incrementLikes, selectStudent]
                · simp [likeStart, likePost, hs, likeStep, handle, query, emit, bind, H.bind,
                    pure, H.pure, h1, h4, h5, h6, h7, hlen, hi]
              · simp [likeStart, likePost, hs, likeStep, handle, query, emit, bind, H.bind,
                  pure, H.pure, h1, h4, h5, h6, hlen, hi]
            · simp [likeStart, likePost, hs, likeStep, handle, query, emit, bind, H.bind,
                pure, H.pure, h1, h4, h5, hlen, hi]
        · simp [likeStart, likePost, hs, likeStep, handle, query, bind, H.bind, pure, H.pure,
            h1, h4, hlen]
    · simp [likeStart, likePost, hs, likeStep, handle, query, bind, H.bind, pure, H.pure, h1]

theorem runSchedule_sequential (ctx1 ctx2 : Ctx) (id s : Int) (db : DB) :
    runSchedule ctx1 ctx2 id s oneAfterTheOther ⟨likeStart s, likeStart s, db⟩ =
      ⟨.done (likePost ctx1 db id s).response,
        .done (likePost ctx2 (likePost ctx1 db id s).db id s).response,
        (likePost ctx2 (likePost ctx1 db id s).db id s).db⟩ := by
  have h1 := likeAlone_eq ctx1 id s db
  have h2 := likeAlone_eq ctx2 id s (likePost ctx1 db id s).db
  have hrun : runSchedule ctx1 ctx2 id s oneAfterTheOther ⟨likeStart s, likeStart s, db⟩ =
      ⟨(likeAlone ctx1 id s db).1,
        (likeAlone ctx2 id s (likeAlone ctx1 id s db).2).1,
        (likeAlone ctx2 id s (likeAlone ctx1 id s db).2).2⟩ := rfl
  rw [hrun, h1]
  simp only [h2]

/-- Claim C27, counterexample. Post 1 has the likes counter 2 and the like rows of students
1 and 2. Two requests of student 1 to toggle the like run in lockstep: both find the row,
both delete, both decrement. Both answer `liked: false`; the counter is 0 with one like row
left, and the tables differ from those after the two requests one after the other (unlike,
then like again: counter 2, two rows). -/
theorem lockstep_unlikes_break_counter :
    likesConsistent likedTwice ∧
    (runSchedule sampleCtx sampleCtx 1 1 lockstep
      ⟨likeStart 1, likeStart 1, likedTwice⟩).first.response?.map Response.status = some 200 ∧
    (runSchedule sampleCtx sampleCtx 1 1 lockstep
      ⟨likeStart 1, likeStart 1, likedTwice⟩).second.response?.map Response.status = some 200 ∧
    (runSchedule sampleCtx sampleCtx 1 1 lockstep
      ⟨likeStart 1, likeStart 1, likedTwice⟩).db.discussions.map
        (fun d => (d.id, d.likes)) = [(1, 0), (2, 0)] ∧
    (runSchedule sampleCtx sampleCtx 1 1 lockstep
      ⟨likeStart 1, likeStart 1, likedTwice⟩).db.discussion_likes = [⟨2, 1, 2, 60⟩] ∧
    ¬ likesConsistent (runSchedule sampleCtx sampleCtx 1 1 lockstep
      ⟨likeStart 1, likeStart 1, likedTwice⟩).db ∧
    (likePost sampleCtx (likePost sampleCtx likedTwice 1 1).db 1 1).db.discussions.map
        (fun d => (d.id, d.likes)) = [(1, 2), (2, 0)] ∧
    (runSchedule sampleCtx sampleCtx 1 1 lockstep ⟨likeStart 1, likeStart 1, likedTwice⟩).db ≠
      (likePost sampleCtx (likePost sampleCtx likedTwice 1 1).db 1 1).db := by
  refine ⟨by decide, by decide, by decide, by decide, by decide, by decide, by decide,
    by decide⟩

/-- Claim C27, amended. For every interleaving of the statements of two concurrent
`POST /posts/:id/like` requests for the same (post, student) pair, complete or not, on
tables in which no pair has two like rows, no pair has two like rows afterwards: the
`UNIQUE` constraint makes the second insert fail.  The two requests one after the other
leave the tables that the handler leaves when run twice. -/
theorem like_race_keeps_pairs_unique (ctx1 ctx2 : Ctx) (id s : Int) (schedule : List Bool)
    (db : DB) (h : pairsUnique db) :
    pairsUnique (runSchedule ctx1 ctx2 id s schedule ⟨likeStart s, likeStart s, db⟩).db ∧
    (selectLikes (runSchedule ctx1 ctx2 id s schedule ⟨likeStart s, likeStart s, db⟩).db
      id s).length ≤ 1 ∧
    runSchedule ctx1 ctx2 id s oneAfterTheOther ⟨likeStart s, likeStart s, db⟩ =
      ⟨.done (likePost ctx1 db id s).response,
        .done (likePost ctx2 (likePost ctx1 db id s).db id s).response,
        (likePost ctx2 (likePost ctx1 db id s).db id s).db⟩ := by
  have hu := pairsUnique_run ctx1 ctx2 id s schedule ⟨likeStart s, likeStart s, db⟩ h
  exact ⟨hu, pair_rows_le_one _ id s hu, runSchedule_sequential ctx1 ctx2 id s db⟩

/-- Witness of C27: the lockstep schedule on the tables with two likes of post 1. -/
theorem like_race_keeps_pairs_unique_witness :
    pairsUnique likedTwice ∧
    pairsUnique (runSchedule sampleCtx sampleCtx 1 1 lockstep
      ⟨likeStart 1, likeStart 1, likedTwice⟩).db :=
  ⟨by unfold pairsUnique; decide,
    (like_race_keeps_pairs_unique sampleCtx sampleCtx 1 1 lockstep likedTwice
      (by unfold pairsUnique; decide)).1⟩

/-! ## Placeholders and values -/

theorem renderTokens_append (a b : List Token) :
    renderTokens (a ++ b) = renderTokens a ++ renderTokens b := by
  induction a with
  | nil => simp [renderTokens]
  | cons t ts ih => simp [renderTokens, ih, String.append_assoc]

theorem intercalate_go (acc s : String) (l : List String) :
    String.intercalate.go acc s l = acc ++ l.foldr (fun a r => s ++ a ++ r) "" := by
  induction l generalizing acc with
  | nil => simp [String.intercalate.go]
  | cons a l ih => simp [String.intercalate.go, ih, String.append_assoc]

theorem intercalate_cons (s a : String) (l : List String) :
    s.intercalate (a :: l) = a ++ l.foldr (fun a r => s ++ a ++ r) "" := by
  simp [String.intercalate, intercalate_go]

theorem render_commaList_cons (k : Nat) (ks : List Nat) :
    renderTokens (commaList (k :: ks)) =
      placeholder k ++ (ks.map placeholder).foldr (fun a r => "," ++ a ++ r) "" := by
  induction ks generalizing k with
  | nil => simp [commaList, renderTokens, Token.text]
  | cons k2 ks ih =>
    have h : commaList (k :: k2 :: ks) = .ph k :: .lit "," :: commaList (k2 :: ks) := rfl
    rw [h]
    simp only [renderTokens, Token.text, ih, List.map_cons, List.foldr_cons, String.append_assoc]

theorem render_commaList (ph : List Nat) :
    ",".intercalate (ph.map placeholder) = renderTokens (commaList ph) := by
  cases ph with
  | nil => rfl
  | cons k ks => rw [List.map_cons, intercalate_cons, render_commaList_cons]

theorem render_tokens (c : Cond) : c.render = renderTokens c.tokens := by
  cases c <;>
    simp [Cond.render, Cond.tokens, renderTokens, renderTokens_append, Token.text,
      render_commaList, String.append_assoc]

theorem render_andList_cons (c : Cond) (cs : List Cond) :
    renderTokens (andList (c :: cs)) =
      c.render ++ (cs.map Cond.render).foldr (fun a r => " AND " ++ a ++ r) "" := by
  induction cs generalizing c with
  | nil => simp [andList, render_tokens]
  | cons c2 cs ih =>
    have h : andList (c :: c2 :: cs) = c.tokens ++ .lit " AND " :: andList (c2 :: cs) := rfl
    rw [h, renderTokens_append]
    simp only [renderTokens, Token.text, ih, List.map_cons, List.foldr_cons, render_tokens,
      String.append_assoc]

theorem render_andList (cs : List Cond) :
    " AND ".intercalate (cs.map Cond.render) = renderTokens (andList cs) := by
  cases cs with
  | nil => rfl
  | cons c cs => rw [List.map_cons, intercalate_cons, render_andList_cons]

/-- The SQL text is its pieces one after the other. -/
theorem text_eq_tokens (q : FeedQuery) : q.text = renderTokens q.tokens := by
  unfold FeedQuery.text FeedQuery.tokens FeedQuery.orderClause
  by_cases h : q.conditions.length > 0
  · simp [h, renderTokens_append, renderTokens, Token.text, render_andList, String.append_assoc]
  · simp [h, renderTokens_append, renderTokens, Token.text, String.append_assoc]

theorem feedSelect_dollarFree : (Token.lit feedSelect).dollarFree = true := by decide

theorem placeholdersOf_append (a b : List Token) :
    placeholdersOf (a ++ b) = placeholdersOf a ++ placeholdersOf b := by
  induction a with
  | nil => rfl
  | cons t ts ih => cases t <;> simp [placeholdersOf, ih]

theorem placeholdersOf_commaList (ph : List Nat) : placeholdersOf (commaList ph) = ph := by
  induction ph with
  | nil => rfl
  | cons k ks ih =>
    cases ks with
    | nil => rfl
    | cons k2 ks =>
      have h : commaList (k :: k2 :: ks) = .ph k :: .lit "," :: commaList (k2 :: ks) := rfl
      rw [h]
      simp only [placeholdersOf, ih]

theorem placeholdersOf_andList (cs : List Cond) :
    placeholdersOf (andList cs) = cs.flatMap (fun c => placeholdersOf c.tokens) := by
  induction cs with
  | nil => rfl
  | cons c cs ih =>
    cases cs with
    | nil => simp [andList]
    | cons c2 cs =>
      have h : andList (c :: c2 :: cs) = c.tokens ++ .lit " AND " :: andList (c2 :: cs) := rfl
      rw [h, placeholdersOf_append]
      simp only [placeholdersOf, ih, List.flatMap_cons]

theorem dollarFree_commaList (ph : List Nat) : ∀ t ∈ commaList ph, t.dollarFree = true := by
  induction ph with
  | nil => intro t ht; cases ht
  | cons k ks ih =>
    cases ks with
    | nil =>
      intro t ht
      rw [List.mem_singleton.mp ht]
      rfl
    | cons k2 ks =>
      have h : commaList (k :: k2 :: ks) = .ph k :: .lit "," :: commaList (k2 :: ks) := rfl
      rw [h]
      intro t ht
      simp only [List.mem_cons] at ht
      rcases ht with rfl | rfl | ht
      · rfl
      · decide
      · exact ih t (by simpa using ht)

theorem dollarFree_tokens (c : Cond) : ∀ t ∈ c.tokens, t.dollarFree = true := by
  cases c with
  | generalOrIn ph =>
    intro t ht
    simp only [Cond.tokens, List.mem_append, List.mem_singleton] at ht
    rcases ht with (rfl | ht) | rfl
    · decide
    · exact dollarFree_commaList ph t ht
    · decide
  | moduleIn ph =>
    intro t ht
    simp only [Cond.tokens, List.mem_append, List.mem_singleton] at ht
    rcases ht with (rfl | ht) | rfl
    · decide
    · exact dollarFree_commaList ph t ht
    · decide
  | generalOnly => intro t ht; rw [List.mem_singleton.mp ht]; decide
  | nothing => intro t ht; rw [List.mem_singleton.mp ht]; decide
  | categoryEq k =>
    intro t ht
    simp only [Cond.tokens, List.mem_cons, List.mem_singleton, List.not_mem_nil, or_false] at ht
    rcases ht with rfl | rfl
    · decide
    · rfl
  | searchLike k =>
    intro t ht
    simp only [Cond.tokens, List.mem_cons, List.mem_singleton, List.not_mem_nil, or_false] at ht
    rcases ht with rfl | rfl | rfl | rfl | rfl
    · decide
    · rfl
    · decide
    · rfl
    · decide

theorem dollarFree_andList (cs : List Cond) : ∀ t ∈ andList cs, t.dollarFree = true := by
  induction cs with
  | nil => intro t ht; cases ht
  | cons c cs ih =>
    cases cs with
    | nil => exact dollarFree_tokens c
    | cons c2 cs =>
      have h : andList (c :: c2 :: cs) = c.tokens ++ .lit " AND " :: andList (c2 :: cs) := rfl
      rw [h]
      intro t ht
      simp only [List.mem_append, List.mem_cons] at ht
      rcases ht with ht | rfl | ht
      · exact dollarFree_tokens c t ht
      · decide
      · exact ih t ht

/-- No fixed or interpolated text of the query the handler builds has a `$` in it: the
placeholders of the SQL text are those of its pieces. -/
theorem dollarFree_query (ctx : Ctx) (allowed : List (Option Int)) (p : PostsParams) :
    ∀ t ∈ (buildFeedQuery ctx allowed p).tokens, t.dollarFree = true := by
  intro t ht
  unfold FeedQuery.tokens at ht
  simp only [List.mem_append, List.mem_cons, List.mem_singleton, List.not_mem_nil,
    or_false] at ht
  rcases ht with (rfl | ht) | rfl | rfl | rfl | rfl | rfl | rfl
  · exact feedSelect_dollarFree
  · split at ht
    · simp only [List.mem_cons] at ht
      rcases ht with rfl | ht
      · decide
      · exact dollarFree_andList _ t ht
    · cases ht
  · decide
  · have hmem := sortCol_mem p
    have hcol : (buildFeedQuery ctx allowed p).orderBy = (sortCol p).jsString := rfl
    rw [hcol]
    simp only [SORT_MAP, List.mem_cons, List.mem_singleton, List.not_mem_nil, or_false] at hmem
    rcases hmem with h | h | h | h | h <;> rw [h] <;> decide
  · decide
  · rfl
  · decide
  · rfl

theorem visibility_values_length (allowed : List (Option Int)) (p : PostsParams) :
    (visibilityCondition allowed p).2.length = allowed.length := by
  unfold visibilityCondition
  by_cases h1 : allowed.length > 0 <;> by_cases h2 : includeGeneral p = true <;>
    simp [h1, h2]
  · omega
  · omega

theorem mem_inList (n k : Nat) :
    k ∈ (List.range n).map (fun i => 0 + i + 1) ↔ 1 ≤ k ∧ k ≤ n := by
  simp only [List.mem_map, List.mem_range]
  constructor
  · rintro ⟨i, hi, rfl⟩
    omega
  · intro h
    exact ⟨k - 1, by omega, by omega⟩

theorem placeholdersOf_generalOrIn (ph : List Nat) :
    placeholdersOf (Cond.generalOrIn ph).tokens = ph := by
  have h : (Cond.generalOrIn ph).tokens =
      .lit "(d.module_id IS NULL OR d.module_id IN (" :: (commaList ph ++ [.lit "))"]) := rfl
  rw [h]
  simp only [placeholdersOf, placeholdersOf_append, placeholdersOf_commaList, List.append_nil]

theorem placeholdersOf_moduleIn (ph : List Nat) :
    placeholdersOf (Cond.moduleIn ph).tokens = ph := by
  have h : (Cond.moduleIn ph).tokens =
      .lit "d.module_id IN (" :: (commaList ph ++ [.lit ")"]) := rfl
  rw [h]
  simp only [placeholdersOf, placeholdersOf_append, placeholdersOf_commaList, List.append_nil]

theorem visibility_placeholders (allowed : List (Option Int)) (p : PostsParams) (k : Nat) :
    k ∈ placeholdersOf (visibilityCondition allowed p).1.tokens ↔
      1 ≤ k ∧ k ≤ allowed.length := by
  unfold visibilityCondition
  by_cases h1 : allowed.length > 0 <;> by_cases h2 : includeGeneral p = true
  · simp only [h1, h2, if_true, placeholdersOf_generalOrIn]
    exact mem_inList _ _
  · simp only [h1, h2, if_true, if_false, Bool.false_eq_true, placeholdersOf_moduleIn]
    exact mem_inList _ _
  · simp [h1, h2, Cond.tokens, placeholdersOf]
    omega
  · simp [h1, h2, Cond.tokens, placeholdersOf]
    omega

theorem visibility_in_list (allowed : List (Option Int)) (p : PostsParams)
    (h : 0 < allowed.length) :
    ((visibilityCondition allowed p).1 =
        .generalOrIn ((List.range allowed.length).map (fun i => 0 + i + 1)) ∨
      (visibilityCondition allowed p).1 =
        .moduleIn ((List.range allowed.length).map (fun i => 0 + i + 1))) ∧
    (visibilityCondition allowed p).2 = allowed.map PgVal.ofInt? := by
  unfold visibilityCondition
  by_cases h2 : includeGeneral p = true <;> simp [h, h2]

theorem param_left (vs extra : List PgVal) (i : Nat) (hi : i < vs.length) :
    param (vs ++ extra) (i + 1) = vs[i] := by
  have h : (vs ++ extra)[i]? = some vs[i] := by
    rw [List.getElem?_append_left hi, List.getElem?_eq_getElem hi]
  simp [param, List.getD_eq_getElem?_getD, h]

/-- The conditions, the values and the two last placeholders of the query, for each choice
of category and search. -/
theorem buildFeedQuery_parts (ctx : Ctx) (allowed : List (Option Int)) (p : PostsParams) :
    ∃ (filters : List Cond) (bound : List PgVal),
      (buildFeedQuery ctx allowed p).conditions = (visibilityCondition allowed p).1 :: filters ∧
      (buildFeedQuery ctx allowed p).values =
        (visibilityCondition allowed p).2 ++ bound ++
          [PgVal.ofNum (limitNum p), PgVal.ofNum (offset p)] ∧
      (buildFeedQuery ctx allowed p).limitPh = allowed.length + bound.length + 1 ∧
      (buildFeedQuery ctx allowed p).offsetPh = allowed.length + bound.length + 2 ∧
      (∀ k, k ∈ filters.flatMap (fun c => placeholdersOf c.tokens) ↔
        allowed.length + 1 ≤ k ∧ k ≤ allowed.length + bound.length) ∧
      (truthy? p.category = true →
        .categoryEq (allowed.length + 1) ∈ filters ∧
          bound.head? = some (.text (bindText ctx (p.category.getD (.str ""))))) ∧
      (truthy? p.search = true →
        .searchLike (allowed.length + bound.length) ∈ filters ∧
          bound.getLast? = some (.text ("%" ++ (p.search.getD (.str "")).jsString ++ "%"))) := by
  have hlen := visibility_values_length allowed p
  by_cases hc : truthy? p.category = true <;> by_cases hs : truthy? p.search = true
  · refine ⟨[.categoryEq (allowed.length + 1), .searchLike (allowed.length + 2)],
      [.text (bindText ctx (p.category.getD (.str ""))),
        .text ("%" ++ (p.search.getD (.str "")).jsString ++ "%")], ?_, ?_, ?_, ?_, ?_, ?_, ?_⟩
    · simp [buildFeedQuery, hc, hs, hlen]
    · simp [buildFeedQuery, hc, hs]
    · simp [buildFeedQuery, hc, hs, hlen]
    · simp [buildFeedQuery, hc, hs, hlen]
    · intro k
      simp [Cond.tokens, placeholdersOf]
      omega
    · intro _
      simp
    · intro _
      simp
  · refine ⟨[.categoryEq (allowed.length + 1)],
      [.text (bindText ctx (p.category.getD (.str "")))], ?_, ?_, ?_, ?_, ?_, ?_, ?_⟩
    · simp [buildFeedQuery, hc, hs, hlen]
    · simp [buildFeedQuery, hc, hs]
    · simp [buildFeedQuery, hc, hs, hlen]
    · simp [buildFeedQuery, hc, hs, hlen]
    · intro k
      simp [Cond.tokens, placeholdersOf]
      omega
    · intro _
      simp
    · intro h
      exact absurd h hs
  · refine ⟨[.searchLike (allowed.length + 1)],
      [.text ("%" ++ (p.search.getD (.str "")).jsString ++ "%")], ?_, ?_, ?_, ?_, ?_, ?_, ?_⟩
    · simp [buildFeedQuery, hc, hs, hlen]
    · simp [buildFeedQuery, hc, hs]
    · simp [buildFeedQuery, hc, hs, hlen]
    · simp [buildFeedQuery, hc, hs, hlen]
    · intro k
      simp [Cond.tokens, placeholdersOf]
      omega
    · intro h
      exact absurd h hc
    · intro _
      simp
  · refine ⟨[], [], ?_, ?_, ?_, ?_, ?_, ?_, ?_⟩
    · simp [buildFeedQuery, hc, hs]
    · simp [buildFeedQuery, hc, hs]
    · simp [buildFeedQuery, hc, hs, hlen]
    · simp [buildFeedQuery, hc, hs, hlen]
    · intro k
      simp
      omega
    · intro h
      exact absurd h hc
    · intro h
      exact absurd h hs

theorem placeholdersOf_query (q : FeedQuery) (h : q.conditions.length > 0) :
    placeholdersOf q.tokens =
      q.conditions.flatMap (fun c => placeholdersOf c.tokens) ++ [q.limitPh, q.offsetPh] := by
  unfold FeedQuery.tokens
  rw [if_pos h, placeholdersOf_append, placeholdersOf_append]
  simp only [placeholdersOf, placeholdersOf_andList, List.nil_append]

/-- Claim C28. For every list of allowed module ids, of any length `n`, and every
combination of category and search, present or absent, the SQL text of `GET /posts` is the
sequence of its pieces, whose texts have no `$` of their own, so that its placeholders are
those of the pieces: they are exactly `$1` to `$k` with `k` the length of the values array;
when `n > 0` the first condition holds the `IN` list `$1, ..., $n`, and `$i` is bound to the
`i`-th allowed module id; the category condition and the search condition, when present, use
a placeholder bound to the category and to the pattern `%search%`; and `LIMIT` and `OFFSET`
use the last two placeholders, bound to the page size and to the offset. -/
theorem placeholders_match_values (ctx : Ctx) (allowed : List (Option Int))
    (p : PostsParams) :
    (buildFeedQuery ctx allowed p).text = renderTokens (buildFeedQuery ctx allowed p).tokens ∧
    (∀ t ∈ (buildFeedQuery ctx allowed p).tokens, t.dollarFree = true) ∧
    (∀ k, k ∈ placeholdersOf (buildFeedQuery ctx allowed p).tokens ↔
      1 ≤ k ∧ k ≤ (buildFeedQuery ctx allowed p).values.length) ∧
    (0 < allowed.length →
      (buildFeedQuery ctx allowed p).conditions.head? =
          some (.generalOrIn ((List.range allowed.length).map (fun i => 0 + i + 1))) ∨
        (buildFeedQuery ctx allowed p).conditions.head? =
          some (.moduleIn ((List.range allowed.length).map (fun i => 0 + i + 1)))) ∧
    (∀ i (hi : i < allowed.length),
      param (buildFeedQuery ctx allowed p).values (i + 1) = PgVal.ofInt? allowed[i]) ∧
    (truthy? p.category = true →
      ∃ k, .categoryEq k ∈ (buildFeedQuery ctx allowed p).conditions ∧
        param (buildFeedQuery ctx allowed p).values k =
          .text (bindText ctx (p.category.getD (.str "")))) ∧
    (truthy? p.search = true →
      ∃ k, .searchLike k ∈ (buildFeedQuery ctx allowed p).conditions ∧
        param (buildFeedQuery ctx allowed p).values k =
          .text ("%" ++ (p.search.getD (.str "")).jsString ++ "%")) ∧
    (buildFeedQuery ctx allowed p).limitPh + 1 = (buildFeedQuery ctx allowed p).offsetPh ∧
    (buildFeedQuery ctx allowed p).offsetPh = (buildFeedQuery ctx allowed p).values.length ∧
    param (buildFeedQuery ctx allowed p).values (buildFeedQuery ctx allowed p).limitPh =
      PgVal.ofNum (limitNum p) ∧
    param (buildFeedQuery ctx allowed p).values (buildFeedQuery ctx allowed p).offsetPh =
      PgVal.ofNum (offset p) := by
  obtain ⟨filters, bound, hc, hv, hl, ho, hf, hcat, hsearch⟩ :=
    buildFeedQuery_parts ctx allowed p
  have hlen := visibility_values_length allowed p
  have hvlen : (buildFeedQuery ctx allowed p).values.length =
      allowed.length + bound.length + 2 := by
    rw [hv]
    simp [hlen]
    omega
  have hpos : (buildFeedQuery ctx allowed p).conditions.length > 0 := by
    rw [hc]
    simp
  refine ⟨text_eq_tokens _, dollarFree_query ctx allowed p, ?_, ?_, ?_, ?_, ?_, ?_, ?_, ?_, ?_⟩
  · intro k
    rw [placeholdersOf_query _ hpos, hc, hvlen, hl, ho]
    simp only [List.flatMap_cons, List.mem_append, visibility_placeholders, hf, List.mem_cons,
      List.mem_singleton, List.not_mem_nil, or_false]
    omega
  · intro hn
    rw [hc]
    rcases (visibility_in_list allowed p hn).1 with h | h
    · left
      rw [h]
      rfl
    · right
      rw [h]
      rfl
  · intro i hi
    have hn : 0 < allowed.length := by omega
    rw [hv, (visibility_in_list allowed p hn).2, List.append_assoc,
      param_left _ _ i (by simpa using hi)]
    simp
  · intro ht
    obtain ⟨hmem, hhead⟩ := hcat ht
    refine ⟨allowed.length + 1, by rw [hc]; exact List.mem_cons_of_mem _ hmem, ?_⟩
    obtain ⟨rest, hb⟩ : ∃ rest, bound =
        .text (bindText ctx (p.category.getD (.str ""))) :: rest := by
      cases bound with
      | nil => simp at hhead
      | cons x rest => exact ⟨rest, by simpa using hhead⟩
    rw [hv, hb, List.append_assoc, ← hlen]
    exact param_length_succ _ _ _
  · intro ht
    obtain ⟨hmem, hlast⟩ := hsearch ht
    refine ⟨allowed.length + bound.length, by rw [hc]; exact List.mem_cons_of_mem _ hmem, ?_⟩
    obtain ⟨init, hb⟩ : ∃ init, bound =
        init ++ [.text ("%" ++ (p.search.getD (.str "")).jsString ++ "%")] := by
      rcases List.eq_nil_or_concat bound with h | ⟨init, y, h⟩
      · rw [h] at hlast
        simp at hlast
      · rw [h] at hlast
        simp at hlast
        exact ⟨init, by rw [h, List.concat_eq_append, hlast]⟩
    have hk : allowed.length + bound.length =
        ((visibilityCondition allowed p).2 ++ init).length + 1 := by
      rw [hb]
      simp [hlen]
      omega
    rw [hk, hv, hb]
    have hre : (visibilityCondition allowed p).2 ++
          (init ++ [PgVal.text ("%" ++ (p.search.getD (.str "")).jsString ++ "%")]) ++
          [PgVal.ofNum (limitNum p), PgVal.ofNum (offset p)] =
        ((visibilityCondition allowed p).2 ++ init) ++
          PgVal.text ("%" ++ (p.search.getD (.str "")).jsString ++ "%") ::
            [PgVal.ofNum (limitNum p), PgVal.ofNum (offset p)] := by
      simp
    rw [hre]
    exact param_length_succ _ _ _
  · rw [hl, ho]
  · rw [ho, hvlen]
  · have hk : (buildFeedQuery ctx allowed p).limitPh =
        ((visibilityCondition allowed p).2 ++ bound).length + 1 := by
      rw [hl]
      simp [hlen]
    rw [hk, hv]
    exact param_length_add_one _ _ _
  · have hk : (buildFeedQuery ctx allowed p).offsetPh =
        ((visibilityCondition allowed p).2 ++ bound).length + 2 := by
      rw [ho]
      simp [hlen]
    rw [hk, hv]
    exact param_length_add_two _ _ _

/-- Witness of C28: two allowed module ids, a category and a search text give the
placeholders 1 to 6, the search placeholder twice. -/
theorem placeholders_match_values_witness :
    placeholdersOf (buildFeedQuery sampleCtx [some 7, some 8] filteredParams).tokens =
      [1, 2, 3, 4, 4, 5, 6] ∧
    (buildFeedQuery sampleCtx [some 7, some 8] filteredParams).values.length = 6 ∧
    (buildFeedQuery sampleCtx [some 7, some 8] filteredParams).text =
      renderTokens (buildFeedQuery sampleCtx [some 7, some 8] filteredParams).tokens :=
  ⟨by decide, by decide,
    (placeholders_match_values sampleCtx [some 7, some 8] filteredParams).1⟩

end EduConnect
